import Mathlib

/-!
# mac_mcu.c : MAC timer, compare scheduler and interrupt dispatch

Shallow embedding of `Components/mac/low_level/srf04/single_chip/mac_mcu.c`.

* The special function registers are fields of `Mcu`; an operation of the file is a
  function on `Run`, which pairs the machine with the ordered log of the accesses the
  operation itself performs.
* Constants and macros that the file takes from headers outside the sources are the
  fields of `Defs` (bit masks, host byte order) or are modelled from the specification
  (view selection, critical sections, the fatal assertion).
* Callbacks into the rest of the MAC are parameters (`Callbacks`): arbitrary
  transformations of the machine.
* Machine integers are natural numbers, reduced modulo `2^w` wherever the C arithmetic
  can wrap.
-/

namespace MacMcu

/-! ## Header constants -/

/-- Constants of the headers `hal_mcu.h`, `mac_mcu.h` and `mac_radio_defs.h`, which are
not part of the sources: they are parameters of the embedding. -/
structure Defs where
  HAL_MCU_LITTLE_ENDIAN : Bool
  TIMER2_OVF_COMPARE1M : Nat
  TIMER2_OVF_COMPARE1F : Nat
  TIMER2_PERM : Nat
  TIMER2_PERF : Nat
  IRQ_CSP_MANINT : Nat
  IRQ_CSP_STOP : Nat
  IRQ_TXACKDONE : Nat
  IM_TXACKDONE : Nat
  IRQ_FIFOP : Nat
  FIFOP : Nat
  RFERR_RXOVERF : Nat
  CORR_THR : Nat
  CCA_THR : Nat
  TXFILTCFG_RESET_VALUE : Nat
  RFIE : Nat
  RFERRIE : Nat
  IP_RFERR_RF_DMA_BV : Nat
  MAC_RADIO_TIMER_TICKS_PER_BACKOFF : Nat
  LATCH_MODE : Nat
  FRMCTRL0_RESET_VALUE : Nat
  RX_MODE_INFINITE_RECEPTION : Nat
  RX_MODE_NORMAL_OPERATION : Nat
  RCTRL_BITS : Nat
  RCTRL_CLOCK_LFSR : Nat

/-- One concrete configuration, used to evaluate the model on examples: a little-endian
host with the bit assignments `BV(4)` for the overflow-compare-1 flag and mask, `BV(0)` for
the timer period flag and mask, and single-bit radio masks. -/
def cc2530 : Defs where
  HAL_MCU_LITTLE_ENDIAN := true
  TIMER2_OVF_COMPARE1M := 0x10
  TIMER2_OVF_COMPARE1F := 0x10
  TIMER2_PERM := 0x01
  TIMER2_PERF := 0x01
  IRQ_CSP_MANINT := 0x08
  IRQ_CSP_STOP := 0x10
  IRQ_TXACKDONE := 0x01
  IM_TXACKDONE := 0x01
  IRQ_FIFOP := 0x04
  FIFOP := 0x40
  RFERR_RXOVERF := 0x04
  CORR_THR := 0x14
  CCA_THR := 0xFC
  TXFILTCFG_RESET_VALUE := 0x09
  RFIE := 0x01
  RFERRIE := 0x01
  IP_RFERR_RF_DMA_BV := 0x01
  MAC_RADIO_TIMER_TICKS_PER_BACKOFF := 10240
  LATCH_MODE := 0x08
  FRMCTRL0_RESET_VALUE := 0x40
  RX_MODE_INFINITE_RECEPTION := 0x08
  RX_MODE_NORMAL_OPERATION := 0x00
  RCTRL_BITS := 0x0C
  RCTRL_CLOCK_LFSR := 0x04

/-- The same configuration on a big-endian host. -/
def cc2530BigEndian : Defs := { cc2530 with HAL_MCU_LITTLE_ENDIAN := false }

/-- Macro `UINT32_NDX0` (lines 76-87). -/
def UINT32_NDX0 (d : Defs) : Fin 4 := if d.HAL_MCU_LITTLE_ENDIAN then 0 else 3

/-- Macro `UINT32_NDX1`. -/
def UINT32_NDX1 (d : Defs) : Fin 4 := if d.HAL_MCU_LITTLE_ENDIAN then 1 else 2

/-- Macro `UINT32_NDX2`. -/
def UINT32_NDX2 (d : Defs) : Fin 4 := if d.HAL_MCU_LITTLE_ENDIAN then 2 else 1

/-- Macro `UINT32_NDX3`. -/
def UINT32_NDX3 (d : Defs) : Fin 4 := if d.HAL_MCU_LITTLE_ENDIAN then 3 else 0

/-! ## Bytes and multi-byte objects -/

/-- The C expression `~x` for a byte constant `x`, kept to its low eight bits (it is only
ever combined with, or stored to, an 8-bit register). -/
def compl8 (x : Nat) : Nat := 255 ^^^ (x % 256)

/-- The expression `((uint8 *)&x)[i]` for a `uint32` object holding `x`: the byte at
address offset `i` under the host byte order. -/
def peek32 (d : Defs) (x : Nat) (i : Fin 4) : Nat :=
  if d.HAL_MCU_LITTLE_ENDIAN then x / 256 ^ i.val % 256 else x / 256 ^ (3 - i.val) % 256

/-- Local object in memory, byte by byte in address order; `none` is a byte that has not
been stored yet (the locals of the file are declared without initialiser). -/
abbrev Obj := List (Option Nat)

/-- Declaration of a local of `n` bytes without initialiser. -/
def Obj.fresh (n : Nat) : Option Obj := some (List.replicate n none)

/-- The statement `((uint8 *)&x)[i] = b`. A store outside the object has no defined
behaviour: the object is lost (`none`). -/
def Obj.poke (o : Option Obj) (i : Fin 4) (b : Nat) : Option Obj :=
  match o with
  | none => none
  | some l => if i.val < l.length then some (l.set i.val (some (b % 256))) else none

/-- Unsigned value of a list of bytes, least significant byte first. -/
def leValue : List (Option Nat) → Option Nat
  | [] => some 0
  | none :: _ => none
  | some x :: rest => (leValue rest).map (fun y => x + 256 * y)

/-- Value of the object read as one unsigned integer under the host byte order; undefined
when a byte was never stored or the object was lost. -/
def Obj.value (d : Defs) (o : Option Obj) : Option Nat :=
  match o with
  | none => none
  | some l => if d.HAL_MCU_LITTLE_ENDIAN then leValue l else leValue l.reverse

/-! ## The machine -/

/-- Three sub-registers of one 24-bit timer quantity. -/
structure Triple where
  b0 : Nat
  b1 : Nat
  b2 : Nat
deriving DecidableEq

/-- Logical value of a triple. -/
def Triple.value (t : Triple) : Nat := t.b0 + 256 * t.b1 + 65536 * t.b2

/-- Triple holding the three low bytes of `n`. -/
def Triple.ofNat (n : Nat) : Triple := ⟨n % 256, n / 256 % 256, n / 65536 % 256⟩

/-- What the window `T2MOVF0..2` shows. -/
inductive OvfSel where
  | count
  | capture
  | cmp1
deriving DecidableEq

/-- What the window `T2M0..1` shows. -/
inductive TimSel where
  | count
  | capture
  | period
deriving DecidableEq

/-- Configuration and control registers that the file only initialises or updates
(`macMcuInit`, `macMcuRandomByte`); `T2IE` is the interrupt-enable bit of the timer. -/
inductive Sfr where
  | MDMCTRL1 | RXCTRL | CCACTRL0 | MDMCTRL0 | FSCTRL | FSCAL1 | AGCCTRL1 | SRCMATCH
  | ADCTEST0 | ADCTEST1 | ADCTEST2 | TXFILTCFG | CSPT
  | IEN2 | IEN0 | IP0 | IP1 | CHVER
  | T2CTRL | T2IE | FRMCTRL0 | ADCCON1
deriving DecidableEq

/-- Registers held in the machine state. -/
inductive Reg where
  | T2M0 | T2M1 | T2MOVF0 | T2MOVF1 | T2MOVF2
  | T2IRQF | T2IRQM
  | RFIRQF0 | RFIRQF1 | RFIRQM0 | RFIRQM1
  | RFERRF | RFERRM
  | S1CON | RSSI | RNDL | RNDH
  | sfr (s : Sfr)
deriving DecidableEq

/-- Status registers driven by the radio; each read samples the hardware. -/
inductive StatusReg where
  | FSMSTAT1
  | RSSISTAT
  | RFRND
deriving DecidableEq

/-- Variables of the file with static storage. -/
inductive Global where
  | macChipVersion
  | maxRssi
  | accumulatedOverflowCount
deriving DecidableEq

/-- Functions and macros from outside the file that its code calls. -/
inductive Callback where
  | macBackoffTimerCompareIsr
  | mcuRecordMaxRssiIsr
  | macCspTxIntIsr
  | macCspTxStopIsr
  | macRxAckTxDoneCallback
  | macRxThresholdIsr
  | macRxFifoOverflowIsr
  | macRxOn
  | macRxOff
  | MAC_RADIO_TIMER_WAKE_UP
  | MAC_RADIO_TURN_ON_AUTO_ACK
  | MAC_RADIO_SRC_MATCH_INIT_EXTPENDEN
  | MAC_RADIO_SRC_MATCH_INIT_SHORTPENDEN
deriving DecidableEq

/-- Machine state: registers and the static variables of the file. -/
structure Mcu where
  EA : Bool
  ovfSel : OvfSel
  timSel : TimSel
  ovfCount : Triple
  ovfCapture : Triple
  ovfCmp1 : Triple
  timCount0 : Nat
  timCount1 : Nat
  timCapture0 : Nat
  timCapture1 : Nat
  timPeriod0 : Nat
  timPeriod1 : Nat
  T2IRQF : Nat
  T2IRQM : Nat
  RFIRQF0 : Nat
  RFIRQF1 : Nat
  RFIRQM0 : Nat
  RFIRQM1 : Nat
  RFERRF : Nat
  RFERRM : Nat
  S1CON : Nat
  RSSI : Nat
  RNDL : Nat
  RNDH : Nat
  macChipVersion : Nat
  maxRssi : Int
  accumulatedOverflowCount : Nat
  sfr : Sfr → Nat

/-- Machine after reset: every register and variable zero, interrupts enabled. -/
def Mcu.zero : Mcu where
  EA := true
  ovfSel := .count
  timSel := .count
  ovfCount := ⟨0, 0, 0⟩
  ovfCapture := ⟨0, 0, 0⟩
  ovfCmp1 := ⟨0, 0, 0⟩
  timCount0 := 0
  timCount1 := 0
  timCapture0 := 0
  timCapture1 := 0
  timPeriod0 := 0
  timPeriod1 := 0
  T2IRQF := 0
  T2IRQM := 0
  RFIRQF0 := 0
  RFIRQF1 := 0
  RFIRQM0 := 0
  RFIRQM1 := 0
  RFERRF := 0
  RFERRM := 0
  S1CON := 0
  RSSI := 0
  RNDL := 0
  RNDH := 0
  macChipVersion := 0
  maxRssi := 0
  accumulatedOverflowCount := 0
  sfr := fun _ => 0

/-- The triple shown in the window `T2MOVF0..2`. -/
def Mcu.ovfView (m : Mcu) : Triple :=
  match m.ovfSel with
  | .count => m.ovfCount
  | .capture => m.ovfCapture
  | .cmp1 => m.ovfCmp1

/-- Replace the triple shown in the window `T2MOVF0..2`. -/
def Mcu.setOvfView (m : Mcu) (t : Triple) : Mcu :=
  match m.ovfSel with
  | .count => { m with ovfCount := t }
  | .capture => { m with ovfCapture := t }
  | .cmp1 => { m with ovfCmp1 := t }

/-- Content of a register. The windowed registers show the selected view. -/
def Mcu.get (m : Mcu) : Reg → Nat
  | .T2M0 =>
    match m.timSel with
    | .count => m.timCount0
    | .capture => m.timCapture0
    | .period => m.timPeriod0
  | .T2M1 =>
    match m.timSel with
    | .count => m.timCount1
    | .capture => m.timCapture1
    | .period => m.timPeriod1
  | .T2MOVF0 => m.ovfView.b0
  | .T2MOVF1 => m.ovfView.b1
  | .T2MOVF2 => m.ovfView.b2
  | .T2IRQF => m.T2IRQF
  | .T2IRQM => m.T2IRQM
  | .RFIRQF0 => m.RFIRQF0
  | .RFIRQF1 => m.RFIRQF1
  | .RFIRQM0 => m.RFIRQM0
  | .RFIRQM1 => m.RFIRQM1
  | .RFERRF => m.RFERRF
  | .RFERRM => m.RFERRM
  | .S1CON => m.S1CON
  | .RSSI => m.RSSI
  | .RNDL => m.RNDL
  | .RNDH => m.RNDH
  | .sfr x => m.sfr x

/-- Effect of writing the byte `v` to a register. Hardware model: the windowed registers
store into the selected view; the interrupt flag registers `T2IRQF`, `RFIRQF0`, `RFIRQF1`
and `RFERRF` are write-0-to-clear (a written 1 leaves the flag as it is, which is what the
statements `RFIRQF1 = ~IRQ_CSP_MANINT;  /* clear flag */` of the file rely on); a write to
`RNDL` first moves the old `RNDL` to `RNDH` (comment at lines 246-249); every other
register is a plain storage cell. -/
def Mcu.set (m : Mcu) (x : Reg) (v : Nat) : Mcu :=
  match x with
  | .T2M0 =>
    match m.timSel with
    | .count => { m with timCount0 := v }
    | .capture => { m with timCapture0 := v }
    | .period => { m with timPeriod0 := v }
  | .T2M1 =>
    match m.timSel with
    | .count => { m with timCount1 := v }
    | .capture => { m with timCapture1 := v }
    | .period => { m with timPeriod1 := v }
  | .T2MOVF0 => m.setOvfView { m.ovfView with b0 := v }
  | .T2MOVF1 => m.setOvfView { m.ovfView with b1 := v }
  | .T2MOVF2 => m.setOvfView { m.ovfView with b2 := v }
  | .T2IRQF => { m with T2IRQF := m.T2IRQF &&& v }
  | .T2IRQM => { m with T2IRQM := v }
  | .RFIRQF0 => { m with RFIRQF0 := m.RFIRQF0 &&& v }
  | .RFIRQF1 => { m with RFIRQF1 := m.RFIRQF1 &&& v }
  | .RFIRQM0 => { m with RFIRQM0 := v }
  | .RFIRQM1 => { m with RFIRQM1 := v }
  | .RFERRF => { m with RFERRF := m.RFERRF &&& v }
  | .RFERRM => { m with RFERRM := v }
  | .S1CON => { m with S1CON := v }
  | .RSSI => { m with RSSI := v }
  | .RNDL => { m with RNDH := m.RNDL, RNDL := v }
  | .RNDH => { m with RNDH := v }
  | .sfr x => { m with sfr := fun y => if y = x then v else m.sfr y }

/-- One step of the access log of an operation. -/
inductive Event where
  | enterCritical
  | exitCritical
  | select (o : OvfSel) (t : TimSel)
  | read (x : Reg) (v : Nat)
  | write (x : Reg) (v : Nat)
  | sample (x : StatusReg) (v : Nat)
  | assign (g : Global) (v : Int)
  | call (c : Callback)
deriving DecidableEq

/-- Execution context: the machine, the log of what the code of this file has done so far,
and the radio status inputs. `fsmstat1 k` is the value the `k`-th read of `FSMSTAT1`
returns (counting from 0), `polls` the number of reads made so far; likewise `rssistat`
and `rssistatReads` for `RSSISTAT`, `rfrnd` and `rfrndReads` for `RFRND`. -/
structure Run where
  hw : Mcu
  log : List Event
  fsmstat1 : Nat → Nat
  polls : Nat
  rssistat : Nat → Nat
  rssistatReads : Nat
  rfrnd : Nat → Nat
  rfrndReads : Nat

/-- Context with an empty log around a machine and an `FSMSTAT1` input; `RSSISTAT` and
`RFRND` read as zero. -/
def Run.start (m : Mcu) (fsm : Nat → Nat) : Run where
  hw := m
  log := []
  fsmstat1 := fsm
  polls := 0
  rssistat := fun _ => 0
  rssistatReads := 0
  rfrnd := fun _ => 0
  rfrndReads := 0

/-- Append one event to the log. -/
def Run.emit (r : Run) (e : Event) : Run := { r with log := r.log ++ [e] }

/-- Read of a register. -/
def rd (x : Reg) (r : Run) : Nat × Run := (r.hw.get x, r.emit (.read x (r.hw.get x)))

/-- Write of a register; the register takes the low eight bits. -/
def wr (x : Reg) (v : Nat) (r : Run) : Run :=
  { r with hw := r.hw.set x (v % 256), log := r.log ++ [.write x (v % 256)] }

/-- Read of the status register `FSMSTAT1`: the next value of the status input. -/
def rdFSMSTAT1 (r : Run) : Nat × Run :=
  (r.fsmstat1 r.polls,
   { r with polls := r.polls + 1, log := r.log ++ [.sample .FSMSTAT1 (r.fsmstat1 r.polls)] })

/-- Read of the status register `RSSISTAT`: the next value of its input. -/
def rdRSSISTAT (r : Run) : Nat × Run :=
  (r.rssistat r.rssistatReads,
   { r with rssistatReads := r.rssistatReads + 1,
            log := r.log ++ [.sample .RSSISTAT (r.rssistat r.rssistatReads)] })

/-- Read of the register `RFRND`: the next value of its input. -/
def rdRFRND (r : Run) : Nat × Run :=
  (r.rfrnd r.rfrndReads,
   { r with rfrndReads := r.rfrndReads + 1,
            log := r.log ++ [.sample .RFRND (r.rfrnd r.rfrndReads)] })

/-- Call of a function outside the file: logged, then it transforms the machine. -/
def invoke (c : Callback) (f : Mcu → Mcu) (r : Run) : Run :=
  { r with hw := f r.hw, log := r.log ++ [.call c] }

/-- Functions of the MAC that the file calls, and the radio macros of `mac_radio_defs.h`
that `macMcuInit` expands; they live outside the sources and may change the machine in any
way. -/
structure Callbacks where
  macBackoffTimerCompareIsr : Mcu → Mcu
  macCspTxIntIsr : Mcu → Mcu
  macCspTxStopIsr : Mcu → Mcu
  macRxAckTxDoneCallback : Mcu → Mcu
  macRxThresholdIsr : Mcu → Mcu
  macRxFifoOverflowIsr : Mcu → Mcu
  macRxOn : Mcu → Mcu
  macRxOff : Mcu → Mcu
  MAC_RADIO_TIMER_WAKE_UP : Mcu → Mcu
  MAC_RADIO_TURN_ON_AUTO_ACK : Mcu → Mcu
  MAC_RADIO_SRC_MATCH_INIT_EXTPENDEN : Mcu → Mcu
  MAC_RADIO_SRC_MATCH_INIT_SHORTPENDEN : Mcu → Mcu

/-- Callbacks that leave the machine alone. -/
def Callbacks.idle : Callbacks where
  macBackoffTimerCompareIsr := id
  macCspTxIntIsr := id
  macCspTxStopIsr := id
  macRxAckTxDoneCallback := id
  macRxThresholdIsr := id
  macRxFifoOverflowIsr := id
  macRxOn := id
  macRxOff := id
  MAC_RADIO_TIMER_WAKE_UP := id
  MAC_RADIO_TURN_ON_AUTO_ACK := id
  MAC_RADIO_SRC_MATCH_INIT_EXTPENDEN := id
  MAC_RADIO_SRC_MATCH_INIT_SHORTPENDEN := id

/-- Modelled from the spec: macro `HAL_ENTER_CRITICAL_SECTION` of `hal_mcu.h` (not in the
sources). Section 4.1: interrupts are disabled for the duration of the body and the prior
interrupt-enable state is restored on exit. Returns the saved state. -/
def HAL_ENTER_CRITICAL_SECTION (r : Run) : Bool × Run :=
  (r.hw.EA, { r with hw := { r.hw with EA := false }, log := r.log ++ [.enterCritical] })

/-- Modelled from the spec: macro `HAL_EXIT_CRITICAL_SECTION` of `hal_mcu.h` (not in the
sources): restores the interrupt-enable state saved on entry. -/
def HAL_EXIT_CRITICAL_SECTION (s : Bool) (r : Run) : Run :=
  { r with hw := { r.hw with EA := s }, log := r.log ++ [.exitCritical] }

/-- Modelled from the spec: the access macros of `mac_mcu.h` (not in the sources) select
the view that the windowed timer registers show. -/
def selectView (o : OvfSel) (t : TimSel) (r : Run) : Run :=
  { r with hw := { r.hw with ovfSel := o, timSel := t }, log := r.log ++ [.select o t] }

/-- Modelled from the spec: `MAC_MCU_T2_ACCESS_OVF_COUNT_VALUE()`, the overflow-count
view; by the comment at line 356 it gives access to both `T2MOVFx` and `T2Mx`. -/
def MAC_MCU_T2_ACCESS_OVF_COUNT_VALUE (r : Run) : Run := selectView .count .count r

/-- Modelled from the spec: `MAC_MCU_T2_ACCESS_OVF_CAPTURE_VALUE()`, the captured
overflow triplet. -/
def MAC_MCU_T2_ACCESS_OVF_CAPTURE_VALUE (r : Run) : Run := selectView .capture .count r

/-- Modelled from the spec: `MAC_MCU_T2_ACCESS_OVF_CMP1_VALUE()`, the overflow compare
triplet. -/
def MAC_MCU_T2_ACCESS_OVF_CMP1_VALUE (r : Run) : Run := selectView .cmp1 .count r

/-- Modelled from the spec: `MAC_MCU_T2_ACCESS_COUNT_VALUE()`, the timer count through
`T2M0..1`. -/
def MAC_MCU_T2_ACCESS_COUNT_VALUE (r : Run) : Run := selectView .count .count r

/-- Modelled from the spec: `MAC_MCU_T2_ACCESS_CAPTURE_VALUE()`, the last timer capture
through `T2M0..1`. -/
def MAC_MCU_T2_ACCESS_CAPTURE_VALUE (r : Run) : Run := selectView .count .capture r

/-- Modelled from the spec: `MAC_MCU_T2_ACCESS_PERIOD_VALUE()`, the timer period (rollover)
through `T2M0..1`. -/
def MAC_MCU_T2_ACCESS_PERIOD_VALUE (r : Run) : Run := selectView .count .period r

/-- Result of an operation that starts with `MAC_ASSERT`: `done r`, it ran to its end and
left `r`; `halted r`, the assertion failed and the system stopped in `r`; `undefined`, it
used a value that the C code leaves undefined. -/
inductive Outcome where
  | done (r : Run)
  | halted (r : Run)
  | undefined

/-! ## Extended timer -/

/-- Function `macMcuOverflowCount` (lines 347-368). -/
def macMcuOverflowCount (d : Defs) (r : Run) : Option Nat × Run :=
  let overflowCount := Obj.fresh 4
  let (s, r) := HAL_ENTER_CRITICAL_SECTION r
  let r := MAC_MCU_T2_ACCESS_OVF_COUNT_VALUE r
  let (_, r) := rd .T2M0 r
  let (b, r) := rd .T2MOVF0 r
  let overflowCount := Obj.poke overflowCount (UINT32_NDX0 d) b
  let (b, r) := rd .T2MOVF1 r
  let overflowCount := Obj.poke overflowCount (UINT32_NDX1 d) b
  let (b, r) := rd .T2MOVF2 r
  let overflowCount := Obj.poke overflowCount (UINT32_NDX2 d) b
  let overflowCount := Obj.poke overflowCount (UINT32_NDX3 d) 0
  let r := HAL_EXIT_CRITICAL_SECTION s r
  (Obj.value d overflowCount, r)

/-- Assignment to the static variable `accumulatedOverflowCount` (a `uint32`). -/
def setAccumulatedOverflowCount (v : Nat) (r : Run) : Run :=
  { r with hw := { r.hw with accumulatedOverflowCount := v },
           log := r.log ++ [.assign .accumulatedOverflowCount v] }

/-- Modelled from the spec: macro `MAC_ASSERT` of `mac_assert.h` (not in the sources).
Section 7: a violated precondition is signalled by a fatal assertion that halts the system.
When `expr` holds the operation goes on with `rest`; otherwise the system is halted in the
state `r` it is in. -/
def MAC_ASSERT (expr : Prop) [Decidable expr] (r : Run) (rest : Outcome) : Outcome :=
  if expr then rest else .halted r

/-- Function `macMcuOverflowSetCount` (lines 410-431). The assertion `!(count >> 24)` holds
when `count >> 24` is zero. -/
def macMcuOverflowSetCount (d : Defs) (count : Nat) (r : Run) : Outcome :=
  MAC_ASSERT (count >>> 24 = 0) r <|
    match macMcuOverflowCount d r with
    | (none, _) => .undefined
    | (some c, r) =>
      let r := setAccumulatedOverflowCount ((r.hw.accumulatedOverflowCount + c) % 2 ^ 32) r
      let r := setAccumulatedOverflowCount
        ((r.hw.accumulatedOverflowCount + 2 ^ 32 - count % 2 ^ 32) % 2 ^ 32) r
      let (s, r) := HAL_ENTER_CRITICAL_SECTION r
      let r := MAC_MCU_T2_ACCESS_OVF_COUNT_VALUE r
      let r := wr .T2MOVF0 (peek32 d count (UINT32_NDX0 d)) r
      let r := wr .T2MOVF1 (peek32 d count (UINT32_NDX1 d)) r
      let r := wr .T2MOVF2 (peek32 d count (UINT32_NDX2 d)) r
      .done (HAL_EXIT_CRITICAL_SECTION s r)

/-- Function `macMcuOverflowCapture` (lines 382-397). -/
def macMcuOverflowCapture (d : Defs) (r : Run) : Option Nat × Run :=
  let overflowCapture := Obj.fresh 4
  let (s, r) := HAL_ENTER_CRITICAL_SECTION r
  let r := MAC_MCU_T2_ACCESS_OVF_CAPTURE_VALUE r
  let (b, r) := rd .T2MOVF0 r
  let overflowCapture := Obj.poke overflowCapture (UINT32_NDX0 d) b
  let (b, r) := rd .T2MOVF1 r
  let overflowCapture := Obj.poke overflowCapture (UINT32_NDX1 d) b
  let (b, r) := rd .T2MOVF2 r
  let overflowCapture := Obj.poke overflowCapture (UINT32_NDX2 d) b
  let overflowCapture := Obj.poke overflowCapture (UINT32_NDX3 d) 0
  let r := HAL_EXIT_CRITICAL_SECTION s r
  (Obj.value d overflowCapture, r)

/-- Function `macMcuPrecisionCount` (lines 599-623). The result variable is a `uint16`,
an object of two bytes, indexed with `UINT32_NDX0` and `UINT32_NDX1`. -/
def macMcuPrecisionCount (d : Defs) (r : Run) : Option Nat × Run :=
  let overflowCount := Obj.fresh 2
  let (s, r) := HAL_ENTER_CRITICAL_SECTION r
  let r := MAC_MCU_T2_ACCESS_OVF_COUNT_VALUE r
  let (_, r) := rd .T2M0 r
  let (b, r) := rd .T2MOVF0 r
  let overflowCount := Obj.poke overflowCount (UINT32_NDX0 d) b
  let (b, r) := rd .T2MOVF1 r
  let overflowCount := Obj.poke overflowCount (UINT32_NDX1 d) b
  let r := HAL_EXIT_CRITICAL_SECTION s r
  ((Obj.value d overflowCount).map
      (fun oc => (oc + r.hw.accumulatedOverflowCount % 65536) % 65536), r)

/-- Hardware model: the 24-bit overflow counter advances by `n` ticks, wrapping at
`2^24`. -/
def Mcu.advance (n : Nat) (m : Mcu) : Mcu :=
  { m with ovfCount := Triple.ofNat ((m.ovfCount.value + n) % 2 ^ 24) }

/-- The sub-registers of the overflow counter hold bytes. -/
def Mcu.counterBytes (m : Mcu) : Prop :=
  m.ovfCount.b0 < 256 ∧ m.ovfCount.b1 < 256 ∧ m.ovfCount.b2 < 256

instance (m : Mcu) : Decidable m.counterBytes := by
  unfold Mcu.counterBytes
  exact inferInstance

/-! ## Backoff compare scheduler -/

/-- Function `macMcuOverflowSetCompare` (lines 445-481). The compound assignments on
registers are a read followed by a write. -/
def macMcuOverflowSetCompare (d : Defs) (count : Nat) (r : Run) : Outcome :=
  MAC_ASSERT (count >>> 24 = 0) r <|
    let (s, r) := HAL_ENTER_CRITICAL_SECTION r
    let (m, r) := rd .T2IRQM r
    let (enableCompareInt, r) :=
      if m &&& d.TIMER2_OVF_COMPARE1M ≠ 0 then
        let (m, r) := rd .T2IRQM r
        (1, wr .T2IRQM (m &&& compl8 d.TIMER2_OVF_COMPARE1M) r)
      else (0, r)
    let r := MAC_MCU_T2_ACCESS_OVF_CMP1_VALUE r
    let r := wr .T2MOVF0 (peek32 d count (UINT32_NDX0 d)) r
    let r := wr .T2MOVF1 (peek32 d count (UINT32_NDX1 d)) r
    let r := wr .T2MOVF2 (peek32 d count (UINT32_NDX2 d)) r
    let (f, r) := rd .T2IRQF r
    let r := wr .T2IRQF (f &&& compl8 d.TIMER2_OVF_COMPARE1F) r
    let r :=
      if enableCompareInt ≠ 0 then
        let (m, r) := rd .T2IRQM r
        wr .T2IRQM (m ||| d.TIMER2_OVF_COMPARE1M) r
      else r
    .done (HAL_EXIT_CRITICAL_SECTION s r)

/-- Function `macMcuOverflowGetCompare` (lines 494-512). -/
def macMcuOverflowGetCompare (d : Defs) (r : Run) : Option Nat × Run :=
  let compare := Obj.fresh 4
  let (s, r) := HAL_ENTER_CRITICAL_SECTION r
  let r := MAC_MCU_T2_ACCESS_OVF_CMP1_VALUE r
  let (b, r) := rd .T2MOVF0 r
  let compare := Obj.poke compare (UINT32_NDX0 d) b
  let (b, r) := rd .T2MOVF1 r
  let compare := Obj.poke compare (UINT32_NDX1 d) b
  let (b, r) := rd .T2MOVF2 r
  let compare := Obj.poke compare (UINT32_NDX2 d) b
  let compare := Obj.poke compare (UINT32_NDX3 d) 0
  let r := HAL_EXIT_CRITICAL_SECTION s r
  (Obj.value d compare, r)

/-- Modelled from the spec: macro `MAC_RADIO_BACKOFF_COUNT()` of `mac_radio_defs.h` (not
in the sources), the current backoff count. Sections 2 and 3: the tick value is the
hardware overflow count, and the compare interrupt is raised when the overflow counter
reaches the compare target. -/
def MAC_RADIO_BACKOFF_COUNT (d : Defs) (r : Run) : Option Nat × Run :=
  macMcuOverflowCount d r

/-! ## RSSI peak recorder -/

/-- Conversion of a register byte to `int8`. -/
def toInt8 (b : Nat) : Int := if b % 256 < 128 then (b % 256 : Nat) else ((b % 256 : Nat) : Int) - 256

/-- Assignment to the static variable `maxRssi`. -/
def setMaxRssi (v : Int) (r : Run) : Run :=
  { r with hw := { r.hw with maxRssi := v }, log := r.log ++ [.assign .maxRssi v] }

/-- Function `mcuRecordMaxRssiIsr` (lines 760-772). -/
def mcuRecordMaxRssiIsr (r : Run) : Run :=
  let (v, r) := rd .RSSI r
  let rssi := toInt8 v
  if rssi > r.hw.maxRssi then setMaxRssi rssi r else r

/-! ## Interrupt dispatch -/

/-- Function `macMcuTimer2Isr` (lines 525-555): the body of the interrupt function that
`HAL_ISR_FUNCTION` declares. -/
def macMcuTimer2Isr (d : Defs) (cb : Callbacks) (r : Run) : Run :=
  let (t2irqm, r) := rd .T2IRQM r
  let (t2irqf, r) := rd .T2IRQF r
  if (t2irqf &&& d.TIMER2_OVF_COMPARE1F) &&& t2irqm ≠ 0 then
    let r := invoke .macBackoffTimerCompareIsr cb.macBackoffTimerCompareIsr r
    let (f, r) := rd .T2IRQF r
    wr .T2IRQF (f &&& compl8 d.TIMER2_OVF_COMPARE1F) r
  else if (t2irqf &&& d.TIMER2_PERF) &&& t2irqm ≠ 0 then
    let r := mcuRecordMaxRssiIsr (r.emit (.call .mcuRecordMaxRssiIsr))
    let (f, r) := rd .T2IRQF r
    wr .T2IRQF (f &&& compl8 d.TIMER2_PERF) r
  else r

/-- Function `macMcuTimer2OverflowWorkaround` (lines 570-585). The operands of `>` are
evaluated left to right. -/
def macMcuTimer2OverflowWorkaround (d : Defs) (cb : Callbacks) (r : Run) : Option Run :=
  let (m, r) := rd .T2IRQM r
  if m &&& d.TIMER2_OVF_COMPARE1F ≠ 0 then
    let (f, r) := rd .T2IRQF r
    if f &&& d.TIMER2_OVF_COMPARE1F = 0 then
      let (a, r) := MAC_RADIO_BACKOFF_COUNT d r
      let (b, r) := macMcuOverflowGetCompare d r
      match a, b with
      | some a, some b =>
        if a > b then
          let r := invoke .macBackoffTimerCompareIsr cb.macBackoffTimerCompareIsr r
          let (f, r) := rd .T2IRQF r
          some (wr .T2IRQF (f &&& compl8 d.TIMER2_OVF_COMPARE1F) r)
        else some r
      | _, _ => none
    else some r
  else some r

/-- First part of `macMcuRfIsr` (lines 639-670): the conditions of `RFIRQF1`. -/
def macMcuRfIsrCsp (d : Defs) (cb : Callbacks) (r : Run) : Run :=
  let (rfim, r) := rd .RFIRQM1 r
  let r := wr .S1CON 0x00 r
  let (f, r) := rd .RFIRQF1 r
  if (f &&& d.IRQ_CSP_MANINT) &&& rfim ≠ 0 then
    let r := wr .RFIRQF1 (compl8 d.IRQ_CSP_MANINT) r
    invoke .macCspTxIntIsr cb.macCspTxIntIsr r
  else
    let (f, r) := rd .RFIRQF1 r
    if (f &&& d.IRQ_CSP_STOP) &&& rfim ≠ 0 then
      let r := wr .RFIRQF1 (compl8 d.IRQ_CSP_STOP) r
      invoke .macCspTxStopIsr cb.macCspTxStopIsr r
    else
      let (f, r) := rd .RFIRQF1 r
      if (f &&& d.IRQ_TXACKDONE) &&& rfim ≠ 0 then
        let (m, r) := rd .RFIRQM1 r
        let r := wr .RFIRQM1 (m &&& compl8 d.IM_TXACKDONE) r
        invoke .macRxAckTxDoneCallback cb.macRxAckTxDoneCallback r
      else r

/-- The `do ... while (FSMSTAT1 & FIFOP)` loop of `macMcuRfIsr` (lines 678-682). The
loop has no bound of its own: `fuel` limits the number of iterations, and `none` means
that the fuel did not suffice. -/
def rxThresholdLoop (d : Defs) (cb : Callbacks) : Nat → Run → Option Run
  | 0, _ => none
  | fuel + 1, r =>
    let r := invoke .macRxThresholdIsr cb.macRxThresholdIsr r
    let r := wr .RFIRQF0 (compl8 d.IRQ_FIFOP) r
    let (st, r) := rdFSMSTAT1 r
    if st &&& d.FIFOP ≠ 0 then rxThresholdLoop d cb fuel r else some r

/-- Second part of `macMcuRfIsr` (lines 672-683): the FIFO threshold condition. -/
def macMcuRfIsrFifop (d : Defs) (cb : Callbacks) (fuel : Nat) (r : Run) : Option Run :=
  let (rfim, r) := rd .RFIRQM0 r
  let (f, r) := rd .RFIRQF0 r
  if (f &&& d.IRQ_FIFOP) &&& rfim ≠ 0 then rxThresholdLoop d cb fuel r else some r

/-- Function `macMcuRfIsr` (lines 637-684): the body of the interrupt function that
`HAL_ISR_FUNCTION` declares, its two parts in sequence. -/
def macMcuRfIsr (d : Defs) (cb : Callbacks) (fuel : Nat) (r : Run) : Option Run :=
  macMcuRfIsrFifop d cb fuel (macMcuRfIsrCsp d cb r)

/-- Number of calls of `c` in a log. -/
def callCount (c : Callback) (l : List Event) : Nat := l.count (.call c)

/-! ## Remaining operations of the file -/

/-- Function `macMcuTimerForceDelay` (lines 299-308); `x` is a `uint16`. -/
def macMcuTimerForceDelay (x : Nat) (r : Run) : Run :=
  let (s, r) := HAL_ENTER_CRITICAL_SECTION r
  let r := MAC_MCU_T2_ACCESS_COUNT_VALUE r
  let r := wr .T2M0 (x &&& 0xFF) r
  let r := wr .T2M1 (x >>> 8) r
  HAL_EXIT_CRITICAL_SECTION s r

/-- Function `macMcuTimerCapture` (lines 321-333); the result variable is a `uint16`. -/
def macMcuTimerCapture (r : Run) : Nat × Run :=
  let (s, r) := HAL_ENTER_CRITICAL_SECTION r
  let r := MAC_MCU_T2_ACCESS_CAPTURE_VALUE r
  let (b, r) := rd .T2M1 r
  let timerCapture := (b <<< 8) % 65536
  let (b, r) := rd .T2M0 r
  let timerCapture := (timerCapture ||| b) % 65536
  let r := HAL_EXIT_CRITICAL_SECTION s r
  (timerCapture, r)

/-- Function `macMcuRandomByte` (lines 280-287). The advance of the random generator that
the write to `ADCCON1` triggers in hardware is not part of the model. -/
def macMcuRandomByte (d : Defs) (r : Run) : Nat × Run :=
  let (a, r) := rd (.sfr .ADCCON1) r
  let r := wr (.sfr .ADCCON1) ((a &&& compl8 d.RCTRL_BITS) ||| d.RCTRL_CLOCK_LFSR) r
  rd .RNDH r

/-- Function `macMcuRfErrIsr` (lines 698-707): the body of the interrupt function that
`HAL_ISR_FUNCTION` declares. -/
def macMcuRfErrIsr (d : Defs) (cb : Callbacks) (r : Run) : Run :=
  let (rferrm, r) := rd .RFERRM r
  let (f, r) := rd .RFERRF r
  if (f &&& d.RFERR_RXOVERF) &&& rferrm ≠ 0 then
    let (f, r) := rd .RFERRF r
    let r := wr .RFERRF (f &&& compl8 d.RFERR_RXOVERF) r
    invoke .macRxFifoOverflowIsr cb.macRxFifoOverflowIsr r
  else r

/-- Function `macMcuRecordMaxRssiStart` (lines 720-727). -/
def macMcuRecordMaxRssiStart (d : Defs) (r : Run) : Run :=
  let r := setMaxRssi (-128) r
  let (m, r) := rd .T2IRQM r
  wr .T2IRQM (m ||| d.TIMER2_PERM) r

/-- Function `macMcuRecordMaxRssiStop` (lines 741-747). -/
def macMcuRecordMaxRssiStop (d : Defs) (r : Run) : Int × Run :=
  let (m, r) := rd .T2IRQM r
  let r := wr .T2IRQM (m &&& compl8 d.TIMER2_PERM) r
  (r.hw.maxRssi, r)

/-- Two's complement byte of a signed 8-bit sample. -/
def ofInt8 (s : Int) : Nat := (s % 256).toNat

/-- Hardware model: the radio puts a new measurement into `RSSI`. -/
def Mcu.measure (b : Nat) (m : Mcu) : Mcu := { m with RSSI := b }

/-- One overflow tick during a recording: the radio has a new measurement `b` in `RSSI` and
the timer handler runs the sample update `mcuRecordMaxRssiIsr`. -/
def rssiTick (r : Run) (b : Nat) : Run := mcuRecordMaxRssiIsr { r with hw := r.hw.measure b }

/-- Recording window: `macMcuRecordMaxRssiStart`, one sample update per measurement of
`bs` in order, `macMcuRecordMaxRssiStop`. -/
def rssiWindow (d : Defs) (bs : List Nat) (r : Run) : Int × Run :=
  macMcuRecordMaxRssiStop d (bs.foldl rssiTick (macMcuRecordMaxRssiStart d r))

/-- Assignment to the static variable `macChipVersion`. -/
def setMacChipVersion (v : Nat) (r : Run) : Run :=
  { r with hw := { r.hw with macChipVersion := v },
           log := r.log ++ [.assign .macChipVersion v] }

/-- The loop `while (!(RSSISTAT & 0x01));` of `macMcuInit` (line 221). It has no bound of
its own: `fuel` limits the number of reads, and `none` means that the fuel did not
suffice. -/
def waitRssiValid : Nat → Run → Option Run
  | 0, _ => none
  | fuel + 1, r =>
    let (v, r) := rdRSSISTAT r
    if v &&& 0x01 ≠ 0 then some r else waitRssiValid fuel r

/-- The loop `for(i=0; i<16; i++)` of `macMcuInit` (lines 230-234) with `n` iterations left;
`rndSeed` is a `uint16`. -/
def seedLoop : Nat → Nat → Run → Nat × Run
  | 0, rndSeed, r => (rndSeed, r)
  | n + 1, rndSeed, r =>
    let (v, r) := rdRFRND r
    seedLoop n (((rndSeed <<< 1) ||| (v &&& 0x01)) % 65536) r

/-- The block of `macMcuInit` that seeds the random generator (lines 224-252). Returns the
final value of the local `rndSeed` next to the context. -/
def macMcuInitSeed (r : Run) : Nat × Run :=
  let rndSeed := 0
  let (rndSeed, r) := seedLoop 16 rndSeed r
  let rndSeed := if rndSeed = 0x0000 ∨ rndSeed = 0x0380 then 0xBABE else rndSeed
  let r := wr .RNDL (rndSeed &&& 0xFF) r
  let r := wr .RNDL (rndSeed >>> 8) r
  (rndSeed, r)

/-- First block of `macMcuInit` (lines 126-182): radio tuning registers, interrupt enables
and priorities, chip version. -/
def macMcuInitRadio (d : Defs) (r : Run) : Run :=
  let r := wr (.sfr .MDMCTRL1) d.CORR_THR r
  let r := wr (.sfr .RXCTRL) 0x3F r
  let r := wr (.sfr .CCACTRL0) d.CCA_THR r
  let r := wr (.sfr .MDMCTRL0) 0x85 r
  let r := wr (.sfr .FSCTRL) 0x5A r
  let r := wr (.sfr .FSCAL1) 0x00 r
  let r := wr (.sfr .AGCCTRL1) 0x15 r
  let r := wr (.sfr .SRCMATCH) 0 r
  let r := wr (.sfr .ADCTEST0) 0x10 r
  let r := wr (.sfr .ADCTEST1) 0x0E r
  let r := wr (.sfr .ADCTEST2) 0x03 r
  let r := wr (.sfr .TXFILTCFG) d.TXFILTCFG_RESET_VALUE r
  let r := wr (.sfr .CSPT) 0xFF r
  let (v, r) := rd (.sfr .IEN2) r
  let r := wr (.sfr .IEN2) (v ||| d.RFIE) r
  let (v, r) := rd (.sfr .IEN0) r
  let r := wr (.sfr .IEN0) (v ||| d.RFERRIE) r
  let (v, r) := rd (.sfr .IP0) r
  let r := wr (.sfr .IP0) (v ||| d.IP_RFERR_RF_DMA_BV) r
  let (v, r) := rd (.sfr .IP1) r
  let r := wr (.sfr .IP1) (v &&& compl8 d.IP_RFERR_RF_DMA_BV) r
  let (v, r) := rd (.sfr .CHVER) r
  setMacChipVersion v r

/-- Second block of `macMcuInit` (lines 184-202): timer rollover, timer start, latch mode,
timer interrupt enable. -/
def macMcuInitTimer (d : Defs) (cb : Callbacks) (r : Run) : Run :=
  let (s, r) := HAL_ENTER_CRITICAL_SECTION r
  let r := MAC_MCU_T2_ACCESS_PERIOD_VALUE r
  let r := wr .T2M0 (d.MAC_RADIO_TIMER_TICKS_PER_BACKOFF &&& 0xFF) r
  let r := wr .T2M1 (d.MAC_RADIO_TIMER_TICKS_PER_BACKOFF >>> 8) r
  let r := HAL_EXIT_CRITICAL_SECTION s r
  let r := invoke .MAC_RADIO_TIMER_WAKE_UP cb.MAC_RADIO_TIMER_WAKE_UP r
  let (v, r) := rd (.sfr .T2CTRL) r
  let r := wr (.sfr .T2CTRL) (v ||| d.LATCH_MODE) r
  wr (.sfr .T2IE) 1 r

/-- Third block of `macMcuInit` (lines 208-215): infinite reception, receiver on. -/
def macMcuInitRxOn (d : Defs) (cb : Callbacks) (r : Run) : Run :=
  let r := wr (.sfr .FRMCTRL0) (d.FRMCTRL0_RESET_VALUE ||| d.RX_MODE_INFINITE_RECEPTION) r
  invoke .macRxOn cb.macRxOn r

/-- Last block of `macMcuInit` (lines 254-265): receiver off, normal reception, automatic
acknowledgment, source matching tables. -/
def macMcuInitFinish (d : Defs) (cb : Callbacks) (r : Run) : Run :=
  let r := invoke .macRxOff cb.macRxOff r
  let r := wr (.sfr .FRMCTRL0) (d.FRMCTRL0_RESET_VALUE ||| d.RX_MODE_NORMAL_OPERATION) r
  let r := invoke .MAC_RADIO_TURN_ON_AUTO_ACK cb.MAC_RADIO_TURN_ON_AUTO_ACK r
  let r := invoke .MAC_RADIO_SRC_MATCH_INIT_EXTPENDEN
    cb.MAC_RADIO_SRC_MATCH_INIT_EXTPENDEN r
  invoke .MAC_RADIO_SRC_MATCH_INIT_SHORTPENDEN cb.MAC_RADIO_SRC_MATCH_INIT_SHORTPENDEN r

/-- Function `macMcuInit` (lines 122-266): its blocks in sequence. `macRxOn`, `macRxOff` and
the radio macros are calls out of the file; `fuel` bounds the wait for `RSSISTAT`. -/
def macMcuInit (d : Defs) (cb : Callbacks) (fuel : Nat) (r : Run) : Option Run :=
  let r := macMcuInitRadio d r
  let r := macMcuInitTimer d cb r
  let r := macMcuInitRxOn d cb r
  match waitRssiValid fuel r with
  | none => none
  | some r => some (macMcuInitFinish d cb (macMcuInitSeed r).2)

/-! ## Reading a log -/

/-- The three sub-registers of the window `T2MOVF0..2`. -/
def Reg.isOvfSub : Reg → Bool
  | .T2MOVF0 => true
  | .T2MOVF1 => true
  | .T2MOVF2 => true
  | _ => false

/-- Effect of one logged access on the content of `T2IRQM`, a plain register: a write
replaces it, anything else leaves it. -/
def t2irqmStep (m : Nat) (e : Event) : Nat :=
  match e with
  | .write x v => if x = .T2IRQM then v else m
  | _ => m

/-- Content of `T2IRQM` after the accesses of a log, from its content `init` before. -/
def t2irqmAfter (init : Nat) (l : List Event) : Nat := l.foldl t2irqmStep init

/-- Log of `k` consecutive rounds of the loop of `macMcuRfIsr`, the first of which makes
read number `p` of `FSMSTAT1`: each round is the call of `macRxThresholdIsr`, the write that
clears the FIFO threshold flag, and the read of `FSMSTAT1`. -/
def fifopRounds (d : Defs) (fsm : Nat → Nat) : Nat → Nat → List Event
  | _, 0 => []
  | p, k + 1 =>
    [Event.call Callback.macRxThresholdIsr, Event.write Reg.RFIRQF0 (compl8 d.IRQ_FIFOP),
      Event.sample StatusReg.FSMSTAT1 (fsm p)] ++ fifopRounds d fsm (p + 1) k

/-- Machine after one round of the loop of `macMcuRfIsr` entered with machine `m`:
`macRxThresholdIsr` has run, then the write of `~IRQ_FIFOP` to `RFIRQF0` has cleared the
FIFO threshold flag and kept the other flags. -/
def fifopRound (d : Defs) (cb : Callbacks) (m : Mcu) : Mcu :=
  { cb.macRxThresholdIsr m with
    RFIRQF0 := (cb.macRxThresholdIsr m).RFIRQF0 &&& compl8 d.IRQ_FIFOP }

/-- The sub-registers of the timer and of its overflow counter. -/
def Reg.isTimerSub : Reg → Bool
  | .T2M0 => true
  | .T2M1 => true
  | .T2MOVF0 => true
  | .T2MOVF1 => true
  | .T2MOVF2 => true
  | _ => false

/-- A write of a timer or overflow counter sub-register. -/
def Event.isCounterWrite : Event → Bool
  | .write x _ => x.isTimerSub
  | _ => false

/-- An assignment to `maxRssi` or to `accumulatedOverflowCount`. -/
def Event.isSharedAssign : Event → Bool
  | .assign .maxRssi _ => true
  | .assign .accumulatedOverflowCount _ => true
  | _ => false

/-- A write of the shared mutable state: counter sub-registers, `maxRssi`,
`accumulatedOverflowCount`. -/
def Event.isSharedWrite (e : Event) : Bool := e.isCounterWrite || e.isSharedAssign

/-- One step of the scan of a log: the first component is the number of critical sections
entered and not yet left, the second stays `true` as long as every event that `shared`
selects was met inside a critical section. -/
def guardStep (shared : Event → Bool) (st : Nat × Bool) (e : Event) : Nat × Bool :=
  match e with
  | .enterCritical => (st.1 + 1, st.2)
  | .exitCritical => (st.1 - 1, st.2)
  | _ => (st.1, st.2 && (!shared e || decide (0 < st.1)))

/-- Scan of a log from outside any critical section. -/
def scan (shared : Event → Bool) (tr : List Event) : Nat × Bool :=
  tr.foldl (guardStep shared) (0, true)

/-- Every event of the log that `shared` selects lies between an `enterCritical` and its
matching `exitCritical`, and every critical section entered is left again. -/
def guarded (shared : Event → Bool) (tr : List Event) : Prop := scan shared tr = (0, true)

/-- The log `after` extends the log `before` by a guarded sequence of events. -/
def appendsGuarded (shared : Event → Bool) (before after : List Event) : Prop :=
  ∃ tr, after = before ++ tr ∧ guarded shared tr

/-- An assignment to `accumulatedOverflowCount`. -/
def Event.isOffsetAssign : Event → Bool
  | .assign .accumulatedOverflowCount _ => true
  | _ => false

/-- Number of assignments to `accumulatedOverflowCount` in a log. -/
def offsetAssigns (l : List Event) : Nat := l.countP Event.isOffsetAssign

/-- Every function outside the file leaves `accumulatedOverflowCount` as it is. The
variable is `static`: code outside the file reaches it through `macMcuOverflowSetCount`
only. -/
def Callbacks.keepOffset (cb : Callbacks) : Prop :=
  ∀ m : Mcu,
    (cb.macBackoffTimerCompareIsr m).accumulatedOverflowCount = m.accumulatedOverflowCount ∧
    (cb.macCspTxIntIsr m).accumulatedOverflowCount = m.accumulatedOverflowCount ∧
    (cb.macCspTxStopIsr m).accumulatedOverflowCount = m.accumulatedOverflowCount ∧
    (cb.macRxAckTxDoneCallback m).accumulatedOverflowCount = m.accumulatedOverflowCount ∧
    (cb.macRxThresholdIsr m).accumulatedOverflowCount = m.accumulatedOverflowCount ∧
    (cb.macRxFifoOverflowIsr m).accumulatedOverflowCount = m.accumulatedOverflowCount ∧
    (cb.macRxOn m).accumulatedOverflowCount = m.accumulatedOverflowCount ∧
    (cb.macRxOff m).accumulatedOverflowCount = m.accumulatedOverflowCount ∧
    (cb.MAC_RADIO_TIMER_WAKE_UP m).accumulatedOverflowCount = m.accumulatedOverflowCount ∧
    (cb.MAC_RADIO_TURN_ON_AUTO_ACK m).accumulatedOverflowCount
      = m.accumulatedOverflowCount ∧
    (cb.MAC_RADIO_SRC_MATCH_INIT_EXTPENDEN m).accumulatedOverflowCount
      = m.accumulatedOverflowCount ∧
    (cb.MAC_RADIO_SRC_MATCH_INIT_SHORTPENDEN m).accumulatedOverflowCount
      = m.accumulatedOverflowCount

/-! ## Example states -/

/-- Zero machine with the overflow counter one tick before its 24-bit wrap. -/
def nearWrap : Mcu := { Mcu.zero with ovfCount := ⟨255, 255, 255⟩ }

/-- Zero machine with the accumulated offset at the top of its 32-bit range. -/
def accTop : Mcu := { Mcu.zero with accumulatedOverflowCount := 0xFFFFFFFF }

/-- Zero machine with the overflow-compare interrupt of `cc2530` enabled and pending. -/
def compareArmed : Mcu := { Mcu.zero with T2IRQM := 0x10, T2IRQF := 0x10 }

/-- Zero machine in the erratum situation: compare interrupt enabled and not pending, the
overflow count (5) already past the compare value (4). -/
def compareMissed : Mcu :=
  { Mcu.zero with T2IRQM := 0x10, ovfCount := ⟨5, 0, 0⟩, ovfCmp1 := ⟨4, 0, 0⟩ }

/-- Zero machine with the overflow-compare and the overflow-tick interrupts of `cc2530`
both enabled and pending. -/
def bothPending : Mcu := { Mcu.zero with T2IRQM := 0x11, T2IRQF := 0x11 }

/-- Zero machine with the FIFO threshold interrupt of `cc2530` enabled and pending. -/
def fifoPending : Mcu := { Mcu.zero with RFIRQM0 := 0x04, RFIRQF0 := 0x04 }

/-- Status input of `cc2530` on which `FIFOP` is active on the first read of `FSMSTAT1` and
inactive afterwards. -/
def fifoOnce : Nat → Nat := fun k => if k < 1 then 0x40 else 0

/-- Zero machine with the three conditions of `RFIRQF1` pending and enabled for `cc2530`
(`IRQ_CSP_MANINT`, `IRQ_CSP_STOP`, `IRQ_TXACKDONE`). -/
def cspAllPending : Mcu := { Mcu.zero with RFIRQM1 := 0x19, RFIRQF1 := 0x19 }

/-- Input of `RFRND` whose bit 0 is set on every third read, starting with the first. -/
def noiseEveryThird : Nat → Nat := fun k => if k % 3 = 0 then 0xFF else 0xFE

/-- Callbacks of which the CSP-manual-interrupt one disables every source of `RFIRQM0`. -/
def maskingCallbacks : Callbacks :=
  { Callbacks.idle with macCspTxIntIsr := fun m => { m with RFIRQM0 := 0 } }

/-- Zero machine with the CSP-manual-interrupt condition and the FIFO threshold condition of
`cc2530` both pending and enabled. -/
def cspAndFifoPending : Mcu :=
  { Mcu.zero with RFIRQM1 := 0x08, RFIRQF1 := 0x08, RFIRQM0 := 0x04, RFIRQF0 := 0x04 }

/-- Zero machine with the RX-FIFO-overflow flag of `cc2530` set and its mask bit clear. -/
def rxOverflowMasked : Mcu := { Mcu.zero with RFERRF := 0x04, RFERRM := 0x00 }

/-- Zero machine with the RX-FIFO-overflow flag of `cc2530` set and enabled, next to another
error flag. -/
def rxOverflowPending : Mcu := { Mcu.zero with RFERRF := 0x05, RFERRM := 0x04 }

/-- Status input that never reports anything. -/
def quiet : Nat → Nat := fun _ => 0

/-! ## Properties -/

theorem fin4_val3 : ((3 : Fin 4) : Nat) = 3 := rfl

theorem fin4_val2 : ((2 : Fin 4) : Nat) = 2 := rfl

theorem shiftRight24_eq_zero (v : Nat) : v >>> 24 = 0 ↔ v < 2 ^ 24 := by
  rw [Nat.shiftRight_eq_div_pow]
  omega

theorem overflowCount_val (d : Defs) (r : Run) :
    (macMcuOverflowCount d r).1 = some (r.hw.ovfCount.b0 % 256 + 256 * (r.hw.ovfCount.b1 % 256)
        + 65536 * (r.hw.ovfCount.b2 % 256)) := by
  cases h : d.HAL_MCU_LITTLE_ENDIAN <;>
  simp [macMcuOverflowCount, Obj.fresh, Obj.poke, Obj.value, leValue, UINT32_NDX0, UINT32_NDX1,
    UINT32_NDX2, UINT32_NDX3, h, rd, HAL_ENTER_CRITICAL_SECTION, HAL_EXIT_CRITICAL_SECTION,
    MAC_MCU_T2_ACCESS_OVF_COUNT_VALUE, selectView, Mcu.get, Mcu.ovfView, Run.emit, List.replicate] <;> omega

theorem overflowCount_hw (d : Defs) (r : Run) :
    (macMcuOverflowCount d r).2.hw = { r.hw with ovfSel := .count, timSel := .count } := by
  simp [macMcuOverflowCount, rd, HAL_ENTER_CRITICAL_SECTION, HAL_EXIT_CRITICAL_SECTION,
    MAC_MCU_T2_ACCESS_OVF_COUNT_VALUE, selectView, Run.emit]

theorem setCount_done (d : Defs) (v : Nat) (r : Run) (hv : v < 2 ^ 24) :
    ∃ r1, macMcuOverflowSetCount d v r = Outcome.done r1 ∧
      r1.hw = { r.hw with
        ovfSel := .count, timSel := .count, ovfCount := Triple.ofNat v,
        accumulatedOverflowCount :=
          ((r.hw.accumulatedOverflowCount + (r.hw.ovfCount.b0 % 256 + 256 * (r.hw.ovfCount.b1 % 256)
            + 65536 * (r.hw.ovfCount.b2 % 256))) % 2 ^ 32 + 2 ^ 32 - v % 2 ^ 32) % 2 ^ 32 } := by
  have h0 : v >>> 24 = 0 := (shiftRight24_eq_zero v).2 hv
  have h1 := overflowCount_val d r
  have h2 := overflowCount_hw d r
  unfold macMcuOverflowSetCount MAC_ASSERT
  rw [if_pos h0]
  rcases hc : macMcuOverflowCount d r with ⟨c, r'⟩
  rw [hc] at h1 h2
  simp only at h1 h2
  subst h1
  refine ⟨_, rfl, ?_⟩
  cases h : d.HAL_MCU_LITTLE_ENDIAN <;>
  simp [h2, setAccumulatedOverflowCount, HAL_ENTER_CRITICAL_SECTION, HAL_EXIT_CRITICAL_SECTION,
    MAC_MCU_T2_ACCESS_OVF_COUNT_VALUE, selectView, wr, Mcu.set, Mcu.setOvfView, Mcu.ovfView,
    peek32, UINT32_NDX0, UINT32_NDX1, UINT32_NDX2, h, Triple.ofNat, fin4_val3, fin4_val2]

theorem setCompare_halts_iff (d : Defs) (v : Nat) (r : Run) :
    macMcuOverflowSetCompare d v r = Outcome.halted r ↔ 2 ^ 24 ≤ v := by
  have h0 := shiftRight24_eq_zero v
  unfold macMcuOverflowSetCompare MAC_ASSERT
  by_cases hv : v < 2 ^ 24
  · rw [if_pos (h0.2 hv)]
    constructor
    · intro h
      simp at h
    · intro h
      omega
  · have h1 : v >>> 24 ≠ 0 := fun h => hv (h0.1 h)
    rw [if_neg h1]
    simp
    omega

/-- C1: for every `v < 2^24`, every configuration and every state, `macMcuOverflowSetCount v`
completes and a call of `macMcuOverflowCount` made right after it returns exactly `v`. -/
theorem C1_setCount_then_count (d : Defs) (v : Nat) (r : Run) (hv : v < 2 ^ 24) :
    ∃ r1, macMcuOverflowSetCount d v r = Outcome.done r1 ∧
      (macMcuOverflowCount d r1).1 = some v := by
  obtain ⟨r1, h1, h2⟩ := setCount_done d v r hv
  refine ⟨r1, h1, ?_⟩
  rw [overflowCount_val, h2]
  simp only [Triple.ofNat, Option.some.injEq]
  omega

/-- Evaluation of C1 at `v = 0x123456` on the zero machine. -/
theorem C1_setCount_then_count_witness :
    ∃ r1, macMcuOverflowSetCount cc2530 0x123456 (Run.start Mcu.zero quiet)
        = Outcome.done r1 ∧ (macMcuOverflowCount cc2530 r1).1 = some 0x123456 :=
  C1_setCount_then_count cc2530 0x123456 (Run.start Mcu.zero quiet) (by norm_num)

/-- C2: `macMcuOverflowSetCount v` and `macMcuOverflowSetCompare v` stop at the fatal
assertion exactly when `v >= 2^24`, and they stop in the very state they were entered in
(no register, no variable and no log entry has changed); they run to completion exactly
when `v < 2^24`. -/
theorem C2_assert_iff_out_of_range (d : Defs) (v : Nat) (r : Run) :
    (macMcuOverflowSetCount d v r = Outcome.halted r ↔ 2 ^ 24 ≤ v) ∧
    ((∃ r1, macMcuOverflowSetCount d v r = Outcome.done r1) ↔ v < 2 ^ 24) ∧
    (macMcuOverflowSetCompare d v r = Outcome.halted r ↔ 2 ^ 24 ≤ v) ∧
    ((∃ r1, macMcuOverflowSetCompare d v r = Outcome.done r1) ↔ v < 2 ^ 24) := by
  have h0 := shiftRight24_eq_zero v
  refine ⟨?_, ?_, setCompare_halts_iff d v r, ?_⟩
  · by_cases hv : v < 2 ^ 24
    · obtain ⟨r1, h1, _⟩ := setCount_done d v r hv
      rw [h1]
      simp
      omega
    · have h1 : v >>> 24 ≠ 0 := fun h => hv (h0.1 h)
      unfold macMcuOverflowSetCount MAC_ASSERT
      rw [if_neg h1]
      simp
      omega
  · by_cases hv : v < 2 ^ 24
    · obtain ⟨r1, h1, _⟩ := setCount_done d v r hv
      simp [h1]
      omega
    · have h1 : v >>> 24 ≠ 0 := fun h => hv (h0.1 h)
      unfold macMcuOverflowSetCount MAC_ASSERT
      rw [if_neg h1]
      simp
      omega
  · by_cases hv : v < 2 ^ 24
    · unfold macMcuOverflowSetCompare MAC_ASSERT
      rw [if_pos (h0.2 hv)]
      simp
      omega
    · have h1 : v >>> 24 ≠ 0 := fun h => hv (h0.1 h)
      unfold macMcuOverflowSetCompare MAC_ASSERT
      rw [if_neg h1]
      simp
      omega

theorem precisionCount_val (d : Defs) (r : Run) (hle : d.HAL_MCU_LITTLE_ENDIAN = true) :
    (macMcuPrecisionCount d r).1 = some ((r.hw.ovfCount.b0 % 256 + 256 * (r.hw.ovfCount.b1 % 256)
        + r.hw.accumulatedOverflowCount % 65536) % 65536) := by
  simp [macMcuPrecisionCount, Obj.fresh, Obj.poke, Obj.value, leValue, UINT32_NDX0, UINT32_NDX1,
    hle, rd, HAL_ENTER_CRITICAL_SECTION, HAL_EXIT_CRITICAL_SECTION,
    MAC_MCU_T2_ACCESS_OVF_COUNT_VALUE, selectView, Mcu.get, Mcu.ovfView, Run.emit, List.replicate]

theorem precisionCount_val_big (d : Defs) (r : Run) (hbe : d.HAL_MCU_LITTLE_ENDIAN = false) :
    (macMcuPrecisionCount d r).1 = none := by
  simp [macMcuPrecisionCount, Obj.fresh, Obj.poke, Obj.value, UINT32_NDX0, UINT32_NDX1,
    hbe, rd, HAL_ENTER_CRITICAL_SECTION, HAL_EXIT_CRITICAL_SECTION,
    MAC_MCU_T2_ACCESS_OVF_COUNT_VALUE, selectView, Mcu.get, Mcu.ovfView, Run.emit, List.replicate,
    fin4_val3]

theorem precisionCount_hw (d : Defs) (r : Run) :
    (macMcuPrecisionCount d r).2.hw = { r.hw with ovfSel := .count, timSel := .count } := by
  simp [macMcuPrecisionCount, rd, HAL_ENTER_CRITICAL_SECTION, HAL_EXIT_CRITICAL_SECTION,
    MAC_MCU_T2_ACCESS_OVF_COUNT_VALUE, selectView, Run.emit]

/-- C3: read the precision count, reset the overflow counter with
`macMcuOverflowSetCount v` (`v < 2^24`), read the precision count again, with no timer tick
in between: the second read returns what the first returned, for every state and every
content of the 32-bit accumulator (wrapping included). On a little-endian host both reads
return a defined 16-bit value. -/
theorem C3_precision_continuous_across_setCount (d : Defs) (v : Nat) (r : Run)
    (hv : v < 2 ^ 24) :
    ∃ r1, macMcuOverflowSetCount d v (macMcuPrecisionCount d r).2 = Outcome.done r1 ∧
      (macMcuPrecisionCount d r1).1 = (macMcuPrecisionCount d r).1 ∧
      (d.HAL_MCU_LITTLE_ENDIAN = true →
        ∃ c, c < 65536 ∧ (macMcuPrecisionCount d r).1 = some c ∧
          (macMcuPrecisionCount d r1).1 = some c) := by
  obtain ⟨r1, h1, h2⟩ := setCount_done d v (macMcuPrecisionCount d r).2 hv
  rw [precisionCount_hw] at h2
  have key : d.HAL_MCU_LITTLE_ENDIAN = true →
      (macMcuPrecisionCount d r1).1 = (macMcuPrecisionCount d r).1 := by
    intro hle
    rw [precisionCount_val d r1 hle, precisionCount_val d r hle, h2]
    simp only [Triple.ofNat, Option.some.injEq]
    omega
  refine ⟨r1, h1, ?_, ?_⟩
  · cases hle : d.HAL_MCU_LITTLE_ENDIAN
    · rw [precisionCount_val_big d r1 hle, precisionCount_val_big d r hle]
    · exact key hle
  · intro hle
    refine ⟨_, ?_, precisionCount_val d r hle, ?_⟩
    · omega
    · rw [key hle, precisionCount_val d r hle]

/-- Evaluation of C3 on the zero machine with the accumulator at `0xFFFFFFFF`, little-endian
host: both reads return the same defined value. -/
theorem C3_precision_continuous_across_setCount_witness :
    ∃ r1, macMcuOverflowSetCount cc2530 0x30
        (macMcuPrecisionCount cc2530 (Run.start accTop quiet)).2 = Outcome.done r1 ∧
      ∃ c, c < 65536 ∧ (macMcuPrecisionCount cc2530 (Run.start accTop quiet)).1 = some c ∧
        (macMcuPrecisionCount cc2530 r1).1 = some c :=
  match C3_precision_continuous_across_setCount cc2530 0x30 (Run.start accTop quiet)
      (by norm_num) with
  | ⟨r1, h1, _, h3⟩ => ⟨r1, h1, h3 rfl⟩

/-- C4: on a little-endian host, take a first call of `macMcuPrecisionCount` in a state
whose counter sub-registers hold bytes, and a second call in any later state in which the
accumulated offset is the same (no `macMcuOverflowSetCount` in between) and the 24-bit
overflow counter has advanced by `n` ticks modulo `2^24`. Then the second result is the
first plus `n` modulo `2^16`; so the distance from the first to the second result, modulo
`2^16`, is the number of elapsed ticks and the count has not moved backwards. -/
theorem C4_precision_advances_with_counter (d : Defs) (r r2 : Run) (n : Nat)
    (hle : d.HAL_MCU_LITTLE_ENDIAN = true) (hb : r.hw.counterBytes)
    (hacc : r2.hw.accumulatedOverflowCount = r.hw.accumulatedOverflowCount)
    (hcnt : r2.hw.ovfCount = (r.hw.advance n).ovfCount) :
    ∃ c1 c2, (macMcuPrecisionCount d r).1 = some c1 ∧
      (macMcuPrecisionCount d r2).1 = some c2 ∧
      c2 = (c1 + n) % 65536 ∧ (c2 + 65536 - c1) % 65536 = n % 65536 := by
  refine ⟨_, _, precisionCount_val d r hle, precisionCount_val d r2 hle, ?_⟩
  obtain ⟨h0, h1, h2⟩ := hb
  rw [hacc, hcnt]
  simp only [Mcu.advance, Triple.ofNat, Triple.value]
  omega

/-- Evaluation of C4 across the wrap of the 24-bit counter: from `0xFFFFFF` by 3 ticks. -/
theorem C4_precision_advances_with_counter_witness :
    ∃ c1 c2, (macMcuPrecisionCount cc2530 (Run.start nearWrap quiet)).1 = some c1 ∧
      (macMcuPrecisionCount cc2530 (Run.start (nearWrap.advance 3) quiet)).1 = some c2 ∧
      c2 = (c1 + 3) % 65536 ∧ (c2 + 65536 - c1) % 65536 = 3 % 65536 :=
  C4_precision_advances_with_counter cc2530 (Run.start nearWrap quiet)
    (Run.start (nearWrap.advance 3) quiet) 3 rfl (by decide) rfl rfl

theorem peek32_ndx0 (d : Defs) (v : Nat) : peek32 d v (UINT32_NDX0 d) = v % 256 := by
  cases h : d.HAL_MCU_LITTLE_ENDIAN <;> simp [peek32, UINT32_NDX0, h, fin4_val3]

theorem peek32_ndx1 (d : Defs) (v : Nat) : peek32 d v (UINT32_NDX1 d) = v / 256 % 256 := by
  cases h : d.HAL_MCU_LITTLE_ENDIAN <;> simp [peek32, UINT32_NDX1, h, fin4_val2]

theorem peek32_ndx2 (d : Defs) (v : Nat) : peek32 d v (UINT32_NDX2 d) = v / 65536 % 256 := by
  cases h : d.HAL_MCU_LITTLE_ENDIAN <;> simp [peek32, UINT32_NDX2, h, fin4_val2]

theorem testBit_255 (i : Nat) : Nat.testBit 255 i = decide (i < 8) :=
  Nat.testBit_two_pow_sub_one 8 i

theorem testBit_mod256 (x i : Nat) :
    Nat.testBit (x % 256) i = (decide (i < 8) && Nat.testBit x i) :=
  Nat.testBit_mod_two_pow x 8 i

theorem testBit_compl8 (m i : Nat) :
    (compl8 m).testBit i = (decide (i < 8) && !m.testBit i) := by
  unfold compl8
  rw [Nat.testBit_xor, testBit_255, testBit_mod256]
  cases decide (i < 8) <;> cases m.testBit i <;> rfl

theorem and_compl8_and_self (x m : Nat) : (x &&& compl8 m) % 256 &&& m = 0 := by
  apply Nat.eq_of_testBit_eq
  intro i
  simp [testBit_compl8, testBit_mod256]

/-- Log and final state of `macMcuOverflowSetCompare` when the compare interrupt is enabled
at entry. -/
theorem setCompare_enabled (d : Defs) (v : Nat) (r : Run) (hv : v < 2 ^ 24)
    (hen : r.hw.T2IRQM &&& d.TIMER2_OVF_COMPARE1M ≠ 0) :
    ∃ r1, macMcuOverflowSetCompare d v r = Outcome.done r1 ∧
      r1.log = r.log ++
        [.enterCritical, .read .T2IRQM r.hw.T2IRQM, .read .T2IRQM r.hw.T2IRQM,
         .write .T2IRQM ((r.hw.T2IRQM &&& compl8 d.TIMER2_OVF_COMPARE1M) % 256),
         .select .cmp1 .count,
         .write .T2MOVF0 (v % 256), .write .T2MOVF1 (v / 256 % 256),
         .write .T2MOVF2 (v / 65536 % 256),
         .read .T2IRQF r.hw.T2IRQF,
         .write .T2IRQF ((r.hw.T2IRQF &&& compl8 d.TIMER2_OVF_COMPARE1F) % 256),
         .read .T2IRQM ((r.hw.T2IRQM &&& compl8 d.TIMER2_OVF_COMPARE1M) % 256),
         .write .T2IRQM (((r.hw.T2IRQM &&& compl8 d.TIMER2_OVF_COMPARE1M) % 256
            ||| d.TIMER2_OVF_COMPARE1M) % 256),
         .exitCritical] ∧
      r1.hw = { r.hw with
        ovfSel := .cmp1, timSel := .count, ovfCmp1 := Triple.ofNat v,
        T2IRQF := r.hw.T2IRQF &&& (r.hw.T2IRQF &&& compl8 d.TIMER2_OVF_COMPARE1F) % 256,
        T2IRQM := ((r.hw.T2IRQM &&& compl8 d.TIMER2_OVF_COMPARE1M) % 256
            ||| d.TIMER2_OVF_COMPARE1M) % 256 } := by
  have h0 : v >>> 24 = 0 := (shiftRight24_eq_zero v).2 hv
  unfold macMcuOverflowSetCompare MAC_ASSERT
  rw [if_pos h0]
  simp only [rd, Run.emit, HAL_ENTER_CRITICAL_SECTION, Mcu.get]
  rw [if_pos hen]
  refine ⟨_, rfl, ?_, ?_⟩ <;>
  simp [wr, HAL_EXIT_CRITICAL_SECTION, MAC_MCU_T2_ACCESS_OVF_CMP1_VALUE, selectView, Mcu.get,
    Mcu.set, Mcu.setOvfView, Mcu.ovfView, peek32_ndx0, peek32_ndx1, peek32_ndx2, Triple.ofNat]

/-- Log and final state of `macMcuOverflowSetCompare` when the compare interrupt is
disabled at entry. -/
theorem setCompare_disabled (d : Defs) (v : Nat) (r : Run) (hv : v < 2 ^ 24)
    (hdis : r.hw.T2IRQM &&& d.TIMER2_OVF_COMPARE1M = 0) :
    ∃ r1, macMcuOverflowSetCompare d v r = Outcome.done r1 ∧
      r1.log = r.log ++
        [.enterCritical, .read .T2IRQM r.hw.T2IRQM,
         .select .cmp1 .count,
         .write .T2MOVF0 (v % 256), .write .T2MOVF1 (v / 256 % 256),
         .write .T2MOVF2 (v / 65536 % 256),
         .read .T2IRQF r.hw.T2IRQF,
         .write .T2IRQF ((r.hw.T2IRQF &&& compl8 d.TIMER2_OVF_COMPARE1F) % 256),
         .exitCritical] ∧
      r1.hw = { r.hw with
        ovfSel := .cmp1, timSel := .count, ovfCmp1 := Triple.ofNat v,
        T2IRQF := r.hw.T2IRQF &&& (r.hw.T2IRQF &&& compl8 d.TIMER2_OVF_COMPARE1F) % 256 } := by
  have h0 : v >>> 24 = 0 := (shiftRight24_eq_zero v).2 hv
  unfold macMcuOverflowSetCompare MAC_ASSERT
  rw [if_pos h0]
  simp only [rd, Run.emit, HAL_ENTER_CRITICAL_SECTION, Mcu.get]
  have hdis1 : ¬ (r.hw.T2IRQM &&& d.TIMER2_OVF_COMPARE1M ≠ 0) := by simp [hdis]
  rw [if_neg hdis1]
  refine ⟨_, rfl, ?_, ?_⟩ <;>
  simp [wr, HAL_EXIT_CRITICAL_SECTION, MAC_MCU_T2_ACCESS_OVF_CMP1_VALUE, selectView, Mcu.get,
    Mcu.set, Mcu.setOvfView, Mcu.ovfView, peek32_ndx0, peek32_ndx1, peek32_ndx2, Triple.ofNat]

/-- C5: in the log of `macMcuOverflowSetCompare v` (`v < 2^24`, any state): the three
compare sub-registers are written in the order 0, 1, 2; at each of these writes the
compare-interrupt enable bit of `T2IRQM` is clear; one write to `T2IRQF` clears the
pending compare flag, it comes after every sub-register write and before every write to
`T2IRQM` that sets the enable bit. -/
theorem C5_setCompare_write_window (d : Defs) (v : Nat) (r : Run) (hv : v < 2 ^ 24) :
    ∃ (r1 : Run) (tr : List Event), macMcuOverflowSetCompare d v r = Outcome.done r1 ∧ r1.log = r.log ++ tr ∧
      r1.hw.T2IRQM = t2irqmAfter r.hw.T2IRQM tr ∧
      (∃ i0 i1 i2 : Nat, i0 < i1 ∧ i1 < i2 ∧
        tr[i0]? = some (Event.write Reg.T2MOVF0 (v % 256)) ∧
        tr[i1]? = some (Event.write Reg.T2MOVF1 (v / 256 % 256)) ∧
        tr[i2]? = some (Event.write Reg.T2MOVF2 (v / 65536 % 256))) ∧
      (∀ (i : Nat) (x : Reg) (b : Nat), tr[i]? = some (Event.write x b) → x.isOvfSub = true →
        t2irqmAfter r.hw.T2IRQM (tr.take i) &&& d.TIMER2_OVF_COMPARE1M = 0) ∧
      (∃ j w : Nat, tr[j]? = some (Event.write Reg.T2IRQF w) ∧ w &&& d.TIMER2_OVF_COMPARE1F = 0 ∧
        (∀ (i : Nat) (x : Reg) (b : Nat), tr[i]? = some (Event.write x b) → x.isOvfSub = true → i < j) ∧
        (∀ i b : Nat, tr[i]? = some (Event.write Reg.T2IRQM b) → b &&& d.TIMER2_OVF_COMPARE1M ≠ 0 →
          j < i)) := by
  by_cases hen : r.hw.T2IRQM &&& d.TIMER2_OVF_COMPARE1M = 0
  · obtain ⟨r1, h1, h2, h3⟩ := setCompare_disabled d v r hv hen
    refine ⟨r1, _, h1, h2, ?_, ⟨3, 4, 5, by decide, by decide, rfl, rfl, rfl⟩, ?_,
      ⟨7, _, rfl, and_compl8_and_self _ _, ?_, ?_⟩⟩
    · rw [h3]
      simp [t2irqmAfter, t2irqmStep]
    · intro i x b hi hx
      have hlt : i < 9 := by
        have := (List.getElem?_eq_some_iff.1 hi).1
        simpa using this
      interval_cases i <;> simp at hi <;> simp [t2irqmAfter, t2irqmStep, hen]
    · intro i x b hi hx
      have hlt : i < 9 := by
        have := (List.getElem?_eq_some_iff.1 hi).1
        simpa using this
      interval_cases i <;> simp at hi <;> first | omega | (simp [hi.1.symm, Reg.isOvfSub] at hx)
    · intro i b hi hb
      have hlt : i < 9 := by
        have := (List.getElem?_eq_some_iff.1 hi).1
        simpa using this
      interval_cases i <;> simp at hi
  · obtain ⟨r1, h1, h2, h3⟩ := setCompare_enabled d v r hv hen
    refine ⟨r1, _, h1, h2, ?_, ⟨5, 6, 7, by decide, by decide, rfl, rfl, rfl⟩, ?_,
      ⟨9, _, rfl, and_compl8_and_self _ _, ?_, ?_⟩⟩
    · rw [h3]
      simp [t2irqmAfter, t2irqmStep]
    · intro i x b hi hx
      have hlt : i < 13 := by
        have := (List.getElem?_eq_some_iff.1 hi).1
        simpa using this
      interval_cases i <;> simp at hi <;>
        first
        | (simp [t2irqmAfter, t2irqmStep, and_compl8_and_self]; done)
        | (simp [hi.1.symm, Reg.isOvfSub] at hx)
    · intro i x b hi hx
      have hlt : i < 13 := by
        have := (List.getElem?_eq_some_iff.1 hi).1
        simpa using this
      interval_cases i <;> simp at hi <;> first | omega | (simp [hi.1.symm, Reg.isOvfSub] at hx)
    · intro i b hi hb
      have hlt : i < 13 := by
        have := (List.getElem?_eq_some_iff.1 hi).1
        simpa using this
      interval_cases i <;> simp at hi <;> first | omega | skip
      exact absurd (hi ▸ and_compl8_and_self _ _) hb

/-- Evaluation of C5 at `v = 0x123456` with the compare interrupt enabled and pending. -/
theorem C5_setCompare_write_window_witness :
    ∃ (r1 : Run) (tr : List Event),
      macMcuOverflowSetCompare cc2530 0x123456 (Run.start compareArmed quiet)
        = Outcome.done r1 ∧
      r1.log = (Run.start compareArmed quiet).log ++ tr ∧
      r1.hw.T2IRQM = t2irqmAfter (Run.start compareArmed quiet).hw.T2IRQM tr ∧
      (∃ i0 i1 i2 : Nat, i0 < i1 ∧ i1 < i2 ∧
        tr[i0]? = some (Event.write Reg.T2MOVF0 (0x123456 % 256)) ∧
        tr[i1]? = some (Event.write Reg.T2MOVF1 (0x123456 / 256 % 256)) ∧
        tr[i2]? = some (Event.write Reg.T2MOVF2 (0x123456 / 65536 % 256))) ∧
      (∀ (i : Nat) (x : Reg) (b : Nat), tr[i]? = some (Event.write x b) → x.isOvfSub = true →
        t2irqmAfter (Run.start compareArmed quiet).hw.T2IRQM (tr.take i)
          &&& cc2530.TIMER2_OVF_COMPARE1M = 0) ∧
      (∃ j w : Nat, tr[j]? = some (Event.write Reg.T2IRQF w) ∧
        w &&& cc2530.TIMER2_OVF_COMPARE1F = 0 ∧
        (∀ (i : Nat) (x : Reg) (b : Nat), tr[i]? = some (Event.write x b) →
          x.isOvfSub = true → i < j) ∧
        (∀ i b : Nat, tr[i]? = some (Event.write Reg.T2IRQM b) →
          b &&& cc2530.TIMER2_OVF_COMPARE1M ≠ 0 → j < i)) :=
  C5_setCompare_write_window cc2530 0x123456 (Run.start compareArmed quiet) (by norm_num)

theorem getCompare_val (d : Defs) (r : Run) :
    (macMcuOverflowGetCompare d r).1 = some (r.hw.ovfCmp1.b0 % 256 + 256 * (r.hw.ovfCmp1.b1 % 256)
        + 65536 * (r.hw.ovfCmp1.b2 % 256)) := by
  cases h : d.HAL_MCU_LITTLE_ENDIAN <;>
  simp [macMcuOverflowGetCompare, Obj.fresh, Obj.poke, Obj.value, leValue, UINT32_NDX0,
    UINT32_NDX1, UINT32_NDX2, UINT32_NDX3, h, rd, HAL_ENTER_CRITICAL_SECTION,
    HAL_EXIT_CRITICAL_SECTION, MAC_MCU_T2_ACCESS_OVF_CMP1_VALUE, selectView, Mcu.get,
    Mcu.ovfView, Run.emit, List.replicate] <;> omega

theorem getCompare_hw (d : Defs) (r : Run) :
    (macMcuOverflowGetCompare d r).2.hw = { r.hw with ovfSel := .cmp1, timSel := .count } := by
  simp [macMcuOverflowGetCompare, rd, HAL_ENTER_CRITICAL_SECTION, HAL_EXIT_CRITICAL_SECTION,
    MAC_MCU_T2_ACCESS_OVF_CMP1_VALUE, selectView, Run.emit]

theorem callCount_append (c : Callback) (l1 l2 : List Event) :
    callCount c (l1 ++ l2) = callCount c l1 + callCount c l2 := by
  simp [callCount]

theorem overflowCount_log (d : Defs) (r : Run) :
    ∃ tr, (macMcuOverflowCount d r).2.log = r.log ++ tr ∧ ∀ c, callCount c tr = 0 := by
  refine ⟨[.enterCritical, .select .count .count, .read .T2M0 r.hw.timCount0,
    .read .T2MOVF0 r.hw.ovfCount.b0, .read .T2MOVF1 r.hw.ovfCount.b1,
    .read .T2MOVF2 r.hw.ovfCount.b2, .exitCritical], ?_, ?_⟩
  · simp [macMcuOverflowCount, rd, HAL_ENTER_CRITICAL_SECTION, HAL_EXIT_CRITICAL_SECTION,
      MAC_MCU_T2_ACCESS_OVF_COUNT_VALUE, selectView, Run.emit, Mcu.get, Mcu.ovfView]
  · intro c
    simp [callCount]

theorem getCompare_log (d : Defs) (r : Run) :
    ∃ tr, (macMcuOverflowGetCompare d r).2.log = r.log ++ tr ∧ ∀ c, callCount c tr = 0 := by
  refine ⟨[.enterCritical, .select .cmp1 .count,
    .read .T2MOVF0 r.hw.ovfCmp1.b0, .read .T2MOVF1 r.hw.ovfCmp1.b1,
    .read .T2MOVF2 r.hw.ovfCmp1.b2, .exitCritical], ?_, ?_⟩
  · simp [macMcuOverflowGetCompare, rd, HAL_ENTER_CRITICAL_SECTION, HAL_EXIT_CRITICAL_SECTION,
      MAC_MCU_T2_ACCESS_OVF_CMP1_VALUE, selectView, Run.emit, Mcu.get, Mcu.ovfView]
  · intro c
    simp [callCount]

theorem and_and_compl8 (x m : Nat) : x &&& (x &&& compl8 m) % 256 = x &&& compl8 m := by
  apply Nat.eq_of_testBit_eq
  intro i
  simp [testBit_compl8, testBit_mod256]
  cases x.testBit i <;> simp

theorem and_compl8_and (x m : Nat) : x &&& compl8 m &&& m = 0 := by
  apply Nat.eq_of_testBit_eq
  intro i
  simp [testBit_compl8]

theorem overflowCount_eq (d : Defs) (r : Run) :
    macMcuOverflowCount d r =
      (some (r.hw.ovfCount.b0 % 256 + 256 * (r.hw.ovfCount.b1 % 256)
          + 65536 * (r.hw.ovfCount.b2 % 256)),
       { r with
         hw := { r.hw with ovfSel := .count, timSel := .count },
         log := r.log ++ [Event.enterCritical, Event.select OvfSel.count TimSel.count,
           Event.read Reg.T2M0 r.hw.timCount0, Event.read Reg.T2MOVF0 r.hw.ovfCount.b0,
           Event.read Reg.T2MOVF1 r.hw.ovfCount.b1, Event.read Reg.T2MOVF2 r.hw.ovfCount.b2,
           Event.exitCritical] }) := by
  cases h : d.HAL_MCU_LITTLE_ENDIAN <;>
  simp [macMcuOverflowCount, Obj.fresh, Obj.poke, Obj.value, leValue, UINT32_NDX0, UINT32_NDX1,
    UINT32_NDX2, UINT32_NDX3, h, rd, HAL_ENTER_CRITICAL_SECTION, HAL_EXIT_CRITICAL_SECTION,
    MAC_MCU_T2_ACCESS_OVF_COUNT_VALUE, selectView, Mcu.get, Mcu.ovfView, Run.emit,
    List.replicate] <;> omega

theorem overflowCapture_eq (d : Defs) (r : Run) :
    macMcuOverflowCapture d r =
      (some (r.hw.ovfCapture.b0 % 256 + 256 * (r.hw.ovfCapture.b1 % 256)
          + 65536 * (r.hw.ovfCapture.b2 % 256)),
       { r with
         hw := { r.hw with ovfSel := .capture, timSel := .count },
         log := r.log ++ [Event.enterCritical, Event.select OvfSel.capture TimSel.count,
           Event.read Reg.T2MOVF0 r.hw.ovfCapture.b0,
           Event.read Reg.T2MOVF1 r.hw.ovfCapture.b1,
           Event.read Reg.T2MOVF2 r.hw.ovfCapture.b2, Event.exitCritical] }) := by
  cases h : d.HAL_MCU_LITTLE_ENDIAN <;>
  simp [macMcuOverflowCapture, Obj.fresh, Obj.poke, Obj.value, leValue, UINT32_NDX0,
    UINT32_NDX1, UINT32_NDX2, UINT32_NDX3, h, rd, HAL_ENTER_CRITICAL_SECTION,
    HAL_EXIT_CRITICAL_SECTION, MAC_MCU_T2_ACCESS_OVF_CAPTURE_VALUE, selectView, Mcu.get,
    Mcu.ovfView, Run.emit, List.replicate] <;> omega

theorem getCompare_eq (d : Defs) (r : Run) :
    macMcuOverflowGetCompare d r =
      (some (r.hw.ovfCmp1.b0 % 256 + 256 * (r.hw.ovfCmp1.b1 % 256)
          + 65536 * (r.hw.ovfCmp1.b2 % 256)),
       { r with
         hw := { r.hw with ovfSel := .cmp1, timSel := .count },
         log := r.log ++ [Event.enterCritical, Event.select OvfSel.cmp1 TimSel.count,
           Event.read Reg.T2MOVF0 r.hw.ovfCmp1.b0,
           Event.read Reg.T2MOVF1 r.hw.ovfCmp1.b1,
           Event.read Reg.T2MOVF2 r.hw.ovfCmp1.b2, Event.exitCritical] }) := by
  cases h : d.HAL_MCU_LITTLE_ENDIAN <;>
  simp [macMcuOverflowGetCompare, Obj.fresh, Obj.poke, Obj.value, leValue, UINT32_NDX0,
    UINT32_NDX1, UINT32_NDX2, UINT32_NDX3, h, rd, HAL_ENTER_CRITICAL_SECTION,
    HAL_EXIT_CRITICAL_SECTION, MAC_MCU_T2_ACCESS_OVF_CMP1_VALUE, selectView, Mcu.get,
    Mcu.ovfView, Run.emit, List.replicate] <;> omega

/-- Closed form of `macMcuTimer2OverflowWorkaround`. -/
theorem workaround_eq (d : Defs) (cb : Callbacks) (r : Run) :
    macMcuTimer2OverflowWorkaround d cb r =
      if r.hw.T2IRQM &&& d.TIMER2_OVF_COMPARE1F ≠ 0 then
        if r.hw.T2IRQF &&& d.TIMER2_OVF_COMPARE1F = 0 then
          if r.hw.ovfCount.b0 % 256 + 256 * (r.hw.ovfCount.b1 % 256)
                + 65536 * (r.hw.ovfCount.b2 % 256)
              > r.hw.ovfCmp1.b0 % 256 + 256 * (r.hw.ovfCmp1.b1 % 256)
                + 65536 * (r.hw.ovfCmp1.b2 % 256) then
            some { r with
              hw := { cb.macBackoffTimerCompareIsr
                    { r.hw with ovfSel := .cmp1, timSel := .count } with
                T2IRQF := (cb.macBackoffTimerCompareIsr
                    { r.hw with ovfSel := .cmp1, timSel := .count }).T2IRQF
                  &&& compl8 d.TIMER2_OVF_COMPARE1F },
              log := r.log ++
                [Event.read Reg.T2IRQM r.hw.T2IRQM, Event.read Reg.T2IRQF r.hw.T2IRQF,
                 Event.enterCritical, Event.select OvfSel.count TimSel.count,
                 Event.read Reg.T2M0 r.hw.timCount0,
                 Event.read Reg.T2MOVF0 r.hw.ovfCount.b0,
                 Event.read Reg.T2MOVF1 r.hw.ovfCount.b1,
                 Event.read Reg.T2MOVF2 r.hw.ovfCount.b2, Event.exitCritical,
                 Event.enterCritical, Event.select OvfSel.cmp1 TimSel.count,
                 Event.read Reg.T2MOVF0 r.hw.ovfCmp1.b0,
                 Event.read Reg.T2MOVF1 r.hw.ovfCmp1.b1,
                 Event.read Reg.T2MOVF2 r.hw.ovfCmp1.b2, Event.exitCritical,
                 Event.call Callback.macBackoffTimerCompareIsr,
                 Event.read Reg.T2IRQF (cb.macBackoffTimerCompareIsr
                    { r.hw with ovfSel := .cmp1, timSel := .count }).T2IRQF,
                 Event.write Reg.T2IRQF (((cb.macBackoffTimerCompareIsr
                    { r.hw with ovfSel := .cmp1, timSel := .count }).T2IRQF
                  &&& compl8 d.TIMER2_OVF_COMPARE1F) % 256)] }
          else
            some { r with
              hw := { r.hw with ovfSel := .cmp1, timSel := .count },
              log := r.log ++
                [Event.read Reg.T2IRQM r.hw.T2IRQM, Event.read Reg.T2IRQF r.hw.T2IRQF,
                 Event.enterCritical, Event.select OvfSel.count TimSel.count,
                 Event.read Reg.T2M0 r.hw.timCount0,
                 Event.read Reg.T2MOVF0 r.hw.ovfCount.b0,
                 Event.read Reg.T2MOVF1 r.hw.ovfCount.b1,
                 Event.read Reg.T2MOVF2 r.hw.ovfCount.b2, Event.exitCritical,
                 Event.enterCritical, Event.select OvfSel.cmp1 TimSel.count,
                 Event.read Reg.T2MOVF0 r.hw.ovfCmp1.b0,
                 Event.read Reg.T2MOVF1 r.hw.ovfCmp1.b1,
                 Event.read Reg.T2MOVF2 r.hw.ovfCmp1.b2, Event.exitCritical] }
        else
          some { r with log := r.log ++
            [Event.read Reg.T2IRQM r.hw.T2IRQM, Event.read Reg.T2IRQF r.hw.T2IRQF] }
      else
        some { r with log := r.log ++ [Event.read Reg.T2IRQM r.hw.T2IRQM] } := by
  unfold macMcuTimer2OverflowWorkaround MAC_RADIO_BACKOFF_COUNT
  simp only [rd, Run.emit, Mcu.get, overflowCount_eq, getCompare_eq]
  split_ifs <;> simp [wr, invoke, Mcu.set, and_and_compl8]

/-- C6: `macMcuTimer2OverflowWorkaround`, with the flag and mask constants of the compare
interrupt at the same bit. Let `a` be the backoff count and `b` the compare value read by
`macMcuOverflowGetCompare`. Either the compare interrupt is enabled in `T2IRQM`, not
pending in `T2IRQF` and `a > b`: then the backoff-compare callback is called exactly once, no
other callback is called, the call is followed by the read-modify-write of `T2IRQF` that
clears the compare flag, and the machine on return is the one the callback produced from
the entry machine (seen through the compare view that the second getter selected) with the
compare flag of `T2IRQF` cleared and nothing else changed. Or that condition fails: then
no callback is called, `T2IRQF` and `T2IRQM` are as at entry, and the machine is the entry
machine, at most with the view selectors changed by the getters. -/
theorem C6_workaround_fires_iff (d : Defs) (cb : Callbacks) (r : Run)
    (hFM : d.TIMER2_OVF_COMPARE1M = d.TIMER2_OVF_COMPARE1F) :
    ∃ (a b : Nat) (r1 : Run),
      (MAC_RADIO_BACKOFF_COUNT d r).1 = some a ∧ (macMcuOverflowGetCompare d r).1 = some b ∧
      macMcuTimer2OverflowWorkaround d cb r = some r1 ∧
      (((r.hw.T2IRQM &&& d.TIMER2_OVF_COMPARE1M ≠ 0 ∧
            r.hw.T2IRQF &&& d.TIMER2_OVF_COMPARE1F = 0 ∧ b < a) ∧
          (∃ pre : List Event, (∀ c, callCount c pre = 0) ∧
            r1.log = r.log ++ pre ++ [Event.call Callback.macBackoffTimerCompareIsr,
              Event.read Reg.T2IRQF (cb.macBackoffTimerCompareIsr
                { r.hw with ovfSel := .cmp1, timSel := .count }).T2IRQF,
              Event.write Reg.T2IRQF (((cb.macBackoffTimerCompareIsr
                { r.hw with ovfSel := .cmp1, timSel := .count }).T2IRQF
                  &&& compl8 d.TIMER2_OVF_COMPARE1F) % 256)]) ∧
          (∀ c, callCount c r1.log = callCount c r.log +
            (if c = Callback.macBackoffTimerCompareIsr then 1 else 0)) ∧
          r1.hw = { cb.macBackoffTimerCompareIsr
                { r.hw with ovfSel := .cmp1, timSel := .count } with
            T2IRQF := (cb.macBackoffTimerCompareIsr
                { r.hw with ovfSel := .cmp1, timSel := .count }).T2IRQF
              &&& compl8 d.TIMER2_OVF_COMPARE1F } ∧
          r1.hw.T2IRQF &&& d.TIMER2_OVF_COMPARE1F = 0)
        ∨
        (¬ (r.hw.T2IRQM &&& d.TIMER2_OVF_COMPARE1M ≠ 0 ∧
            r.hw.T2IRQF &&& d.TIMER2_OVF_COMPARE1F = 0 ∧ b < a) ∧
          (∀ c, callCount c r1.log = callCount c r.log) ∧
          r1.hw.T2IRQF = r.hw.T2IRQF ∧ r1.hw.T2IRQM = r.hw.T2IRQM ∧
          (r1.hw = r.hw ∨ r1.hw = { r.hw with ovfSel := .cmp1, timSel := .count }))) := by
  have hW := workaround_eq d cb r
  rw [hFM]
  by_cases hen : r.hw.T2IRQM &&& d.TIMER2_OVF_COMPARE1F ≠ 0
  · rw [if_pos hen] at hW
    by_cases hpend : r.hw.T2IRQF &&& d.TIMER2_OVF_COMPARE1F = 0
    · rw [if_pos hpend] at hW
      by_cases hgt : r.hw.ovfCount.b0 % 256 + 256 * (r.hw.ovfCount.b1 % 256)
                + 65536 * (r.hw.ovfCount.b2 % 256)
              > r.hw.ovfCmp1.b0 % 256 + 256 * (r.hw.ovfCmp1.b1 % 256)
                + 65536 * (r.hw.ovfCmp1.b2 % 256)
      · rw [if_pos hgt] at hW
        refine ⟨_, _, _, overflowCount_val d r, getCompare_val d r, hW,
          Or.inl ⟨⟨hen, hpend, hgt⟩, ⟨[Event.read Reg.T2IRQM r.hw.T2IRQM,
          Event.read Reg.T2IRQF r.hw.T2IRQF,
          Event.enterCritical, Event.select OvfSel.count TimSel.count,
          Event.read Reg.T2M0 r.hw.timCount0,
          Event.read Reg.T2MOVF0 r.hw.ovfCount.b0,
          Event.read Reg.T2MOVF1 r.hw.ovfCount.b1,
          Event.read Reg.T2MOVF2 r.hw.ovfCount.b2, Event.exitCritical,
          Event.enterCritical, Event.select OvfSel.cmp1 TimSel.count,
          Event.read Reg.T2MOVF0 r.hw.ovfCmp1.b0,
          Event.read Reg.T2MOVF1 r.hw.ovfCmp1.b1,
          Event.read Reg.T2MOVF2 r.hw.ovfCmp1.b2, Event.exitCritical], ?_, ?_⟩, ?_, rfl,
          and_compl8_and _ _⟩⟩
        · intro c
          simp [callCount]
        · simp
        · intro c
          by_cases hc : c = Callback.macBackoffTimerCompareIsr
          · subst hc
            simp [callCount]
          · have hc2 : ¬ Callback.macBackoffTimerCompareIsr = c := fun h => hc h.symm
            simp [callCount, hc, hc2]
      · rw [if_neg hgt] at hW
        refine ⟨_, _, _, overflowCount_val d r, getCompare_val d r, hW,
          Or.inr ⟨?_, ?_, rfl, rfl, Or.inr rfl⟩⟩
        · tauto
        · intro c
          simp [callCount]
    · rw [if_neg hpend] at hW
      refine ⟨_, _, _, overflowCount_val d r, getCompare_val d r, hW,
        Or.inr ⟨?_, ?_, rfl, rfl, Or.inl rfl⟩⟩
      · tauto
      · intro c
        simp [callCount]
  · rw [if_neg hen] at hW
    refine ⟨_, _, _, overflowCount_val d r, getCompare_val d r, hW,
      Or.inr ⟨?_, ?_, rfl, rfl, Or.inl rfl⟩⟩
    · tauto
    · intro c
      simp [callCount]

/-- Evaluation of C6 in the erratum situation with idle callbacks. -/
theorem C6_workaround_fires_iff_witness :
    ∃ (a b : Nat) (r1 : Run),
      (MAC_RADIO_BACKOFF_COUNT cc2530 (Run.start compareMissed quiet)).1 = some a ∧
      (macMcuOverflowGetCompare cc2530 (Run.start compareMissed quiet)).1 = some b ∧
      macMcuTimer2OverflowWorkaround cc2530 Callbacks.idle (Run.start compareMissed quiet)
        = some r1 ∧
      ((((Run.start compareMissed quiet).hw.T2IRQM &&& cc2530.TIMER2_OVF_COMPARE1M ≠ 0 ∧
            (Run.start compareMissed quiet).hw.T2IRQF &&& cc2530.TIMER2_OVF_COMPARE1F = 0 ∧
            b < a) ∧
          (∃ pre : List Event, (∀ c, callCount c pre = 0) ∧
            r1.log = (Run.start compareMissed quiet).log ++ pre ++
              [Event.call Callback.macBackoffTimerCompareIsr,
               Event.read Reg.T2IRQF (Callbacks.idle.macBackoffTimerCompareIsr
                { (Run.start compareMissed quiet).hw with
                  ovfSel := .cmp1, timSel := .count }).T2IRQF,
               Event.write Reg.T2IRQF (((Callbacks.idle.macBackoffTimerCompareIsr
                { (Run.start compareMissed quiet).hw with
                  ovfSel := .cmp1, timSel := .count }).T2IRQF
                  &&& compl8 cc2530.TIMER2_OVF_COMPARE1F) % 256)]) ∧
          (∀ c, callCount c r1.log = callCount c (Run.start compareMissed quiet).log +
            (if c = Callback.macBackoffTimerCompareIsr then 1 else 0)) ∧
          r1.hw = { Callbacks.idle.macBackoffTimerCompareIsr
                { (Run.start compareMissed quiet).hw with
                  ovfSel := .cmp1, timSel := .count } with
            T2IRQF := (Callbacks.idle.macBackoffTimerCompareIsr
                { (Run.start compareMissed quiet).hw with
                  ovfSel := .cmp1, timSel := .count }).T2IRQF
              &&& compl8 cc2530.TIMER2_OVF_COMPARE1F } ∧
          r1.hw.T2IRQF &&& cc2530.TIMER2_OVF_COMPARE1F = 0)
        ∨
        (¬ ((Run.start compareMissed quiet).hw.T2IRQM &&& cc2530.TIMER2_OVF_COMPARE1M ≠ 0 ∧
            (Run.start compareMissed quiet).hw.T2IRQF &&& cc2530.TIMER2_OVF_COMPARE1F = 0 ∧
            b < a) ∧
          (∀ c, callCount c r1.log = callCount c (Run.start compareMissed quiet).log) ∧
          r1.hw.T2IRQF = (Run.start compareMissed quiet).hw.T2IRQF ∧
          r1.hw.T2IRQM = (Run.start compareMissed quiet).hw.T2IRQM ∧
          (r1.hw = (Run.start compareMissed quiet).hw ∨
            r1.hw = { (Run.start compareMissed quiet).hw with
              ovfSel := .cmp1, timSel := .count }))) :=
  C6_workaround_fires_iff cc2530 Callbacks.idle (Run.start compareMissed quiet) rfl

theorem and_compl8_and_disjoint (x m p : Nat) (hd : p &&& m = 0) (hp : p < 256) :
    x &&& compl8 m &&& p = x &&& p := by
  apply Nat.eq_of_testBit_eq
  intro i
  have h1 := congrArg (fun z => Nat.testBit z i) hd
  have h2 : p.testBit i = (decide (i < 8) && p.testBit i) := by
    rw [← testBit_mod256, Nat.mod_eq_of_lt hp]
  simp [testBit_compl8] at h1 ⊢
  cases hx : x.testBit i <;> cases hpi : p.testBit i <;> simp_all

/-- Result of `macMcuTimer2Isr` when the overflow-compare condition is pending and
enabled. -/
theorem timer2Isr_compare (d : Defs) (cb : Callbacks) (r : Run)
    (hc : (r.hw.T2IRQF &&& d.TIMER2_OVF_COMPARE1F) &&& r.hw.T2IRQM ≠ 0) :
    (macMcuTimer2Isr d cb r).log = r.log ++
        [Event.read Reg.T2IRQM r.hw.T2IRQM, Event.read Reg.T2IRQF r.hw.T2IRQF,
         Event.call Callback.macBackoffTimerCompareIsr,
         Event.read Reg.T2IRQF (cb.macBackoffTimerCompareIsr r.hw).T2IRQF,
         Event.write Reg.T2IRQF (((cb.macBackoffTimerCompareIsr r.hw).T2IRQF
            &&& compl8 d.TIMER2_OVF_COMPARE1F) % 256)] ∧
      (macMcuTimer2Isr d cb r).hw = { cb.macBackoffTimerCompareIsr r.hw with
        T2IRQF := (cb.macBackoffTimerCompareIsr r.hw).T2IRQF
          &&& compl8 d.TIMER2_OVF_COMPARE1F } := by
  unfold macMcuTimer2Isr
  simp only [rd, Run.emit, Mcu.get]
  rw [if_pos hc]
  simp [wr, invoke, Mcu.set, and_and_compl8]

/-- Result of `macMcuTimer2Isr` when only the overflow-tick condition is pending and
enabled. -/
theorem timer2Isr_tick (d : Defs) (cb : Callbacks) (r : Run)
    (hc : ¬ (r.hw.T2IRQF &&& d.TIMER2_OVF_COMPARE1F) &&& r.hw.T2IRQM ≠ 0)
    (ht : (r.hw.T2IRQF &&& d.TIMER2_PERF) &&& r.hw.T2IRQM ≠ 0) :
    (∃ tr, (∀ c, callCount c tr = 0) ∧ (macMcuTimer2Isr d cb r).log = r.log ++
        [Event.read Reg.T2IRQM r.hw.T2IRQM, Event.read Reg.T2IRQF r.hw.T2IRQF,
         Event.call Callback.mcuRecordMaxRssiIsr] ++ tr ++
        [Event.read Reg.T2IRQF r.hw.T2IRQF,
         Event.write Reg.T2IRQF ((r.hw.T2IRQF &&& compl8 d.TIMER2_PERF) % 256)]) ∧
      (macMcuTimer2Isr d cb r).hw.T2IRQF = r.hw.T2IRQF &&& compl8 d.TIMER2_PERF ∧
      (macMcuTimer2Isr d cb r).hw.T2IRQM = r.hw.T2IRQM := by
  unfold macMcuTimer2Isr
  simp only [rd, Run.emit, Mcu.get]
  rw [if_neg hc, if_pos ht]
  unfold mcuRecordMaxRssiIsr
  simp only [rd, Run.emit, Mcu.get]
  by_cases hgt : toInt8 r.hw.RSSI > r.hw.maxRssi
  · rw [if_pos hgt]
    refine ⟨⟨[Event.read Reg.RSSI r.hw.RSSI, Event.assign Global.maxRssi (toInt8 r.hw.RSSI)],
      ?_, ?_⟩, ?_, ?_⟩
    · intro c
      simp [callCount]
    · simp [wr, setMaxRssi]
    · simp [wr, setMaxRssi, Mcu.set, and_and_compl8]
    · simp [wr, setMaxRssi, Mcu.set]
  · rw [if_neg hgt]
    refine ⟨⟨[Event.read Reg.RSSI r.hw.RSSI], ?_, ?_⟩, ?_, ?_⟩
    · intro c
      simp [callCount]
    · simp [wr]
    · simp [wr, Mcu.set, and_and_compl8]
    · simp [wr, Mcu.set]

/-- Result of `macMcuTimer2Isr` when neither condition is pending and enabled. -/
theorem timer2Isr_none (d : Defs) (cb : Callbacks) (r : Run)
    (hc : ¬ (r.hw.T2IRQF &&& d.TIMER2_OVF_COMPARE1F) &&& r.hw.T2IRQM ≠ 0)
    (ht : ¬ (r.hw.T2IRQF &&& d.TIMER2_PERF) &&& r.hw.T2IRQM ≠ 0) :
    (macMcuTimer2Isr d cb r).log = r.log ++
        [Event.read Reg.T2IRQM r.hw.T2IRQM, Event.read Reg.T2IRQF r.hw.T2IRQF] ∧
      (macMcuTimer2Isr d cb r).hw = r.hw := by
  unfold macMcuTimer2Isr
  simp only [rd, Run.emit, Mcu.get]
  rw [if_neg hc, if_neg ht]
  simp

/-- Machine that `macMcuTimer2Isr` leaves when only the overflow-tick condition is pending
and enabled: the sample update has run, then the tick flag is cleared. -/
theorem timer2Isr_tick_hw (d : Defs) (cb : Callbacks) (r : Run)
    (hc : ¬ (r.hw.T2IRQF &&& d.TIMER2_OVF_COMPARE1F) &&& r.hw.T2IRQM ≠ 0)
    (ht : (r.hw.T2IRQF &&& d.TIMER2_PERF) &&& r.hw.T2IRQM ≠ 0) :
    (macMcuTimer2Isr d cb r).hw = { (mcuRecordMaxRssiIsr r).hw with
      T2IRQF := r.hw.T2IRQF &&& compl8 d.TIMER2_PERF } ∧
    (mcuRecordMaxRssiIsr r).hw = { r.hw with
      maxRssi := if toInt8 r.hw.RSSI > r.hw.maxRssi then toInt8 r.hw.RSSI
        else r.hw.maxRssi } := by
  unfold macMcuTimer2Isr
  simp only [rd, Run.emit, Mcu.get]
  rw [if_neg hc, if_pos ht]
  unfold mcuRecordMaxRssiIsr
  simp only [rd, Run.emit, Mcu.get]
  by_cases hgt : toInt8 r.hw.RSSI > r.hw.maxRssi
  · rw [if_pos hgt, if_pos hgt, if_pos hgt]
    simp [wr, setMaxRssi, Mcu.set, and_and_compl8]
  · rw [if_neg hgt, if_neg hgt, if_neg hgt]
    simp [wr, Mcu.set, and_and_compl8]

/-- C7: timer handler `macMcuTimer2Isr`. (1) When the overflow-compare condition and the
overflow-tick condition are both pending and enabled at entry, one invocation calls the
backoff-compare callback once and no other function, and its only write to `T2IRQF` clears
the compare flag of the value the callback left: the tick flag is as the callback left it
(flag constants on different bits). (2) The RSSI-sample function is called exactly when the
tick condition is pending and enabled and the compare condition is not. (3) In that case it
is the only function called, the tick flag alone is cleared and the compare flag is
untouched; the machine on return is the entry machine with `maxRssi` raised to the sample in
`RSSI` when that is larger, and the tick flag cleared. -/
theorem C7_timer_compare_before_tick (d : Defs) (cb : Callbacks) (r : Run) :
    ((r.hw.T2IRQF &&& d.TIMER2_OVF_COMPARE1F) &&& r.hw.T2IRQM ≠ 0 →
      (r.hw.T2IRQF &&& d.TIMER2_PERF) &&& r.hw.T2IRQM ≠ 0 →
        (∀ c, callCount c (macMcuTimer2Isr d cb r).log = callCount c r.log +
          (if c = Callback.macBackoffTimerCompareIsr then 1 else 0)) ∧
        (macMcuTimer2Isr d cb r).hw.T2IRQF =
          (cb.macBackoffTimerCompareIsr r.hw).T2IRQF &&& compl8 d.TIMER2_OVF_COMPARE1F ∧
        (d.TIMER2_PERF &&& d.TIMER2_OVF_COMPARE1F = 0 → d.TIMER2_PERF < 256 →
          (macMcuTimer2Isr d cb r).hw.T2IRQF &&& d.TIMER2_PERF =
            (cb.macBackoffTimerCompareIsr r.hw).T2IRQF &&& d.TIMER2_PERF)) ∧
    (callCount Callback.mcuRecordMaxRssiIsr (macMcuTimer2Isr d cb r).log =
        callCount Callback.mcuRecordMaxRssiIsr r.log + 1 ↔
      ((r.hw.T2IRQF &&& d.TIMER2_PERF) &&& r.hw.T2IRQM ≠ 0 ∧
        ¬ (r.hw.T2IRQF &&& d.TIMER2_OVF_COMPARE1F) &&& r.hw.T2IRQM ≠ 0)) ∧
    ((r.hw.T2IRQF &&& d.TIMER2_PERF) &&& r.hw.T2IRQM ≠ 0 →
      ¬ (r.hw.T2IRQF &&& d.TIMER2_OVF_COMPARE1F) &&& r.hw.T2IRQM ≠ 0 →
        (∀ c, callCount c (macMcuTimer2Isr d cb r).log = callCount c r.log +
          (if c = Callback.mcuRecordMaxRssiIsr then 1 else 0)) ∧
        (macMcuTimer2Isr d cb r).hw.T2IRQF = r.hw.T2IRQF &&& compl8 d.TIMER2_PERF ∧
        (d.TIMER2_OVF_COMPARE1F &&& d.TIMER2_PERF = 0 → d.TIMER2_OVF_COMPARE1F < 256 →
          (macMcuTimer2Isr d cb r).hw.T2IRQF &&& d.TIMER2_OVF_COMPARE1F =
            r.hw.T2IRQF &&& d.TIMER2_OVF_COMPARE1F) ∧
        (macMcuTimer2Isr d cb r).hw = { r.hw with
          maxRssi := if toInt8 r.hw.RSSI > r.hw.maxRssi then toInt8 r.hw.RSSI
            else r.hw.maxRssi,
          T2IRQF := r.hw.T2IRQF &&& compl8 d.TIMER2_PERF }) := by
  have tickCase : (r.hw.T2IRQF &&& d.TIMER2_PERF) &&& r.hw.T2IRQM ≠ 0 →
      ¬ (r.hw.T2IRQF &&& d.TIMER2_OVF_COMPARE1F) &&& r.hw.T2IRQM ≠ 0 →
        (∀ c, callCount c (macMcuTimer2Isr d cb r).log = callCount c r.log +
          (if c = Callback.mcuRecordMaxRssiIsr then 1 else 0)) ∧
        (macMcuTimer2Isr d cb r).hw.T2IRQF = r.hw.T2IRQF &&& compl8 d.TIMER2_PERF := by
    intro ht hc
    obtain ⟨⟨tr, h0, h1⟩, h2, _⟩ := timer2Isr_tick d cb r hc ht
    refine ⟨?_, h2⟩
    intro c
    have h5 : List.count (Event.call c) tr = 0 := h0 c
    rw [h1]
    cases c <;> simp [callCount, h5]
  refine ⟨?_, ?_, ?_⟩
  · intro hc _
    obtain ⟨h1, h2⟩ := timer2Isr_compare d cb r hc
    refine ⟨?_, ?_, ?_⟩
    · intro c
      rw [h1]
      cases c <;> simp [callCount]
    · rw [h2]
    · intro hd hp
      rw [h2]
      exact and_compl8_and_disjoint _ _ _ hd hp
  · by_cases hc : (r.hw.T2IRQF &&& d.TIMER2_OVF_COMPARE1F) &&& r.hw.T2IRQM ≠ 0
    · obtain ⟨h1, _⟩ := timer2Isr_compare d cb r hc
      rw [h1]
      simp [callCount, hc]
    · by_cases ht : (r.hw.T2IRQF &&& d.TIMER2_PERF) &&& r.hw.T2IRQM ≠ 0
      · have h := (tickCase ht hc).1 Callback.mcuRecordMaxRssiIsr
        rw [h]
        simp only [if_true, true_iff]
        exact ⟨ht, hc⟩
      · obtain ⟨h1, _⟩ := timer2Isr_none d cb r hc ht
        rw [h1]
        simp [callCount, ht]
  · intro ht hc
    obtain ⟨h1, h2⟩ := tickCase ht hc
    refine ⟨h1, h2, ?_, ?_⟩
    · intro hd hp
      rw [h2]
      exact and_compl8_and_disjoint _ _ _ hd hp
    · obtain ⟨e1, e2⟩ := timer2Isr_tick_hw d cb r hc ht
      rw [e1, e2]

/-- Evaluation of C7 with both timer conditions pending and enabled and idle callbacks:
only the backoff-compare callback is called and the tick flag stays pending. -/
theorem C7_timer_compare_before_tick_witness :
    (∀ c, callCount c (macMcuTimer2Isr cc2530 Callbacks.idle (Run.start bothPending quiet)).log
        = callCount c (Run.start bothPending quiet).log +
          (if c = Callback.macBackoffTimerCompareIsr then 1 else 0)) ∧
      (macMcuTimer2Isr cc2530 Callbacks.idle (Run.start bothPending quiet)).hw.T2IRQF
          &&& cc2530.TIMER2_PERF =
        (Callbacks.idle.macBackoffTimerCompareIsr (Run.start bothPending quiet).hw).T2IRQF
          &&& cc2530.TIMER2_PERF :=
  have h := (C7_timer_compare_before_tick cc2530 Callbacks.idle
    (Run.start bothPending quiet)).1 (by decide) (by decide)
  ⟨h.1, h.2.2 (by decide) (by decide)⟩

/-- C8 (as amended): one invocation of `macMcuTimer2Isr` calls exactly one of the two
functions when at least one of the two conditions is pending and enabled at entry; when
neither is, it calls nothing and leaves the machine unchanged. So at most one branch runs per
invocation. -/
theorem C8_timer_at_most_one_branch (d : Defs) (cb : Callbacks) (r : Run) :
    if (r.hw.T2IRQF &&& d.TIMER2_OVF_COMPARE1F) &&& r.hw.T2IRQM ≠ 0 ∨
        (r.hw.T2IRQF &&& d.TIMER2_PERF) &&& r.hw.T2IRQM ≠ 0 then
      callCount Callback.macBackoffTimerCompareIsr (macMcuTimer2Isr d cb r).log +
          callCount Callback.mcuRecordMaxRssiIsr (macMcuTimer2Isr d cb r).log =
        callCount Callback.macBackoffTimerCompareIsr r.log +
          callCount Callback.mcuRecordMaxRssiIsr r.log + 1
    else
      (∀ c, callCount c (macMcuTimer2Isr d cb r).log = callCount c r.log) ∧
        (macMcuTimer2Isr d cb r).hw = r.hw := by
  by_cases hc : (r.hw.T2IRQF &&& d.TIMER2_OVF_COMPARE1F) &&& r.hw.T2IRQM ≠ 0
  · rw [if_pos (Or.inl hc)]
    obtain ⟨h1, _⟩ := timer2Isr_compare d cb r hc
    rw [h1]
    simp [callCount]
    omega
  · by_cases ht : (r.hw.T2IRQF &&& d.TIMER2_PERF) &&& r.hw.T2IRQM ≠ 0
    · rw [if_pos (Or.inr ht)]
      obtain ⟨⟨tr, h0, h1⟩, _, _⟩ := timer2Isr_tick d cb r hc ht
      have h5 : ∀ c, List.count (Event.call c) tr = 0 := h0
      rw [h1]
      simp [callCount, h5]
      omega
    · rw [if_neg (by tauto)]
      obtain ⟨h1, h2⟩ := timer2Isr_none d cb r hc ht
      refine ⟨?_, h2⟩
      intro c
      rw [h1]
      simp [callCount]

/-- C8 as stated fails: with no flag pending, an invocation of the handler calls neither of
the two functions. -/
theorem C8_counterexample_no_branch :
    callCount Callback.macBackoffTimerCompareIsr
        (macMcuTimer2Isr cc2530 Callbacks.idle (Run.start Mcu.zero quiet)).log +
      callCount Callback.mcuRecordMaxRssiIsr
        (macMcuTimer2Isr cc2530 Callbacks.idle (Run.start Mcu.zero quiet)).log ≠ 1 := by
  decide


theorem compl8_mod (x : Nat) : compl8 x % 256 = compl8 x := by
  apply Nat.eq_of_testBit_eq
  intro i
  simp [testBit_compl8, testBit_mod256]

/-- Closed form of the first part of the radio handler. -/
theorem rfIsrCsp_eq (d : Defs) (cb : Callbacks) (r : Run) :
    macMcuRfIsrCsp d cb r =
      if (r.hw.RFIRQF1 &&& d.IRQ_CSP_MANINT) &&& r.hw.RFIRQM1 ≠ 0 then
        { r with
          hw := cb.macCspTxIntIsr { r.hw with
            S1CON := 0, RFIRQF1 := r.hw.RFIRQF1 &&& compl8 d.IRQ_CSP_MANINT },
          log := r.log ++ [Event.read Reg.RFIRQM1 r.hw.RFIRQM1, Event.write Reg.S1CON 0,
            Event.read Reg.RFIRQF1 r.hw.RFIRQF1,
            Event.write Reg.RFIRQF1 (compl8 d.IRQ_CSP_MANINT),
            Event.call Callback.macCspTxIntIsr] }
      else if (r.hw.RFIRQF1 &&& d.IRQ_CSP_STOP) &&& r.hw.RFIRQM1 ≠ 0 then
        { r with
          hw := cb.macCspTxStopIsr { r.hw with
            S1CON := 0, RFIRQF1 := r.hw.RFIRQF1 &&& compl8 d.IRQ_CSP_STOP },
          log := r.log ++ [Event.read Reg.RFIRQM1 r.hw.RFIRQM1, Event.write Reg.S1CON 0,
            Event.read Reg.RFIRQF1 r.hw.RFIRQF1, Event.read Reg.RFIRQF1 r.hw.RFIRQF1,
            Event.write Reg.RFIRQF1 (compl8 d.IRQ_CSP_STOP),
            Event.call Callback.macCspTxStopIsr] }
      else if (r.hw.RFIRQF1 &&& d.IRQ_TXACKDONE) &&& r.hw.RFIRQM1 ≠ 0 then
        { r with
          hw := cb.macRxAckTxDoneCallback { r.hw with
            S1CON := 0, RFIRQM1 := (r.hw.RFIRQM1 &&& compl8 d.IM_TXACKDONE) % 256 },
          log := r.log ++ [Event.read Reg.RFIRQM1 r.hw.RFIRQM1, Event.write Reg.S1CON 0,
            Event.read Reg.RFIRQF1 r.hw.RFIRQF1, Event.read Reg.RFIRQF1 r.hw.RFIRQF1,
            Event.read Reg.RFIRQF1 r.hw.RFIRQF1, Event.read Reg.RFIRQM1 r.hw.RFIRQM1,
            Event.write Reg.RFIRQM1 ((r.hw.RFIRQM1 &&& compl8 d.IM_TXACKDONE) % 256),
            Event.call Callback.macRxAckTxDoneCallback] }
      else
        { r with
          hw := { r.hw with S1CON := 0 },
          log := r.log ++ [Event.read Reg.RFIRQM1 r.hw.RFIRQM1, Event.write Reg.S1CON 0,
            Event.read Reg.RFIRQF1 r.hw.RFIRQF1, Event.read Reg.RFIRQF1 r.hw.RFIRQF1,
            Event.read Reg.RFIRQF1 r.hw.RFIRQF1] } := by
  unfold macMcuRfIsrCsp
  simp only [rd, wr, Run.emit, Mcu.get, Mcu.set, invoke, Nat.zero_mod, compl8_mod]
  split_ifs <;> simp

theorem callCount_fifopRounds (d : Defs) (fsm : Nat → Nat) (p k : Nat) (c : Callback) :
    callCount c (fifopRounds d fsm p k) = if c = Callback.macRxThresholdIsr then k else 0 := by
  induction k generalizing p with
  | zero => simp [fifopRounds, callCount]
  | succ k ih =>
    have ih1 := ih (p + 1)
    unfold callCount at ih1 ⊢
    cases c <;> simp [fifopRounds, ih1]

/-- The loop of the radio handler: when the status `FIFOP` reads active on the next `n`
reads of `FSMSTAT1` and inactive on the one after, any fuel above `n` lets the loop finish
after `n + 1` rounds. -/
theorem rxThresholdLoop_rounds (d : Defs) (cb : Callbacks) (n : Nat) :
    ∀ (fuel : Nat) (r : Run), n < fuel →
      (∀ k, k < n → r.fsmstat1 (r.polls + k) &&& d.FIFOP ≠ 0) →
      r.fsmstat1 (r.polls + n) &&& d.FIFOP = 0 →
      ∃ r2, rxThresholdLoop d cb fuel r = some r2 ∧
        r2.log = r.log ++ fifopRounds d r.fsmstat1 r.polls (n + 1) ∧
        r2.polls = r.polls + (n + 1) := by
  induction n with
  | zero =>
    intro fuel r hf _ hstop
    obtain ⟨fuel, rfl⟩ : ∃ f, fuel = f + 1 := ⟨fuel - 1, by omega⟩
    unfold rxThresholdLoop
    simp only [rdFSMSTAT1, wr, invoke]
    have hstop1 : ¬ (r.fsmstat1 r.polls &&& d.FIFOP ≠ 0) := by simpa using hstop
    rw [if_neg hstop1]
    refine ⟨_, rfl, ?_, ?_⟩ <;> simp [fifopRounds, compl8_mod]
  | succ n ih =>
    intro fuel r hf hact hstop
    obtain ⟨fuel, rfl⟩ : ∃ f, fuel = f + 1 := ⟨fuel - 1, by omega⟩
    unfold rxThresholdLoop
    simp only [rdFSMSTAT1, wr, invoke]
    have h0 : r.fsmstat1 r.polls &&& d.FIFOP ≠ 0 := by simpa using hact 0 (by omega)
    rw [if_pos h0]
    obtain ⟨r2, h1, h2, h3⟩ := ih fuel
      { r with
        hw := (cb.macRxThresholdIsr r.hw).set Reg.RFIRQF0 (compl8 d.IRQ_FIFOP % 256),
        log := r.log ++ [Event.call Callback.macRxThresholdIsr] ++
          [Event.write Reg.RFIRQF0 (compl8 d.IRQ_FIFOP % 256)] ++
          [Event.sample StatusReg.FSMSTAT1 (r.fsmstat1 r.polls)],
        polls := r.polls + 1 } (by omega)
      (by
        intro k hk
        have := hact (k + 1) (by omega)
        simpa [Nat.add_assoc, Nat.add_comm 1 k] using this)
      (by simpa [Nat.add_assoc, Nat.add_comm 1 n] using hstop)
    refine ⟨r2, h1, ?_, ?_⟩
    · rw [h2]
      simp [fifopRounds, compl8_mod]
    · rw [h3]
      simp only
      omega


theorem rfIsrCsp_inputs (d : Defs) (cb : Callbacks) (r : Run) :
    (macMcuRfIsrCsp d cb r).fsmstat1 = r.fsmstat1 ∧ (macMcuRfIsrCsp d cb r).polls = r.polls := by
  rw [rfIsrCsp_eq]
  split_ifs <;> simp

theorem rfIsrCsp_threshold_calls (d : Defs) (cb : Callbacks) (r : Run) :
    callCount Callback.macRxThresholdIsr (macMcuRfIsrCsp d cb r).log
      = callCount Callback.macRxThresholdIsr r.log := by
  rw [rfIsrCsp_eq]
  split_ifs <;> simp [callCount]

theorem rxThresholdLoop_hw (d : Defs) (cb : Callbacks) (n : Nat) :
    ∀ (fuel : Nat) (r : Run), n < fuel →
      (∀ k, k < n → r.fsmstat1 (r.polls + k) &&& d.FIFOP ≠ 0) →
      r.fsmstat1 (r.polls + n) &&& d.FIFOP = 0 →
      ∃ r2, rxThresholdLoop d cb fuel r = some r2 ∧
        r2.hw = (fifopRound d cb)^[n + 1] r.hw := by
  induction n with
  | zero =>
    intro fuel r hf _ hstop
    obtain ⟨fuel, rfl⟩ : ∃ f, fuel = f + 1 := ⟨fuel - 1, by omega⟩
    unfold rxThresholdLoop
    simp only [rdFSMSTAT1, wr, invoke]
    have hstop1 : ¬ (r.fsmstat1 r.polls &&& d.FIFOP ≠ 0) := by simpa using hstop
    rw [if_neg hstop1]
    refine ⟨_, rfl, ?_⟩
    simp [fifopRound, Mcu.set, compl8_mod]
  | succ n ih =>
    intro fuel r hf hact hstop
    obtain ⟨fuel, rfl⟩ : ∃ f, fuel = f + 1 := ⟨fuel - 1, by omega⟩
    unfold rxThresholdLoop
    simp only [rdFSMSTAT1, wr, invoke]
    have h0 : r.fsmstat1 r.polls &&& d.FIFOP ≠ 0 := by simpa using hact 0 (by omega)
    rw [if_pos h0]
    obtain ⟨r2, h1, h2⟩ := ih fuel
      { r with
        hw := (cb.macRxThresholdIsr r.hw).set Reg.RFIRQF0 (compl8 d.IRQ_FIFOP % 256),
        log := r.log ++ [Event.call Callback.macRxThresholdIsr] ++
          [Event.write Reg.RFIRQF0 (compl8 d.IRQ_FIFOP % 256)] ++
          [Event.sample StatusReg.FSMSTAT1 (r.fsmstat1 r.polls)],
        polls := r.polls + 1 } (by omega)
      (by
        intro k hk
        have := hact (k + 1) (by omega)
        simpa [Nat.add_assoc, Nat.add_comm 1 k] using this)
      (by simpa [Nat.add_assoc, Nat.add_comm 1 n] using hstop)
    refine ⟨r2, h1, ?_⟩
    rw [h2, Function.iterate_succ_apply (fifopRound d cb) (n + 1)]
    simp [fifopRound, Mcu.set, compl8_mod]

theorem fifopRound_flag (d : Defs) (cb : Callbacks) (m : Mcu) :
    (fifopRound d cb m).RFIRQF0 &&& d.IRQ_FIFOP = 0 := by
  simp [fifopRound, and_compl8_and]

/-- C9: radio handler `macMcuRfIsr`, FIFO threshold condition, tested on the state the first
part of the handler leaves. If the flag is pending and enabled there, and `FIFOP` reads active
on the next `n` reads of `FSMSTAT1` and inactive on read `n + 1`, then (any fuel above `n`)
the handler returns, `macRxThresholdIsr` has been called exactly `n + 1` times, each call
is followed by the write that clears the flag and by one read of `FSMSTAT1`, and the
machine on return is the one that `n + 1` rounds of callback-then-clear (`fifopRound`)
produce from the machine the first part left, so the FIFO threshold flag is clear. If the
flag is not pending or not enabled, the handler returns with no call of
`macRxThresholdIsr` and with the machine as the first part left it. -/
theorem C9_fifop_loop_count (d : Defs) (cb : Callbacks) (r : Run) :
    (((macMcuRfIsrCsp d cb r).hw.RFIRQF0 &&& d.IRQ_FIFOP)
          &&& (macMcuRfIsrCsp d cb r).hw.RFIRQM0 ≠ 0 →
      ∀ n fuel : Nat, (∀ k, k < n → r.fsmstat1 (r.polls + k) &&& d.FIFOP ≠ 0) →
        r.fsmstat1 (r.polls + n) &&& d.FIFOP = 0 → n < fuel →
        ∃ r2, macMcuRfIsr d cb fuel r = some r2 ∧
          callCount Callback.macRxThresholdIsr r2.log
            = callCount Callback.macRxThresholdIsr r.log + (n + 1) ∧
          r2.log = (macMcuRfIsrCsp d cb r).log ++
            [Event.read Reg.RFIRQM0 (macMcuRfIsrCsp d cb r).hw.RFIRQM0,
             Event.read Reg.RFIRQF0 (macMcuRfIsrCsp d cb r).hw.RFIRQF0] ++
            fifopRounds d r.fsmstat1 r.polls (n + 1) ∧
          r2.hw = (fifopRound d cb)^[n + 1] (macMcuRfIsrCsp d cb r).hw ∧
          r2.hw.RFIRQF0 &&& d.IRQ_FIFOP = 0) ∧
    (¬ ((macMcuRfIsrCsp d cb r).hw.RFIRQF0 &&& d.IRQ_FIFOP)
          &&& (macMcuRfIsrCsp d cb r).hw.RFIRQM0 ≠ 0 →
      ∀ fuel : Nat, ∃ r2, macMcuRfIsr d cb fuel r = some r2 ∧
        callCount Callback.macRxThresholdIsr r2.log
          = callCount Callback.macRxThresholdIsr r.log ∧
        r2.hw = (macMcuRfIsrCsp d cb r).hw) := by
  obtain ⟨hin1, hin2⟩ := rfIsrCsp_inputs d cb r
  have hcnt := rfIsrCsp_threshold_calls d cb r
  refine ⟨?_, ?_⟩
  · intro hpe n fuel hact hstop hfuel
    unfold macMcuRfIsr macMcuRfIsrFifop
    simp only [rd, Run.emit, Mcu.get]
    rw [if_pos hpe]
    obtain ⟨r2, h1, h2, _⟩ := rxThresholdLoop_rounds d cb n fuel
      { macMcuRfIsrCsp d cb r with
        log := (macMcuRfIsrCsp d cb r).log ++
          [Event.read Reg.RFIRQM0 (macMcuRfIsrCsp d cb r).hw.RFIRQM0] ++
          [Event.read Reg.RFIRQF0 (macMcuRfIsrCsp d cb r).hw.RFIRQF0] }
      hfuel (by simpa [hin1, hin2] using hact) (by simpa [hin1, hin2] using hstop)
    obtain ⟨r3, h3, h4⟩ := rxThresholdLoop_hw d cb n fuel
      { macMcuRfIsrCsp d cb r with
        log := (macMcuRfIsrCsp d cb r).log ++
          [Event.read Reg.RFIRQM0 (macMcuRfIsrCsp d cb r).hw.RFIRQM0] ++
          [Event.read Reg.RFIRQF0 (macMcuRfIsrCsp d cb r).hw.RFIRQF0] }
      hfuel (by simpa [hin1, hin2] using hact) (by simpa [hin1, hin2] using hstop)
    have h23 : r3 = r2 := Option.some.inj (h3.symm.trans h1)
    subst h23
    refine ⟨r3, h1, ?_, ?_, h4, ?_⟩
    · rw [h2]
      simp only [callCount_append, callCount_fifopRounds, hcnt]
      simp [callCount]
    · rw [h2]
      simp [hin1, hin2]
    · rw [h4, Function.iterate_succ_apply']
      exact fifopRound_flag d cb _
  · intro hpe fuel
    unfold macMcuRfIsr macMcuRfIsrFifop
    simp only [rd, Run.emit, Mcu.get]
    rw [if_neg hpe]
    refine ⟨_, rfl, ?_, rfl⟩
    simp only [callCount_append, hcnt]
    simp [callCount]

/-- Evaluation of C9 with `FIFOP` re-asserted once: exactly two calls, two rounds on the
machine. -/
theorem C9_fifop_loop_count_witness :
    ∃ r2, macMcuRfIsr cc2530 Callbacks.idle 2 (Run.start fifoPending fifoOnce) = some r2 ∧
      callCount Callback.macRxThresholdIsr r2.log
        = callCount Callback.macRxThresholdIsr (Run.start fifoPending fifoOnce).log + (1 + 1) ∧
      r2.log = (macMcuRfIsrCsp cc2530 Callbacks.idle (Run.start fifoPending fifoOnce)).log ++
        [Event.read Reg.RFIRQM0
          (macMcuRfIsrCsp cc2530 Callbacks.idle (Run.start fifoPending fifoOnce)).hw.RFIRQM0,
         Event.read Reg.RFIRQF0
          (macMcuRfIsrCsp cc2530 Callbacks.idle (Run.start fifoPending fifoOnce)).hw.RFIRQF0] ++
        fifopRounds cc2530 (Run.start fifoPending fifoOnce).fsmstat1
          (Run.start fifoPending fifoOnce).polls (1 + 1) ∧
      r2.hw = (fifopRound cc2530 Callbacks.idle)^[1 + 1]
        (macMcuRfIsrCsp cc2530 Callbacks.idle (Run.start fifoPending fifoOnce)).hw ∧
      r2.hw.RFIRQF0 &&& cc2530.IRQ_FIFOP = 0 :=
  (C9_fifop_loop_count cc2530 Callbacks.idle (Run.start fifoPending fifoOnce)).1
    (by decide) 1 2
    (by
      intro k hk
      have hk0 : k = 0 := by omega
      subst hk0
      decide)
    (by decide) (by decide)

/-- The loop of the radio handler calls no function other than `macRxThresholdIsr`. -/
theorem rxThresholdLoop_other_calls (d : Defs) (cb : Callbacks) (c : Callback)
    (hc : c ≠ Callback.macRxThresholdIsr) :
    ∀ (fuel : Nat) (r r2 : Run), rxThresholdLoop d cb fuel r = some r2 →
      callCount c r2.log = callCount c r.log := by
  intro fuel
  induction fuel with
  | zero =>
    intro r r2 h
    simp [rxThresholdLoop] at h
  | succ fuel ih =>
    intro r r2 h
    unfold rxThresholdLoop at h
    simp only [rdFSMSTAT1, wr, invoke] at h
    split_ifs at h with hact
    · rw [ih _ _ h]
      cases c <;> simp [callCount] at hc ⊢
    · simp only [Option.some.injEq] at h
      rw [← h]
      cases c <;> simp [callCount] at hc ⊢

/-- C10: first part of the radio handler `macMcuRfIsr`. With `f` and `m` the contents of
`RFIRQF1` and `RFIRQM1` at entry, the handler serves the first of CSP-manual-interrupt,
CSP-program-stopped, TX-acknowledgment-done whose flag is set in `f` and enabled in `m`, and
no other of the three. For the first two the flag is cleared by a write to `RFIRQF1` made
before the call, so the callback starts on a machine with that flag clear; for
TX-acknowledgment-done the enable bit in `RFIRQM1` is cleared before the call and `RFIRQF1` is
not written. Flags on other bits of `RFIRQF1` are as at entry when the callback starts. The
rest of the handler calls none of the three. -/
theorem C10_rf_first_match_only (d : Defs) (cb : Callbacks) (r : Run) :
    ((r.hw.RFIRQF1 &&& d.IRQ_CSP_MANINT) &&& r.hw.RFIRQM1 ≠ 0 →
      (macMcuRfIsrCsp d cb r).log = r.log ++
        [Event.read Reg.RFIRQM1 r.hw.RFIRQM1, Event.write Reg.S1CON 0,
         Event.read Reg.RFIRQF1 r.hw.RFIRQF1,
         Event.write Reg.RFIRQF1 (compl8 d.IRQ_CSP_MANINT),
         Event.call Callback.macCspTxIntIsr] ∧
      (macMcuRfIsrCsp d cb r).hw = cb.macCspTxIntIsr { r.hw with
        S1CON := 0, RFIRQF1 := r.hw.RFIRQF1 &&& compl8 d.IRQ_CSP_MANINT } ∧
      (r.hw.RFIRQF1 &&& compl8 d.IRQ_CSP_MANINT) &&& d.IRQ_CSP_MANINT = 0 ∧
      (∀ p, p &&& d.IRQ_CSP_MANINT = 0 → p < 256 →
        (r.hw.RFIRQF1 &&& compl8 d.IRQ_CSP_MANINT) &&& p = r.hw.RFIRQF1 &&& p)) ∧
    (¬ (r.hw.RFIRQF1 &&& d.IRQ_CSP_MANINT) &&& r.hw.RFIRQM1 ≠ 0 →
      (r.hw.RFIRQF1 &&& d.IRQ_CSP_STOP) &&& r.hw.RFIRQM1 ≠ 0 →
      (macMcuRfIsrCsp d cb r).log = r.log ++
        [Event.read Reg.RFIRQM1 r.hw.RFIRQM1, Event.write Reg.S1CON 0,
         Event.read Reg.RFIRQF1 r.hw.RFIRQF1, Event.read Reg.RFIRQF1 r.hw.RFIRQF1,
         Event.write Reg.RFIRQF1 (compl8 d.IRQ_CSP_STOP),
         Event.call Callback.macCspTxStopIsr] ∧
      (macMcuRfIsrCsp d cb r).hw = cb.macCspTxStopIsr { r.hw with
        S1CON := 0, RFIRQF1 := r.hw.RFIRQF1 &&& compl8 d.IRQ_CSP_STOP } ∧
      (r.hw.RFIRQF1 &&& compl8 d.IRQ_CSP_STOP) &&& d.IRQ_CSP_STOP = 0 ∧
      (∀ p, p &&& d.IRQ_CSP_STOP = 0 → p < 256 →
        (r.hw.RFIRQF1 &&& compl8 d.IRQ_CSP_STOP) &&& p = r.hw.RFIRQF1 &&& p)) ∧
    (¬ (r.hw.RFIRQF1 &&& d.IRQ_CSP_MANINT) &&& r.hw.RFIRQM1 ≠ 0 →
      ¬ (r.hw.RFIRQF1 &&& d.IRQ_CSP_STOP) &&& r.hw.RFIRQM1 ≠ 0 →
      (r.hw.RFIRQF1 &&& d.IRQ_TXACKDONE) &&& r.hw.RFIRQM1 ≠ 0 →
      (macMcuRfIsrCsp d cb r).log = r.log ++
        [Event.read Reg.RFIRQM1 r.hw.RFIRQM1, Event.write Reg.S1CON 0,
         Event.read Reg.RFIRQF1 r.hw.RFIRQF1, Event.read Reg.RFIRQF1 r.hw.RFIRQF1,
         Event.read Reg.RFIRQF1 r.hw.RFIRQF1, Event.read Reg.RFIRQM1 r.hw.RFIRQM1,
         Event.write Reg.RFIRQM1 ((r.hw.RFIRQM1 &&& compl8 d.IM_TXACKDONE) % 256),
         Event.call Callback.macRxAckTxDoneCallback] ∧
      (macMcuRfIsrCsp d cb r).hw = cb.macRxAckTxDoneCallback { r.hw with
        S1CON := 0, RFIRQM1 := (r.hw.RFIRQM1 &&& compl8 d.IM_TXACKDONE) % 256 } ∧
      (r.hw.RFIRQM1 &&& compl8 d.IM_TXACKDONE) % 256 &&& d.IM_TXACKDONE = 0) ∧
    (¬ (r.hw.RFIRQF1 &&& d.IRQ_CSP_MANINT) &&& r.hw.RFIRQM1 ≠ 0 →
      ¬ (r.hw.RFIRQF1 &&& d.IRQ_CSP_STOP) &&& r.hw.RFIRQM1 ≠ 0 →
      ¬ (r.hw.RFIRQF1 &&& d.IRQ_TXACKDONE) &&& r.hw.RFIRQM1 ≠ 0 →
      (∀ c, callCount c (macMcuRfIsrCsp d cb r).log = callCount c r.log) ∧
      (macMcuRfIsrCsp d cb r).hw = { r.hw with S1CON := 0 }) ∧
    (callCount Callback.macCspTxIntIsr (macMcuRfIsrCsp d cb r).log +
        callCount Callback.macCspTxStopIsr (macMcuRfIsrCsp d cb r).log +
        callCount Callback.macRxAckTxDoneCallback (macMcuRfIsrCsp d cb r).log ≤
      callCount Callback.macCspTxIntIsr r.log + callCount Callback.macCspTxStopIsr r.log +
        callCount Callback.macRxAckTxDoneCallback r.log + 1) ∧
    (∀ (fuel : Nat) (r2 : Run), macMcuRfIsr d cb fuel r = some r2 →
      callCount Callback.macCspTxIntIsr r2.log =
        callCount Callback.macCspTxIntIsr (macMcuRfIsrCsp d cb r).log ∧
      callCount Callback.macCspTxStopIsr r2.log =
        callCount Callback.macCspTxStopIsr (macMcuRfIsrCsp d cb r).log ∧
      callCount Callback.macRxAckTxDoneCallback r2.log =
        callCount Callback.macRxAckTxDoneCallback (macMcuRfIsrCsp d cb r).log) := by
  refine ⟨?_, ?_, ?_, ?_, ?_, ?_⟩
  · intro h1
    rw [rfIsrCsp_eq, if_pos h1]
    exact ⟨rfl, rfl, and_compl8_and _ _, fun p hd hp => and_compl8_and_disjoint _ _ _ hd hp⟩
  · intro h1 h2
    rw [rfIsrCsp_eq, if_neg h1, if_pos h2]
    exact ⟨rfl, rfl, and_compl8_and _ _, fun p hd hp => and_compl8_and_disjoint _ _ _ hd hp⟩
  · intro h1 h2 h3
    rw [rfIsrCsp_eq, if_neg h1, if_neg h2, if_pos h3]
    exact ⟨rfl, rfl, and_compl8_and_self _ _⟩
  · intro h1 h2 h3
    rw [rfIsrCsp_eq, if_neg h1, if_neg h2, if_neg h3]
    refine ⟨?_, rfl⟩
    intro c
    simp [callCount]
  · rw [rfIsrCsp_eq]
    unfold callCount
    split_ifs <;> simp <;> omega
  · intro fuel r2 h
    have key : ∀ c, c ≠ Callback.macRxThresholdIsr →
        callCount c r2.log = callCount c (macMcuRfIsrCsp d cb r).log := by
      intro c hc
      unfold macMcuRfIsr macMcuRfIsrFifop at h
      simp only [rd, Run.emit, Mcu.get] at h
      split_ifs at h with hpe
      · rw [rxThresholdLoop_other_calls d cb c hc _ _ _ h]
        cases c <;> simp [callCount]
      · simp only [Option.some.injEq] at h
        rw [← h]
        cases c <;> simp [callCount]
    exact ⟨key _ (by decide), key _ (by decide), key _ (by decide)⟩

/-- Evaluation of C10 with all three conditions pending and enabled and idle callbacks: only
the CSP-manual-interrupt callback is called, its flag (bit 3) is cleared, the two other flags
stay pending. -/
theorem C10_rf_first_match_only_witness :
    (macMcuRfIsrCsp cc2530 Callbacks.idle (Run.start cspAllPending quiet)).log =
        (Run.start cspAllPending quiet).log ++
        [Event.read Reg.RFIRQM1 (Run.start cspAllPending quiet).hw.RFIRQM1,
         Event.write Reg.S1CON 0,
         Event.read Reg.RFIRQF1 (Run.start cspAllPending quiet).hw.RFIRQF1,
         Event.write Reg.RFIRQF1 (compl8 cc2530.IRQ_CSP_MANINT),
         Event.call Callback.macCspTxIntIsr] ∧
      (macMcuRfIsrCsp cc2530 Callbacks.idle (Run.start cspAllPending quiet)).hw.RFIRQF1
        = 0x11 :=
  have h := (C10_rf_first_match_only cc2530 Callbacks.idle (Run.start cspAllPending quiet)).1
    (by decide)
  ⟨h.1, by rw [h.2.1]; decide⟩

theorem seedStep_eq (s v : Nat) :
    ((s <<< 1) ||| (v &&& 0x01)) % 65536 = (2 * s + v % 2) % 65536 := by
  have h1 : v &&& 1 = v % 2 := Nat.and_one_is_mod v
  have h2 : v % 2 < 2 ^ 1 := by omega
  have h3 := Nat.mul_add_lt_is_or h2 s
  rw [h1, Nat.shiftLeft_eq, Nat.mul_comm s (2 ^ 1), ← h3]

/-- The sixteen samples accumulated most significant bit first. -/
theorem seedLoop16_val (r : Run) :
    (seedLoop 16 0 r).1 =
      ∑ i ∈ Finset.range 16, (r.rfrnd (r.rfrndReads + i) &&& 1) * 2 ^ (15 - i) := by
  simp only [seedLoop, rdRFRND, seedStep_eq]
  simp only [Finset.sum_range_succ, Finset.sum_range_zero, Nat.and_one_is_mod, Nat.add_assoc]
  norm_num
  omega

theorem seedLoop16_lt (r : Run) : (seedLoop 16 0 r).1 < 65536 := by
  simp only [seedLoop, rdRFRND, seedStep_eq]
  omega

/-- The sampling loop reads `RFRND` and touches nothing else. -/
theorem seedLoop_run (n : Nat) : ∀ (s : Nat) (r : Run),
    (seedLoop n s r).2.hw = r.hw ∧
    ∃ tr, (seedLoop n s r).2.log = r.log ++ tr ∧
      ∀ e, e ∈ tr → ∃ v, e = Event.sample StatusReg.RFRND v := by
  induction n with
  | zero =>
    intro s r
    exact ⟨rfl, [], by simp [seedLoop], by simp⟩
  | succ n ih =>
    intro s r
    unfold seedLoop
    simp only [rdRFRND]
    obtain ⟨h1, tr, h2, h3⟩ := ih (((s <<< 1) ||| (r.rfrnd r.rfrndReads &&& 0x01)) % 65536)
      { r with rfrndReads := r.rfrndReads + 1,
               log := r.log ++ [Event.sample StatusReg.RFRND (r.rfrnd r.rfrndReads)] }
    refine ⟨h1, Event.sample StatusReg.RFRND (r.rfrnd r.rfrndReads) :: tr, ?_, ?_⟩
    · rw [h2]
      simp
    · intro e he
      rcases List.mem_cons.1 he with rfl | he
      · exact ⟨_, rfl⟩
      · exact h3 e he

/-- C11: the seed that `macMcuInit` derives from sixteen reads of `RFRND` (bit 0 of each,
first read most significant) is `0xBABE` when the accumulated 16-bit value is `0x0000` or
`0x0380`, and is the accumulated value itself otherwise. -/
theorem C11_seed_derivation (r : Run) :
    (macMcuInitSeed r).1 =
      if (∑ i ∈ Finset.range 16, (r.rfrnd (r.rfrndReads + i) &&& 1) * 2 ^ (15 - i)) = 0x0000 ∨
          (∑ i ∈ Finset.range 16, (r.rfrnd (r.rfrndReads + i) &&& 1) * 2 ^ (15 - i)) = 0x0380
      then 0xBABE
      else ∑ i ∈ Finset.range 16, (r.rfrnd (r.rfrndReads + i) &&& 1) * 2 ^ (15 - i) := by
  unfold macMcuInitSeed
  simp only [seedLoop16_val]


theorem toInt8_ofInt8 (s : Int) (h1 : -128 ≤ s) (h2 : s ≤ 127) : toInt8 (ofInt8 s) = s := by
  unfold toInt8 ofInt8
  split_ifs with h <;> omega

theorem recordMaxRssiIsr_max (r : Run) :
    (mcuRecordMaxRssiIsr r).hw.maxRssi = max r.hw.maxRssi (toInt8 r.hw.RSSI) := by
  unfold mcuRecordMaxRssiIsr
  simp only [rd, Run.emit, Mcu.get]
  by_cases h : toInt8 r.hw.RSSI > r.hw.maxRssi
  · rw [if_pos h]
    simp only [setMaxRssi]
    omega
  · rw [if_neg h]
    simp only
    omega

theorem rssiTicks_max (bs : List Nat) : ∀ r : Run,
    (bs.foldl rssiTick r).hw.maxRssi = (bs.map toInt8).foldl max r.hw.maxRssi := by
  induction bs with
  | nil => intro r; rfl
  | cons b bs ih =>
    intro r
    simp only [List.foldl_cons, List.map_cons]
    rw [ih]
    congr 1
    unfold rssiTick
    rw [recordMaxRssiIsr_max]
    simp [Mcu.measure]

/-- C12: for every list of signed 8-bit samples that the per-tick sample update reads from
`RSSI` between `macMcuRecordMaxRssiStart` and `macMcuRecordMaxRssiStop`, whatever the peak
was before, stop returns the maximum of `-128` and the samples; with no sample it returns
`-128`. -/
theorem C12_rssi_window_max (d : Defs) (ss : List Int) (r : Run)
    (h : ∀ s, s ∈ ss → -128 ≤ s ∧ s ≤ 127) :
    (rssiWindow d (ss.map ofInt8) r).1 = ss.foldl max (-128) ∧
    (rssiWindow d [] r).1 = -128 := by
  have hmap : (ss.map ofInt8).map toInt8 = ss := by
    rw [List.map_map]
    conv_rhs => rw [← List.map_id ss]
    apply List.map_congr_left
    intro s hs
    exact toInt8_ofInt8 s (h s hs).1 (h s hs).2
  have key : ∀ bs : List Nat, (rssiWindow d bs r).1 = (bs.map toInt8).foldl max (-128) := by
    intro bs
    unfold rssiWindow macMcuRecordMaxRssiStop
    simp only [rd, wr, Run.emit, Mcu.get, Mcu.set]
    rw [rssiTicks_max]
    simp [macMcuRecordMaxRssiStart, setMaxRssi, rd, wr, Run.emit, Mcu.get, Mcu.set]
  refine ⟨?_, ?_⟩
  · rw [key, hmap]
  · rw [key]
    rfl

/-- Evaluation of C12 on the samples `-56, 10, -126` with a previous peak of `0`. -/
theorem C12_rssi_window_max_witness :
    (rssiWindow cc2530 ([-56, 10, -126].map ofInt8) (Run.start Mcu.zero quiet)).1
        = [-56, 10, -126].foldl max (-128) ∧
      (rssiWindow cc2530 [] (Run.start Mcu.zero quiet)).1 = -128 :=
  C12_rssi_window_max cc2530 [-56, 10, -126] (Run.start Mcu.zero quiet)
    (by
      intro s hs
      simp only [List.mem_cons, List.mem_singleton, List.not_mem_nil, or_false] at hs
      rcases hs with rfl | rfl | rfl <;> decide)

/-- Closed form of the error handler. -/
theorem rfErrIsr_eq (d : Defs) (cb : Callbacks) (r : Run) :
    macMcuRfErrIsr d cb r =
      if (r.hw.RFERRF &&& d.RFERR_RXOVERF) &&& r.hw.RFERRM ≠ 0 then
        { r with
          hw := cb.macRxFifoOverflowIsr { r.hw with
            RFERRF := r.hw.RFERRF &&& compl8 d.RFERR_RXOVERF },
          log := r.log ++ [Event.read Reg.RFERRM r.hw.RFERRM,
            Event.read Reg.RFERRF r.hw.RFERRF, Event.read Reg.RFERRF r.hw.RFERRF,
            Event.write Reg.RFERRF ((r.hw.RFERRF &&& compl8 d.RFERR_RXOVERF) % 256),
            Event.call Callback.macRxFifoOverflowIsr] }
      else
        { r with log := r.log ++ [Event.read Reg.RFERRM r.hw.RFERRM,
            Event.read Reg.RFERRF r.hw.RFERRF] } := by
  unfold macMcuRfErrIsr
  simp only [rd, wr, Run.emit, Mcu.get, Mcu.set, invoke, and_and_compl8]
  split_ifs <;> simp

/-- Closed form of the second part of the radio handler: the test is made on the machine as
the first part left it. -/
theorem rfIsr_eq (d : Defs) (cb : Callbacks) (fuel : Nat) (r : Run) :
    macMcuRfIsr d cb fuel r =
      if ((macMcuRfIsrCsp d cb r).hw.RFIRQF0 &&& d.IRQ_FIFOP)
          &&& (macMcuRfIsrCsp d cb r).hw.RFIRQM0 ≠ 0 then
        rxThresholdLoop d cb fuel { macMcuRfIsrCsp d cb r with
          log := (macMcuRfIsrCsp d cb r).log ++
            [Event.read Reg.RFIRQM0 (macMcuRfIsrCsp d cb r).hw.RFIRQM0,
             Event.read Reg.RFIRQF0 (macMcuRfIsrCsp d cb r).hw.RFIRQF0] }
      else
        some { macMcuRfIsrCsp d cb r with
          log := (macMcuRfIsrCsp d cb r).log ++
            [Event.read Reg.RFIRQM0 (macMcuRfIsrCsp d cb r).hw.RFIRQM0,
             Event.read Reg.RFIRQF0 (macMcuRfIsrCsp d cb r).hw.RFIRQF0] } := by
  unfold macMcuRfIsr macMcuRfIsrFifop
  simp only [rd, Run.emit, Mcu.get]
  split_ifs <;> simp

/-- The loop of the radio handler calls `macRxThresholdIsr` at least once when it returns. -/
theorem rxThresholdLoop_calls (d : Defs) (cb : Callbacks) :
    ∀ (fuel : Nat) (r r2 : Run), rxThresholdLoop d cb fuel r = some r2 →
      callCount Callback.macRxThresholdIsr r.log + 1
        ≤ callCount Callback.macRxThresholdIsr r2.log := by
  intro fuel
  induction fuel with
  | zero =>
    intro r r2 h
    simp [rxThresholdLoop] at h
  | succ fuel ih =>
    intro r r2 h
    unfold rxThresholdLoop at h
    simp only [rdFSMSTAT1, wr, invoke] at h
    split_ifs at h with hact
    · have := ih _ _ h
      simp [callCount] at this ⊢
      omega
    · simp only [Option.some.injEq] at h
      rw [← h]
      simp [callCount]

/-- C13 (as amended): the timer handler reads `T2IRQM` once, as its first access, and the
error handler reads `RFERRM` once, as its first access. The radio handler reads `RFIRQM1` as
its first access, but it reads `RFIRQM0` only after the first part has run: the FIFO
threshold test is made on the contents of `RFIRQF0` and `RFIRQM0` that the first part,
callback included, has left, and `macRxThresholdIsr` is called in a returning invocation
exactly when that test succeeds. -/
theorem C13_mask_snapshots (d : Defs) (cb : Callbacks) (r : Run) :
    (∃ tr, (macMcuTimer2Isr d cb r).log = r.log ++ Event.read Reg.T2IRQM r.hw.T2IRQM :: tr ∧
      ∀ v, Event.read Reg.T2IRQM v ∉ tr) ∧
    (∃ tr, (macMcuRfErrIsr d cb r).log = r.log ++ Event.read Reg.RFERRM r.hw.RFERRM :: tr ∧
      ∀ v, Event.read Reg.RFERRM v ∉ tr) ∧
    (∃ tr, (macMcuRfIsrCsp d cb r).log
      = r.log ++ Event.read Reg.RFIRQM1 r.hw.RFIRQM1 :: tr) ∧
    (∀ fuel, macMcuRfIsr d cb fuel r =
      if ((macMcuRfIsrCsp d cb r).hw.RFIRQF0 &&& d.IRQ_FIFOP)
          &&& (macMcuRfIsrCsp d cb r).hw.RFIRQM0 ≠ 0 then
        rxThresholdLoop d cb fuel { macMcuRfIsrCsp d cb r with
          log := (macMcuRfIsrCsp d cb r).log ++
            [Event.read Reg.RFIRQM0 (macMcuRfIsrCsp d cb r).hw.RFIRQM0,
             Event.read Reg.RFIRQF0 (macMcuRfIsrCsp d cb r).hw.RFIRQF0] }
      else
        some { macMcuRfIsrCsp d cb r with
          log := (macMcuRfIsrCsp d cb r).log ++
            [Event.read Reg.RFIRQM0 (macMcuRfIsrCsp d cb r).hw.RFIRQM0,
             Event.read Reg.RFIRQF0 (macMcuRfIsrCsp d cb r).hw.RFIRQF0] }) ∧
    (∀ fuel r2, macMcuRfIsr d cb fuel r = some r2 →
      (callCount Callback.macRxThresholdIsr r.log < callCount Callback.macRxThresholdIsr r2.log
        ↔ ((macMcuRfIsrCsp d cb r).hw.RFIRQF0 &&& d.IRQ_FIFOP)
          &&& (macMcuRfIsrCsp d cb r).hw.RFIRQM0 ≠ 0)) := by
  refine ⟨?_, ?_, ?_, fun fuel => rfIsr_eq d cb fuel r, ?_⟩
  · by_cases hc : (r.hw.T2IRQF &&& d.TIMER2_OVF_COMPARE1F) &&& r.hw.T2IRQM ≠ 0
    · obtain ⟨h1, _⟩ := timer2Isr_compare d cb r hc
      exact ⟨_, h1, by simp⟩
    · by_cases ht : (r.hw.T2IRQF &&& d.TIMER2_PERF) &&& r.hw.T2IRQM ≠ 0
      · unfold macMcuTimer2Isr
        simp only [rd, Run.emit, Mcu.get]
        rw [if_neg hc, if_pos ht]
        unfold mcuRecordMaxRssiIsr
        simp only [rd, Run.emit, Mcu.get]
        split_ifs <;>
          exact ⟨_, by simp [wr, setMaxRssi]; rfl, by simp⟩
      · obtain ⟨h1, _⟩ := timer2Isr_none d cb r hc ht
        exact ⟨_, h1, by simp⟩
  · rw [rfErrIsr_eq]
    split_ifs <;> exact ⟨_, rfl, by simp⟩
  · rw [rfIsrCsp_eq]
    split_ifs <;> exact ⟨_, rfl⟩
  · intro fuel r2 h
    have hcnt := rfIsrCsp_threshold_calls d cb r
    rw [rfIsr_eq] at h
    split_ifs at h with hpe
    · have := rxThresholdLoop_calls d cb fuel _ r2 h
      simp only [callCount_append, hcnt] at this
      simp only [hpe, not_false_eq_true, iff_true, ne_eq]
      simp [callCount] at this ⊢
      omega
    · simp only [Option.some.injEq] at h
      rw [← h]
      simp only [callCount_append, hcnt]
      simp [callCount, hpe]

/-- C13 as stated fails: from one and the same entry state, with the FIFO threshold flag
pending and enabled in the entry value of `RFIRQM0`, the handler calls `macRxThresholdIsr`
once when the CSP callback leaves `RFIRQM0` alone and not at all when that callback clears
`RFIRQM0`. -/
theorem C13_counterexample_late_mask_read :
    ((Run.start cspAndFifoPending quiet).hw.RFIRQF0 &&& cc2530.IRQ_FIFOP)
        &&& (Run.start cspAndFifoPending quiet).hw.RFIRQM0 ≠ 0 ∧
    (macMcuRfIsr cc2530 Callbacks.idle 1 (Run.start cspAndFifoPending quiet)).map
        (fun r2 => callCount Callback.macRxThresholdIsr r2.log) = some 1 ∧
    (macMcuRfIsr cc2530 maskingCallbacks 1 (Run.start cspAndFifoPending quiet)).map
        (fun r2 => callCount Callback.macRxThresholdIsr r2.log) = some 0 := by
  decide

/-- Evaluation of C13 (as amended) on a returning invocation whose CSP callback clears
`RFIRQM0`. -/
theorem C13_mask_snapshots_witness :
    ∃ r2, macMcuRfIsr cc2530 maskingCallbacks 1 (Run.start cspAndFifoPending quiet) = some r2 ∧
      (callCount Callback.macRxThresholdIsr (Run.start cspAndFifoPending quiet).log
          < callCount Callback.macRxThresholdIsr r2.log ↔
        ((macMcuRfIsrCsp cc2530 maskingCallbacks (Run.start cspAndFifoPending quiet)).hw.RFIRQF0
            &&& cc2530.IRQ_FIFOP)
          &&& (macMcuRfIsrCsp cc2530 maskingCallbacks
            (Run.start cspAndFifoPending quiet)).hw.RFIRQM0 ≠ 0) := by
  have hs : (macMcuRfIsr cc2530 maskingCallbacks 1
      (Run.start cspAndFifoPending quiet)).isSome = true := by decide
  obtain ⟨r2, h⟩ := Option.isSome_iff_exists.1 hs
  exact ⟨r2, h, (C13_mask_snapshots cc2530 maskingCallbacks
    (Run.start cspAndFifoPending quiet)).2.2.2.2 1 r2 h⟩

/-- Events that are neither the boundary of a critical section nor selected by `shared` do
not change the scan. -/
theorem scan_neutral (shared : Event → Bool) (tr : List Event)
    (h : ∀ e, e ∈ tr → e ≠ Event.enterCritical ∧ e ≠ Event.exitCritical ∧ shared e = false) :
    ∀ st : Nat × Bool, tr.foldl (guardStep shared) st = st := by
  induction tr with
  | nil => intro st; rfl
  | cons e tr ih =>
    intro st
    have he := h e (List.mem_cons_self e tr)
    have htr : ∀ e', e' ∈ tr → e' ≠ Event.enterCritical ∧ e' ≠ Event.exitCritical ∧
        shared e' = false := fun e' he' => h e' (List.mem_cons_of_mem e he')
    rw [List.foldl_cons]
    have hstep : guardStep shared st e = st := by
      obtain ⟨h1, h2, h3⟩ := he
      cases e <;> simp [guardStep, h3] at h1 h2 ⊢
    rw [hstep, ih htr]

theorem waitRssiValid_run : ∀ (fuel : Nat) (r r' : Run), waitRssiValid fuel r = some r' →
    r'.hw = r.hw ∧ ∃ tr, r'.log = r.log ++ tr ∧
      ∀ e, e ∈ tr → ∃ v, e = Event.sample StatusReg.RSSISTAT v := by
  intro fuel
  induction fuel with
  | zero =>
    intro r r' h
    simp [waitRssiValid] at h
  | succ fuel ih =>
    intro r r' h
    unfold waitRssiValid at h
    simp only [rdRSSISTAT] at h
    split_ifs at h with hv
    · simp only [Option.some.injEq] at h
      rw [← h]
      exact ⟨rfl, [Event.sample StatusReg.RSSISTAT (r.rssistat r.rssistatReads)], rfl,
        by simp⟩
    · obtain ⟨h1, tr, h2, h3⟩ := ih _ _ h
      refine ⟨h1, Event.sample StatusReg.RSSISTAT (r.rssistat r.rssistatReads) :: tr, ?_, ?_⟩
      · rw [h2]
        simp
      · intro e he
        rcases List.mem_cons.1 he with rfl | he
        · exact ⟨_, rfl⟩
        · exact h3 e he

theorem guarded_timerForceDelay (x : Nat) (r : Run) :
    appendsGuarded Event.isSharedWrite r.log (macMcuTimerForceDelay x r).log := by
  refine Exists.intro ?tr (And.intro ?h1 ?h2)
  case h1 =>
    simp only [macMcuTimerForceDelay, wr, HAL_ENTER_CRITICAL_SECTION,
      HAL_EXIT_CRITICAL_SECTION, MAC_MCU_T2_ACCESS_COUNT_VALUE, selectView, Run.emit,
      List.append_assoc, List.cons_append, List.nil_append]
    exact rfl
  case h2 =>
    simp [guarded, scan, guardStep, Event.isSharedWrite, Event.isCounterWrite,
      Event.isSharedAssign, Reg.isTimerSub]

theorem guarded_timerCapture (r : Run) :
    appendsGuarded Event.isSharedWrite r.log (macMcuTimerCapture r).2.log := by
  refine Exists.intro ?tr (And.intro ?h1 ?h2)
  case h1 =>
    simp only [macMcuTimerCapture, rd, HAL_ENTER_CRITICAL_SECTION,
      HAL_EXIT_CRITICAL_SECTION, MAC_MCU_T2_ACCESS_CAPTURE_VALUE, selectView, Run.emit,
      List.append_assoc, List.cons_append, List.nil_append]
    exact rfl
  case h2 =>
    simp [guarded, scan, guardStep, Event.isSharedWrite, Event.isCounterWrite,
      Event.isSharedAssign, Reg.isTimerSub]

theorem guarded_randomByte (d : Defs) (r : Run) :
    appendsGuarded Event.isSharedWrite r.log (macMcuRandomByte d r).2.log := by
  refine Exists.intro ?tr (And.intro ?h1 ?h2)
  case h1 =>
    simp only [macMcuRandomByte, rd, wr, Run.emit,
      List.append_assoc, List.cons_append, List.nil_append]
    exact rfl
  case h2 =>
    simp [guarded, scan, guardStep, Event.isSharedWrite, Event.isCounterWrite,
      Event.isSharedAssign, Reg.isTimerSub]

theorem guarded_overflowCount (d : Defs) (r : Run) :
    appendsGuarded Event.isSharedWrite r.log (macMcuOverflowCount d r).2.log := by
  refine Exists.intro ?tr (And.intro ?h1 ?h2)
  case h1 =>
    simp only [macMcuOverflowCount, rd, HAL_ENTER_CRITICAL_SECTION, HAL_EXIT_CRITICAL_SECTION,
      MAC_MCU_T2_ACCESS_OVF_COUNT_VALUE, selectView, Run.emit, List.append_assoc,
      List.cons_append, List.nil_append]
    exact rfl
  case h2 =>
    simp [guarded, scan, guardStep, Event.isSharedWrite, Event.isCounterWrite,
      Event.isSharedAssign, Reg.isTimerSub]

theorem guarded_overflowCapture (d : Defs) (r : Run) :
    appendsGuarded Event.isSharedWrite r.log (macMcuOverflowCapture d r).2.log := by
  refine Exists.intro ?tr (And.intro ?h1 ?h2)
  case h1 =>
    simp only [macMcuOverflowCapture, rd, HAL_ENTER_CRITICAL_SECTION,
      HAL_EXIT_CRITICAL_SECTION, MAC_MCU_T2_ACCESS_OVF_CAPTURE_VALUE, selectView, Run.emit,
      List.append_assoc, List.cons_append, List.nil_append]
    exact rfl
  case h2 =>
    simp [guarded, scan, guardStep, Event.isSharedWrite, Event.isCounterWrite,
      Event.isSharedAssign, Reg.isTimerSub]

theorem guarded_getCompare (d : Defs) (r : Run) :
    appendsGuarded Event.isSharedWrite r.log (macMcuOverflowGetCompare d r).2.log := by
  refine Exists.intro ?tr (And.intro ?h1 ?h2)
  case h1 =>
    simp only [macMcuOverflowGetCompare, rd, HAL_ENTER_CRITICAL_SECTION,
      HAL_EXIT_CRITICAL_SECTION, MAC_MCU_T2_ACCESS_OVF_CMP1_VALUE, selectView, Run.emit,
      List.append_assoc, List.cons_append, List.nil_append]
    exact rfl
  case h2 =>
    simp [guarded, scan, guardStep, Event.isSharedWrite, Event.isCounterWrite,
      Event.isSharedAssign, Reg.isTimerSub]

theorem guarded_precisionCount (d : Defs) (r : Run) :
    appendsGuarded Event.isSharedWrite r.log (macMcuPrecisionCount d r).2.log := by
  refine Exists.intro ?tr (And.intro ?h1 ?h2)
  case h1 =>
    simp only [macMcuPrecisionCount, rd, HAL_ENTER_CRITICAL_SECTION,
      HAL_EXIT_CRITICAL_SECTION, MAC_MCU_T2_ACCESS_OVF_COUNT_VALUE, selectView, Run.emit,
      List.append_assoc, List.cons_append, List.nil_append]
    exact rfl
  case h2 =>
    simp [guarded, scan, guardStep, Event.isSharedWrite, Event.isCounterWrite,
      Event.isSharedAssign, Reg.isTimerSub]

theorem guarded_recordMaxRssiStop (d : Defs) (r : Run) :
    appendsGuarded Event.isSharedWrite r.log (macMcuRecordMaxRssiStop d r).2.log := by
  refine Exists.intro ?tr (And.intro ?h1 ?h2)
  case h1 =>
    simp only [macMcuRecordMaxRssiStop, rd, wr, Run.emit,
      List.append_assoc, List.cons_append, List.nil_append]
    exact rfl
  case h2 =>
    simp [guarded, scan, guardStep, Event.isSharedWrite, Event.isCounterWrite,
      Event.isSharedAssign, Reg.isTimerSub]

/-- `macMcuRecordMaxRssiStart` writes no counter sub-register; its assignment to `maxRssi`
is outside any critical section. -/
theorem guarded_recordMaxRssiStart (d : Defs) (r : Run) :
    ∃ tr, (macMcuRecordMaxRssiStart d r).log = r.log ++ tr ∧
      guarded Event.isCounterWrite tr ∧ (scan Event.isSharedWrite tr).2 = false := by
  refine Exists.intro ?tr (And.intro ?h1 ?h2)
  case h1 =>
    simp only [macMcuRecordMaxRssiStart, rd, wr, Run.emit, setMaxRssi,
      List.append_assoc, List.cons_append, List.nil_append]
    exact rfl
  case h2 =>
    simp [guarded, scan, guardStep, Event.isSharedWrite, Event.isCounterWrite,
      Event.isSharedAssign, Reg.isTimerSub]

theorem guarded_append (shared : Event → Bool) (a b : List Event)
    (ha : guarded shared a) (hb : guarded shared b) : guarded shared (a ++ b) := by
  unfold guarded scan at *
  rw [List.foldl_append, ha, hb]

theorem guarded_neutral (shared : Event → Bool) (tr : List Event)
    (h : ∀ e, e ∈ tr → e ≠ Event.enterCritical ∧ e ≠ Event.exitCritical ∧ shared e = false) :
    guarded shared tr :=
  scan_neutral shared tr h (0, true)

theorem appendsGuarded_trans (shared : Event → Bool) (l1 l2 l3 : List Event)
    (h12 : appendsGuarded shared l1 l2) (h23 : appendsGuarded shared l2 l3) :
    appendsGuarded shared l1 l3 := by
  obtain ⟨a, ha1, ha2⟩ := h12
  obtain ⟨b, hb1, hb2⟩ := h23
  exact ⟨a ++ b, by rw [hb1, ha1, List.append_assoc], guarded_append shared a b ha2 hb2⟩

theorem overflowCount_log_eq (d : Defs) (r : Run) :
    (macMcuOverflowCount d r).2.log = r.log ++
      [Event.enterCritical, Event.select OvfSel.count TimSel.count,
       Event.read Reg.T2M0 r.hw.timCount0, Event.read Reg.T2MOVF0 r.hw.ovfCount.b0,
       Event.read Reg.T2MOVF1 r.hw.ovfCount.b1, Event.read Reg.T2MOVF2 r.hw.ovfCount.b2,
       Event.exitCritical] := by
  simp [macMcuOverflowCount, rd, HAL_ENTER_CRITICAL_SECTION, HAL_EXIT_CRITICAL_SECTION,
    MAC_MCU_T2_ACCESS_OVF_COUNT_VALUE, selectView, Run.emit, Mcu.get, Mcu.ovfView]

theorem getCompare_log_eq (d : Defs) (r : Run) :
    (macMcuOverflowGetCompare d r).2.log = r.log ++
      [Event.enterCritical, Event.select OvfSel.cmp1 TimSel.count,
       Event.read Reg.T2MOVF0 r.hw.ovfCmp1.b0,
       Event.read Reg.T2MOVF1 r.hw.ovfCmp1.b1, Event.read Reg.T2MOVF2 r.hw.ovfCmp1.b2,
       Event.exitCritical] := by
  simp [macMcuOverflowGetCompare, rd, HAL_ENTER_CRITICAL_SECTION, HAL_EXIT_CRITICAL_SECTION,
    MAC_MCU_T2_ACCESS_OVF_CMP1_VALUE, selectView, Run.emit, Mcu.get, Mcu.ovfView]

/-- `macMcuOverflowSetCount`: the sub-register writes are inside its critical section, the
two assignments to `accumulatedOverflowCount` come before it, outside any critical
section. -/
theorem guarded_setCount (d : Defs) (v : Nat) (r r1 : Run)
    (h : macMcuOverflowSetCount d v r = Outcome.done r1) :
    ∃ tr, r1.log = r.log ++ tr ∧
      guarded Event.isCounterWrite tr ∧ (scan Event.isSharedWrite tr).2 = false := by
  unfold macMcuOverflowSetCount MAC_ASSERT at h
  split_ifs at h with h0
  have h1 := overflowCount_val d r
  have h2 := overflowCount_log_eq d r
  rcases hc : macMcuOverflowCount d r with ⟨c, r'⟩
  rw [hc] at h h1 h2
  simp only at h1 h2
  subst h1
  simp only [Outcome.done.injEq] at h
  rw [← h]
  refine Exists.intro ?tr (And.intro ?h1 ?h2)
  case h1 =>
    simp only [setAccumulatedOverflowCount, wr, HAL_ENTER_CRITICAL_SECTION,
      HAL_EXIT_CRITICAL_SECTION, MAC_MCU_T2_ACCESS_OVF_COUNT_VALUE, selectView, h2,
      List.append_assoc, List.cons_append, List.nil_append]
    exact rfl
  case h2 =>
    simp [guarded, scan, guardStep, Event.isSharedWrite, Event.isCounterWrite,
      Event.isSharedAssign, Reg.isTimerSub]

theorem guarded_setCompare (d : Defs) (v : Nat) (r r1 : Run)
    (h : macMcuOverflowSetCompare d v r = Outcome.done r1) :
    appendsGuarded Event.isSharedWrite r.log r1.log := by
  have hv : v < 2 ^ 24 := by
    by_contra hv
    have := (setCompare_halts_iff d v r).2 (by omega)
    rw [this] at h
    cases h
  by_cases hen : r.hw.T2IRQM &&& d.TIMER2_OVF_COMPARE1M = 0
  · obtain ⟨r2, h1, h2, _⟩ := setCompare_disabled d v r hv hen
    rw [h1] at h
    simp only [Outcome.done.injEq] at h
    subst h
    refine ⟨_, h2, ?_⟩
    simp [guarded, scan, guardStep, Event.isSharedWrite, Event.isCounterWrite,
      Event.isSharedAssign, Reg.isTimerSub]
  · obtain ⟨r2, h1, h2, _⟩ := setCompare_enabled d v r hv hen
    rw [h1] at h
    simp only [Outcome.done.injEq] at h
    subst h
    refine ⟨_, h2, ?_⟩
    simp [guarded, scan, guardStep, Event.isSharedWrite, Event.isCounterWrite,
      Event.isSharedAssign, Reg.isTimerSub]

theorem guarded_workaround (d : Defs) (cb : Callbacks) (r r1 : Run)
    (h : macMcuTimer2OverflowWorkaround d cb r = some r1) :
    appendsGuarded Event.isSharedWrite r.log r1.log := by
  unfold macMcuTimer2OverflowWorkaround at h
  simp only [rd, Run.emit, Mcu.get] at h
  split_ifs at h with hen hpend
  · generalize hrA : ({ r with log := r.log ++ [Event.read Reg.T2IRQM r.hw.T2IRQM] ++
        [Event.read Reg.T2IRQF r.hw.T2IRQF] } : Run) = rA at h
    have hAlog : rA.log = r.log ++ [Event.read Reg.T2IRQM r.hw.T2IRQM,
        Event.read Reg.T2IRQF r.hw.T2IRQF] := by rw [← hrA]; simp
    have hA1 := overflowCount_val d rA
    have hA3 := overflowCount_log_eq d rA
    unfold MAC_RADIO_BACKOFF_COUNT at h
    rcases hcA : macMcuOverflowCount d rA with ⟨a, rB⟩
    rw [hcA] at hA1 hA3 h
    have hB1 := getCompare_val d rB
    have hB3 := getCompare_log_eq d rB
    rcases hcB : macMcuOverflowGetCompare d rB with ⟨b, rC⟩
    rw [hcB] at hB1 hB3 h
    simp only at hA1 hA3 hB1 hB3 h
    subst hA1 hB1
    simp only at h
    split_ifs at h with hgt
    · simp only [Option.some.injEq] at h
      rw [← h]
      refine Exists.intro ?tr (And.intro ?h1 ?h2)
      case h1 =>
        simp only [wr, invoke, hB3, hA3, hAlog, List.append_assoc, List.cons_append,
          List.nil_append]
        exact rfl
      case h2 =>
        simp [guarded, scan, guardStep, Event.isSharedWrite, Event.isCounterWrite,
          Event.isSharedAssign, Reg.isTimerSub]
    · simp only [Option.some.injEq] at h
      rw [← h]
      refine Exists.intro ?tr2 (And.intro ?h3 ?h4)
      case h3 =>
        simp only [hB3, hA3, hAlog, List.append_assoc, List.cons_append, List.nil_append]
        exact rfl
      case h4 =>
        simp [guarded, scan, guardStep, Event.isSharedWrite, Event.isCounterWrite,
          Event.isSharedAssign, Reg.isTimerSub]
  · simp only [Option.some.injEq] at h
    rw [← h]
    refine ⟨[Event.read Reg.T2IRQM r.hw.T2IRQM, Event.read Reg.T2IRQF r.hw.T2IRQF], by simp, ?_⟩
    simp [guarded, scan, guardStep, Event.isSharedWrite, Event.isCounterWrite,
      Event.isSharedAssign, Reg.isTimerSub]
  · simp only [Option.some.injEq] at h
    rw [← h]
    refine ⟨[Event.read Reg.T2IRQM r.hw.T2IRQM], by simp, ?_⟩
    simp [guarded, scan, guardStep, Event.isSharedWrite, Event.isCounterWrite,
      Event.isSharedAssign, Reg.isTimerSub]

theorem guarded_initRadio (d : Defs) (r : Run) :
    appendsGuarded Event.isSharedWrite r.log (macMcuInitRadio d r).log := by
  refine Exists.intro ?tr (And.intro ?h1 ?h2)
  case h1 =>
    simp only [macMcuInitRadio, rd, wr, Run.emit, setMacChipVersion,
      List.append_assoc, List.cons_append, List.nil_append]
    exact rfl
  case h2 =>
    simp [guarded, scan, guardStep, Event.isSharedWrite, Event.isCounterWrite,
      Event.isSharedAssign, Reg.isTimerSub]

theorem guarded_initTimer (d : Defs) (cb : Callbacks) (r : Run) :
    appendsGuarded Event.isSharedWrite r.log (macMcuInitTimer d cb r).log := by
  refine Exists.intro ?tr (And.intro ?h1 ?h2)
  case h1 =>
    simp only [macMcuInitTimer, rd, wr, Run.emit, invoke, HAL_ENTER_CRITICAL_SECTION,
      HAL_EXIT_CRITICAL_SECTION, MAC_MCU_T2_ACCESS_PERIOD_VALUE, selectView,
      List.append_assoc, List.cons_append, List.nil_append]
    exact rfl
  case h2 =>
    simp [guarded, scan, guardStep, Event.isSharedWrite, Event.isCounterWrite,
      Event.isSharedAssign, Reg.isTimerSub]

theorem guarded_initRxOn (d : Defs) (cb : Callbacks) (r : Run) :
    appendsGuarded Event.isSharedWrite r.log (macMcuInitRxOn d cb r).log := by
  refine Exists.intro ?tr (And.intro ?h1 ?h2)
  case h1 =>
    simp only [macMcuInitRxOn, wr, invoke, List.append_assoc, List.cons_append,
      List.nil_append]
    exact rfl
  case h2 =>
    simp [guarded, scan, guardStep, Event.isSharedWrite, Event.isCounterWrite,
      Event.isSharedAssign, Reg.isTimerSub]

theorem guarded_initFinish (d : Defs) (cb : Callbacks) (r : Run) :
    appendsGuarded Event.isSharedWrite r.log (macMcuInitFinish d cb r).log := by
  refine Exists.intro ?tr (And.intro ?h1 ?h2)
  case h1 =>
    simp only [macMcuInitFinish, wr, invoke, List.append_assoc, List.cons_append,
      List.nil_append]
    exact rfl
  case h2 =>
    simp [guarded, scan, guardStep, Event.isSharedWrite, Event.isCounterWrite,
      Event.isSharedAssign, Reg.isTimerSub]

theorem guarded_initSeed (r : Run) :
    appendsGuarded Event.isSharedWrite r.log (macMcuInitSeed r).2.log := by
  obtain ⟨_, tr, h2, h3⟩ := seedLoop_run 16 0 r
  have hg : guarded Event.isSharedWrite tr := by
    apply guarded_neutral
    intro e he
    obtain ⟨v, rfl⟩ := h3 e he
    simp [Event.isSharedWrite, Event.isCounterWrite, Event.isSharedAssign]
  unfold macMcuInitSeed
  simp only [wr]
  generalize (if (seedLoop 16 0 r).1 = 0 ∨ (seedLoop 16 0 r).1 = 896 then 47806
    else (seedLoop 16 0 r).1) = s
  refine ⟨tr ++ [Event.write Reg.RNDL ((s &&& 255) % 256),
    Event.write Reg.RNDL (s >>> 8 % 256)], ?_, guarded_append _ _ _ hg ?_⟩
  · rw [h2]
    simp
  · simp [guarded, scan, guardStep, Event.isSharedWrite, Event.isCounterWrite,
      Event.isSharedAssign, Reg.isTimerSub]

theorem guarded_waitRssiValid (fuel : Nat) (r r' : Run) (h : waitRssiValid fuel r = some r') :
    appendsGuarded Event.isSharedWrite r.log r'.log := by
  obtain ⟨_, tr, h2, h3⟩ := waitRssiValid_run fuel r r' h
  refine ⟨tr, h2, ?_⟩
  apply guarded_neutral
  intro e he
  obtain ⟨v, rfl⟩ := h3 e he
  simp [Event.isSharedWrite, Event.isCounterWrite, Event.isSharedAssign]

theorem guarded_init (d : Defs) (cb : Callbacks) (fuel : Nat) (r r1 : Run)
    (h : macMcuInit d cb fuel r = some r1) :
    appendsGuarded Event.isSharedWrite r.log r1.log := by
  unfold macMcuInit at h
  simp only at h
  split at h
  · cases h
  · rename_i rW hW
    simp only [Option.some.injEq] at h
    rw [← h]
    exact appendsGuarded_trans _ _ _ _ (guarded_initRadio d r)
      (appendsGuarded_trans _ _ _ _ (guarded_initTimer d cb _)
        (appendsGuarded_trans _ _ _ _ (guarded_initRxOn d cb _)
          (appendsGuarded_trans _ _ _ _ (guarded_waitRssiValid fuel _ rW hW)
            (appendsGuarded_trans _ _ _ _ (guarded_initSeed rW)
              (guarded_initFinish d cb _)))))

theorem recordMaxRssiIsr_log (r : Run) :
    (mcuRecordMaxRssiIsr r).log = r.log ++ Event.read Reg.RSSI r.hw.RSSI ::
      (if toInt8 r.hw.RSSI > r.hw.maxRssi
        then [Event.assign Global.maxRssi (toInt8 r.hw.RSSI)] else []) := by
  unfold mcuRecordMaxRssiIsr
  simp only [rd, Run.emit, Mcu.get, setMaxRssi]
  split_ifs <;> simp

theorem recordMaxRssiStart_log (d : Defs) (r : Run) :
    (macMcuRecordMaxRssiStart d r).log = r.log ++
      [Event.assign Global.maxRssi (-128), Event.read Reg.T2IRQM r.hw.T2IRQM,
       Event.write Reg.T2IRQM ((r.hw.T2IRQM ||| d.TIMER2_PERM) % 256)] := by
  simp [macMcuRecordMaxRssiStart, rd, wr, Run.emit, setMaxRssi, Mcu.get]

theorem setCount_log (d : Defs) (v : Nat) (r r1 : Run)
    (h : macMcuOverflowSetCount d v r = Outcome.done r1) :
    r1.log = r.log ++
      [Event.enterCritical, Event.select OvfSel.count TimSel.count,
       Event.read Reg.T2M0 r.hw.timCount0, Event.read Reg.T2MOVF0 r.hw.ovfCount.b0,
       Event.read Reg.T2MOVF1 r.hw.ovfCount.b1, Event.read Reg.T2MOVF2 r.hw.ovfCount.b2,
       Event.exitCritical,
       Event.assign Global.accumulatedOverflowCount
         (((r.hw.accumulatedOverflowCount + (r.hw.ovfCount.b0 % 256
            + 256 * (r.hw.ovfCount.b1 % 256) + 65536 * (r.hw.ovfCount.b2 % 256)))
            % 2 ^ 32 : Nat) : Int),
       Event.assign Global.accumulatedOverflowCount
         ((((r.hw.accumulatedOverflowCount + (r.hw.ovfCount.b0 % 256
            + 256 * (r.hw.ovfCount.b1 % 256) + 65536 * (r.hw.ovfCount.b2 % 256)))
            % 2 ^ 32 + 2 ^ 32 - v % 2 ^ 32) % 2 ^ 32 : Nat) : Int),
       Event.enterCritical, Event.select OvfSel.count TimSel.count,
       Event.write Reg.T2MOVF0 (v % 256), Event.write Reg.T2MOVF1 (v / 256 % 256),
       Event.write Reg.T2MOVF2 (v / 65536 % 256), Event.exitCritical] := by
  unfold macMcuOverflowSetCount MAC_ASSERT at h
  split_ifs at h
  simp only [overflowCount_eq, setAccumulatedOverflowCount, Outcome.done.injEq] at h
  rw [← h]
  simp [HAL_ENTER_CRITICAL_SECTION, HAL_EXIT_CRITICAL_SECTION,
    MAC_MCU_T2_ACCESS_OVF_COUNT_VALUE, selectView, wr, peek32_ndx0, peek32_ndx1, peek32_ndx2]

theorem timer2Isr_tick_log (d : Defs) (cb : Callbacks) (r : Run)
    (hc : ¬ (r.hw.T2IRQF &&& d.TIMER2_OVF_COMPARE1F) &&& r.hw.T2IRQM ≠ 0)
    (ht : (r.hw.T2IRQF &&& d.TIMER2_PERF) &&& r.hw.T2IRQM ≠ 0) :
    (macMcuTimer2Isr d cb r).log = r.log ++
      [Event.read Reg.T2IRQM r.hw.T2IRQM, Event.read Reg.T2IRQF r.hw.T2IRQF,
       Event.call Callback.mcuRecordMaxRssiIsr, Event.read Reg.RSSI r.hw.RSSI] ++
      (if toInt8 r.hw.RSSI > r.hw.maxRssi
        then [Event.assign Global.maxRssi (toInt8 r.hw.RSSI)] else []) ++
      [Event.read Reg.T2IRQF r.hw.T2IRQF,
       Event.write Reg.T2IRQF ((r.hw.T2IRQF &&& compl8 d.TIMER2_PERF) % 256)] := by
  unfold macMcuTimer2Isr
  simp only [rd, Run.emit, Mcu.get]
  rw [if_neg hc, if_pos ht]
  unfold mcuRecordMaxRssiIsr
  simp only [rd, Run.emit, Mcu.get]
  by_cases hgt : toInt8 r.hw.RSSI > r.hw.maxRssi
  · rw [if_pos hgt, if_pos hgt]
    simp [wr, setMaxRssi]
  · rw [if_neg hgt, if_neg hgt]
    simp [wr]

theorem timer2Isr_noShared (d : Defs) (cb : Callbacks) (r : Run)
    (h : ¬ (¬ (r.hw.T2IRQF &&& d.TIMER2_OVF_COMPARE1F) &&& r.hw.T2IRQM ≠ 0 ∧
      (r.hw.T2IRQF &&& d.TIMER2_PERF) &&& r.hw.T2IRQM ≠ 0)) :
    ∃ tr, (macMcuTimer2Isr d cb r).log = r.log ++ tr ∧
      ∀ e ∈ tr, e.isSharedWrite = false := by
  by_cases hc : (r.hw.T2IRQF &&& d.TIMER2_OVF_COMPARE1F) &&& r.hw.T2IRQM ≠ 0
  · refine ⟨_, (timer2Isr_compare d cb r hc).1, ?_⟩
    intro e he
    simp only [List.mem_cons, List.mem_singleton, List.not_mem_nil, or_false] at he
    rcases he with rfl | rfl | rfl | rfl | rfl <;> rfl
  · have ht : ¬ (r.hw.T2IRQF &&& d.TIMER2_PERF) &&& r.hw.T2IRQM ≠ 0 := fun ht => h ⟨hc, ht⟩
    refine ⟨_, (timer2Isr_none d cb r hc ht).1, ?_⟩
    intro e he
    simp only [List.mem_cons, List.mem_singleton, List.not_mem_nil, or_false] at he
    rcases he with rfl | rfl <;> rfl

theorem timer2Isr_noCounterWrite (d : Defs) (cb : Callbacks) (r : Run) :
    ∃ tr, (macMcuTimer2Isr d cb r).log = r.log ++ tr ∧
      ∀ e ∈ tr, e.isCounterWrite = false := by
  by_cases h : ¬ (r.hw.T2IRQF &&& d.TIMER2_OVF_COMPARE1F) &&& r.hw.T2IRQM ≠ 0 ∧
      (r.hw.T2IRQF &&& d.TIMER2_PERF) &&& r.hw.T2IRQM ≠ 0
  · have hl := timer2Isr_tick_log d cb r h.1 h.2
    by_cases hgt : toInt8 r.hw.RSSI > r.hw.maxRssi
    · rw [if_pos hgt, List.append_assoc, List.append_assoc] at hl
      refine ⟨_, hl, ?_⟩
      intro e he
      simp only [List.mem_cons, List.mem_append, List.mem_singleton, List.not_mem_nil,
        or_false] at he
      rcases he with (rfl | rfl | rfl | rfl) | rfl | rfl | rfl <;> rfl
    · rw [if_neg hgt, List.append_assoc, List.append_assoc] at hl
      refine ⟨_, hl, ?_⟩
      intro e he
      simp only [List.mem_cons, List.mem_append, List.mem_singleton, List.not_mem_nil,
        or_false, false_or] at he
      rcases he with (rfl | rfl | rfl | rfl) | rfl | rfl <;> rfl
  · obtain ⟨tr, h1, h2⟩ := timer2Isr_noShared d cb r h
    refine ⟨tr, h1, fun e he => ?_⟩
    have := h2 e he
    simp only [Event.isSharedWrite, Bool.or_eq_false_iff] at this
    exact this.1

theorem rfErrIsr_noShared (d : Defs) (cb : Callbacks) (r : Run) :
    ∃ tr, (macMcuRfErrIsr d cb r).log = r.log ++ tr ∧
      ∀ e ∈ tr, e.isSharedWrite = false := by
  rw [rfErrIsr_eq]
  split_ifs
  · refine ⟨_, rfl, ?_⟩
    intro e he
    simp only [List.mem_cons, List.mem_singleton, List.not_mem_nil, or_false] at he
    rcases he with rfl | rfl | rfl | rfl | rfl <;> rfl
  · refine ⟨_, rfl, ?_⟩
    intro e he
    simp only [List.mem_cons, List.mem_singleton, List.not_mem_nil, or_false] at he
    rcases he with rfl | rfl <;> rfl

theorem rfIsrCsp_noShared (d : Defs) (cb : Callbacks) (r : Run) :
    ∃ tr, (macMcuRfIsrCsp d cb r).log = r.log ++ tr ∧
      ∀ e ∈ tr, e.isSharedWrite = false := by
  rw [rfIsrCsp_eq]
  split_ifs <;> refine ⟨_, rfl, ?_⟩ <;> intro e he <;>
    simp only [List.mem_cons, List.mem_singleton, List.not_mem_nil, or_false] at he
  · rcases he with rfl | rfl | rfl | rfl | rfl <;> rfl
  · rcases he with rfl | rfl | rfl | rfl | rfl | rfl <;> rfl
  · rcases he with rfl | rfl | rfl | rfl | rfl | rfl | rfl | rfl <;> rfl
  · rcases he with rfl | rfl | rfl | rfl | rfl <;> rfl

theorem rxThresholdLoop_noShared (d : Defs) (cb : Callbacks) :
    ∀ (fuel : Nat) (r r1 : Run), rxThresholdLoop d cb fuel r = some r1 →
      ∃ tr, r1.log = r.log ++ tr ∧ ∀ e ∈ tr, e.isSharedWrite = false := by
  intro fuel
  induction fuel with
  | zero =>
    intro r r1 h
    simp [rxThresholdLoop] at h
  | succ n ih =>
    intro r r1 h
    unfold rxThresholdLoop at h
    simp only [rdFSMSTAT1, wr, invoke] at h
    split_ifs at h
    · obtain ⟨tr, h1, h2⟩ := ih _ _ h
      refine ⟨[Event.call Callback.macRxThresholdIsr,
        Event.write Reg.RFIRQF0 (compl8 d.IRQ_FIFOP % 256),
        Event.sample StatusReg.FSMSTAT1 (r.fsmstat1 r.polls)] ++ tr, ?_, ?_⟩
      · rw [h1]
        simp
      · intro e he
        simp only [List.mem_cons, List.mem_append, List.mem_singleton, List.not_mem_nil,
          or_false] at he
        rcases he with (rfl | rfl | rfl) | he
        · rfl
        · rfl
        · rfl
        · exact h2 e he
    · simp only [Option.some.injEq] at h
      rw [← h]
      refine ⟨[Event.call Callback.macRxThresholdIsr,
        Event.write Reg.RFIRQF0 (compl8 d.IRQ_FIFOP % 256),
        Event.sample StatusReg.FSMSTAT1 (r.fsmstat1 r.polls)], by simp, ?_⟩
      intro e he
      simp only [List.mem_cons, List.mem_singleton, List.not_mem_nil, or_false] at he
      rcases he with rfl | rfl | rfl <;> rfl

theorem rfIsr_noShared (d : Defs) (cb : Callbacks) (fuel : Nat) (r r1 : Run)
    (h : macMcuRfIsr d cb fuel r = some r1) :
    ∃ tr, r1.log = r.log ++ tr ∧ ∀ e ∈ tr, e.isSharedWrite = false := by
  obtain ⟨trC, hC1, hC2⟩ := rfIsrCsp_noShared d cb r
  rw [rfIsr_eq] at h
  split_ifs at h
  · obtain ⟨tr, h1, h2⟩ := rxThresholdLoop_noShared d cb _ _ _ h
    refine ⟨trC ++ [Event.read Reg.RFIRQM0 (macMcuRfIsrCsp d cb r).hw.RFIRQM0,
      Event.read Reg.RFIRQF0 (macMcuRfIsrCsp d cb r).hw.RFIRQF0] ++ tr, ?_, ?_⟩
    · rw [h1]
      simp [hC1]
    · intro e he
      simp only [List.mem_cons, List.mem_append, List.mem_singleton, List.not_mem_nil,
        or_false] at he
      rcases he with (he | rfl | rfl) | he
      · exact hC2 e he
      · rfl
      · rfl
      · exact h2 e he
  · simp only [Option.some.injEq] at h
    rw [← h]
    refine ⟨trC ++ [Event.read Reg.RFIRQM0 (macMcuRfIsrCsp d cb r).hw.RFIRQM0,
      Event.read Reg.RFIRQF0 (macMcuRfIsrCsp d cb r).hw.RFIRQF0], ?_, ?_⟩
    · simp [hC1]
    · intro e he
      simp only [List.mem_cons, List.mem_append, List.mem_singleton, List.not_mem_nil,
        or_false] at he
      rcases he with he | rfl | rfl
      · exact hC2 e he
      · rfl
      · rfl

/-- C14 (as amended): in the log of every operation of the file, each write of a timer or
overflow counter sub-register lies between an enter-critical-section and its matching
exit; the three handlers and the sample update write none. The operations that are not
handlers make no assignment to `maxRssi` or `accumulatedOverflowCount` outside a critical
section, with two exceptions whose logs are given in full: `macMcuOverflowSetCount`
assigns `accumulatedOverflowCount` twice after the critical section of its counter read
and before it enters the critical section of its sub-register writes, and
`macMcuRecordMaxRssiStart` assigns `maxRssi` outside any critical section, before its
read-modify-write of `T2IRQM` that enables the overflow-tick interrupt. Among the handlers
only the sample update assigns one of the two variables (`maxRssi`, when the sample is
larger), and the timer handler runs it in its overflow-tick branch only; the other
branches of the timer handler, the radio handler and the error handler write no shared
state. -/
theorem C14_guarded_writes (d : Defs) (cb : Callbacks) (r : Run) :
    (∀ fuel r1, macMcuInit d cb fuel r = some r1 →
      appendsGuarded Event.isSharedWrite r.log r1.log) ∧
    appendsGuarded Event.isSharedWrite r.log (macMcuRandomByte d r).2.log ∧
    (∀ x, appendsGuarded Event.isSharedWrite r.log (macMcuTimerForceDelay x r).log) ∧
    appendsGuarded Event.isSharedWrite r.log (macMcuTimerCapture r).2.log ∧
    appendsGuarded Event.isSharedWrite r.log (macMcuOverflowCount d r).2.log ∧
    appendsGuarded Event.isSharedWrite r.log (macMcuOverflowCapture d r).2.log ∧
    appendsGuarded Event.isSharedWrite r.log (macMcuOverflowGetCompare d r).2.log ∧
    appendsGuarded Event.isSharedWrite r.log (macMcuPrecisionCount d r).2.log ∧
    appendsGuarded Event.isSharedWrite r.log (macMcuRecordMaxRssiStop d r).2.log ∧
    (∀ v r1, macMcuOverflowSetCompare d v r = Outcome.done r1 →
      appendsGuarded Event.isSharedWrite r.log r1.log) ∧
    (∀ r1, macMcuTimer2OverflowWorkaround d cb r = some r1 →
      appendsGuarded Event.isSharedWrite r.log r1.log) ∧
    (∀ v r1, macMcuOverflowSetCount d v r = Outcome.done r1 →
      ∃ tr, r1.log = r.log ++ tr ∧
        tr = [Event.enterCritical, Event.select OvfSel.count TimSel.count,
          Event.read Reg.T2M0 r.hw.timCount0, Event.read Reg.T2MOVF0 r.hw.ovfCount.b0,
          Event.read Reg.T2MOVF1 r.hw.ovfCount.b1, Event.read Reg.T2MOVF2 r.hw.ovfCount.b2,
          Event.exitCritical,
          Event.assign Global.accumulatedOverflowCount
            (((r.hw.accumulatedOverflowCount + (r.hw.ovfCount.b0 % 256
              + 256 * (r.hw.ovfCount.b1 % 256) + 65536 * (r.hw.ovfCount.b2 % 256)))
              % 2 ^ 32 : Nat) : Int),
          Event.assign Global.accumulatedOverflowCount
            ((((r.hw.accumulatedOverflowCount + (r.hw.ovfCount.b0 % 256
              + 256 * (r.hw.ovfCount.b1 % 256) + 65536 * (r.hw.ovfCount.b2 % 256)))
              % 2 ^ 32 + 2 ^ 32 - v % 2 ^ 32) % 2 ^ 32 : Nat) : Int),
          Event.enterCritical, Event.select OvfSel.count TimSel.count,
          Event.write Reg.T2MOVF0 (v % 256), Event.write Reg.T2MOVF1 (v / 256 % 256),
          Event.write Reg.T2MOVF2 (v / 65536 % 256), Event.exitCritical] ∧
        guarded Event.isCounterWrite tr ∧ (scan Event.isSharedWrite tr).2 = false) ∧
    (∃ tr, (macMcuRecordMaxRssiStart d r).log = r.log ++ tr ∧
      tr = [Event.assign Global.maxRssi (-128), Event.read Reg.T2IRQM r.hw.T2IRQM,
        Event.write Reg.T2IRQM ((r.hw.T2IRQM ||| d.TIMER2_PERM) % 256)] ∧
      guarded Event.isCounterWrite tr ∧ (scan Event.isSharedWrite tr).2 = false) ∧
    (mcuRecordMaxRssiIsr r).log = r.log ++ Event.read Reg.RSSI r.hw.RSSI ::
      (if toInt8 r.hw.RSSI > r.hw.maxRssi
        then [Event.assign Global.maxRssi (toInt8 r.hw.RSSI)] else []) ∧
    ((¬ (r.hw.T2IRQF &&& d.TIMER2_OVF_COMPARE1F) &&& r.hw.T2IRQM ≠ 0 ∧
        (r.hw.T2IRQF &&& d.TIMER2_PERF) &&& r.hw.T2IRQM ≠ 0) →
      (macMcuTimer2Isr d cb r).log = r.log ++
        [Event.read Reg.T2IRQM r.hw.T2IRQM, Event.read Reg.T2IRQF r.hw.T2IRQF,
         Event.call Callback.mcuRecordMaxRssiIsr, Event.read Reg.RSSI r.hw.RSSI] ++
        (if toInt8 r.hw.RSSI > r.hw.maxRssi
          then [Event.assign Global.maxRssi (toInt8 r.hw.RSSI)] else []) ++
        [Event.read Reg.T2IRQF r.hw.T2IRQF,
         Event.write Reg.T2IRQF ((r.hw.T2IRQF &&& compl8 d.TIMER2_PERF) % 256)]) ∧
    (¬ (¬ (r.hw.T2IRQF &&& d.TIMER2_OVF_COMPARE1F) &&& r.hw.T2IRQM ≠ 0 ∧
        (r.hw.T2IRQF &&& d.TIMER2_PERF) &&& r.hw.T2IRQM ≠ 0) →
      ∃ tr, (macMcuTimer2Isr d cb r).log = r.log ++ tr ∧
        ∀ e ∈ tr, e.isSharedWrite = false) ∧
    (∃ tr, (macMcuTimer2Isr d cb r).log = r.log ++ tr ∧
      ∀ e ∈ tr, e.isCounterWrite = false) ∧
    (∀ fuel r1, macMcuRfIsr d cb fuel r = some r1 →
      ∃ tr, r1.log = r.log ++ tr ∧ ∀ e ∈ tr, e.isSharedWrite = false) ∧
    (∃ tr, (macMcuRfErrIsr d cb r).log = r.log ++ tr ∧
      ∀ e ∈ tr, e.isSharedWrite = false) := by
  refine ⟨fun fuel r1 h => guarded_init d cb fuel r r1 h,
    guarded_randomByte d r,
    fun x => guarded_timerForceDelay x r,
    guarded_timerCapture r,
    guarded_overflowCount d r,
    guarded_overflowCapture d r,
    guarded_getCompare d r,
    guarded_precisionCount d r,
    guarded_recordMaxRssiStop d r,
    fun v r1 h => guarded_setCompare d v r r1 h,
    fun r1 h => guarded_workaround d cb r r1 h,
    fun v r1 h => ⟨_, setCount_log d v r r1 h, rfl, ?_, ?_⟩,
    ⟨_, recordMaxRssiStart_log d r, rfl, ?_, ?_⟩,
    recordMaxRssiIsr_log r,
    fun h => timer2Isr_tick_log d cb r h.1 h.2,
    fun h => timer2Isr_noShared d cb r h,
    timer2Isr_noCounterWrite d cb r,
    fun fuel r1 h => rfIsr_noShared d cb fuel r r1 h,
    rfErrIsr_noShared d cb r⟩ <;>
  simp [guarded, scan, guardStep, Event.isSharedWrite, Event.isCounterWrite,
    Event.isSharedAssign, Reg.isTimerSub]

/-- Evaluation of C14 (as amended) on `macMcuOverflowSetCompare` with `v = 0x123456`. -/
theorem C14_guarded_writes_witness :
    ∃ r1, macMcuOverflowSetCompare cc2530 0x123456 (Run.start compareArmed quiet)
        = Outcome.done r1 ∧
      appendsGuarded Event.isSharedWrite (Run.start compareArmed quiet).log r1.log := by
  obtain ⟨r1, h1, _⟩ := setCompare_enabled cc2530 0x123456 (Run.start compareArmed quiet)
    (by norm_num) (by decide)
  exact ⟨r1, h1, (C14_guarded_writes cc2530 Callbacks.idle
    (Run.start compareArmed quiet)).2.2.2.2.2.2.2.2.2.1 0x123456 r1 h1⟩

/-- C14 as stated fails: `macMcuOverflowSetCount`, ordinary code, assigns
`accumulatedOverflowCount` outside any critical section. -/
theorem C14_counterexample_offset_outside_critical :
    ∃ r1, macMcuOverflowSetCount cc2530 5 (Run.start Mcu.zero quiet) = Outcome.done r1 ∧
      (scan Event.isSharedWrite r1.log).2 = false :=
  ⟨_, rfl, by decide⟩

theorem and_compl8_testBit (x m i : Nat) (hi : i < 8) (hm : m.testBit i = false) :
    (x &&& compl8 m).testBit i = x.testBit i := by
  simp [testBit_compl8, hi, hm]

/-- C15 (as amended): error handler `macMcuRfErrIsr`. When the RX-FIFO-overflow flag is set
in `RFERRF` and enabled in `RFERRM`, one invocation clears that flag by a read-modify-write
of `RFERRF` that leaves every other bit as it was, and then calls the RX-FIFO-overflow
callback exactly once (and no other function). When the flag is not set or not enabled, it
calls nothing and leaves the machine unchanged. -/
theorem C15_rx_overflow_handler (d : Defs) (cb : Callbacks) (r : Run) :
    ((r.hw.RFERRF &&& d.RFERR_RXOVERF) &&& r.hw.RFERRM ≠ 0 →
      (macMcuRfErrIsr d cb r).log = r.log ++
        [Event.read Reg.RFERRM r.hw.RFERRM, Event.read Reg.RFERRF r.hw.RFERRF,
         Event.read Reg.RFERRF r.hw.RFERRF,
         Event.write Reg.RFERRF ((r.hw.RFERRF &&& compl8 d.RFERR_RXOVERF) % 256),
         Event.call Callback.macRxFifoOverflowIsr] ∧
      (∀ c, callCount c (macMcuRfErrIsr d cb r).log = callCount c r.log +
        (if c = Callback.macRxFifoOverflowIsr then 1 else 0)) ∧
      (macMcuRfErrIsr d cb r).hw = cb.macRxFifoOverflowIsr { r.hw with
        RFERRF := r.hw.RFERRF &&& compl8 d.RFERR_RXOVERF } ∧
      (r.hw.RFERRF &&& compl8 d.RFERR_RXOVERF) &&& d.RFERR_RXOVERF = 0 ∧
      (∀ i, i < 8 → d.RFERR_RXOVERF.testBit i = false →
        (r.hw.RFERRF &&& compl8 d.RFERR_RXOVERF).testBit i = r.hw.RFERRF.testBit i)) ∧
    (¬ (r.hw.RFERRF &&& d.RFERR_RXOVERF) &&& r.hw.RFERRM ≠ 0 →
      (∀ c, callCount c (macMcuRfErrIsr d cb r).log = callCount c r.log) ∧
      (macMcuRfErrIsr d cb r).hw = r.hw) := by
  refine ⟨?_, ?_⟩
  · intro h
    rw [rfErrIsr_eq, if_pos h]
    refine ⟨rfl, ?_, rfl, and_compl8_and _ _, fun i hi hm => and_compl8_testBit _ _ i hi hm⟩
    intro c
    cases c <;> simp [callCount]
  · intro h
    rw [rfErrIsr_eq, if_neg h]
    refine ⟨?_, rfl⟩
    intro c
    simp [callCount]

/-- Evaluation of C15 (as amended) with the flag set and enabled next to another error
flag: one call, the other flag (bit 0) is kept. -/
theorem C15_rx_overflow_handler_witness :
    (∀ c, callCount c (macMcuRfErrIsr cc2530 Callbacks.idle
        (Run.start rxOverflowPending quiet)).log =
      callCount c (Run.start rxOverflowPending quiet).log +
        (if c = Callback.macRxFifoOverflowIsr then 1 else 0)) ∧
    (macMcuRfErrIsr cc2530 Callbacks.idle (Run.start rxOverflowPending quiet)).hw.RFERRF
      = 0x01 :=
  have h := (C15_rx_overflow_handler cc2530 Callbacks.idle
    (Run.start rxOverflowPending quiet)).1 (by decide)
  ⟨h.2.1, by rw [h.2.2.1]; decide⟩

/-- C15 as stated fails: with the flag set in `RFERRF` and its bit clear in `RFERRM`, the
handler calls nothing and the flag stays set. -/
theorem C15_counterexample_flag_masked :
    (Run.start rxOverflowMasked quiet).hw.RFERRF &&& cc2530.RFERR_RXOVERF ≠ 0 ∧
    callCount Callback.macRxFifoOverflowIsr
      (macMcuRfErrIsr cc2530 Callbacks.idle (Run.start rxOverflowMasked quiet)).log = 0 ∧
    (macMcuRfErrIsr cc2530 Callbacks.idle (Run.start rxOverflowMasked quiet)).hw.RFERRF
        &&& cc2530.RFERR_RXOVERF ≠ 0 := by
  decide

theorem and_two_pow_ne_zero (m k : Nat) (h : m &&& 2 ^ k ≠ 0) : m.testBit k = true := by
  by_contra hk
  apply h
  apply Nat.eq_of_testBit_eq
  intro i
  simp only [Nat.testBit_and, Nat.testBit_two_pow, Nat.zero_testBit]
  by_cases hik : k = i
  · subst hik
    simp [hk]
  · simp [hik]

theorem clear_then_set_bit (m k : Nat) (hk : k < 8) (hm : m < 256)
    (h : m &&& 2 ^ k ≠ 0) : ((m &&& compl8 (2 ^ k)) % 256 ||| 2 ^ k) % 256 = m := by
  have hbit := and_two_pow_ne_zero m k h
  have hm8 : ∀ i, m.testBit i = (decide (i < 8) && m.testBit i) := by
    intro i
    rw [← testBit_mod256, Nat.mod_eq_of_lt hm]
  apply Nat.eq_of_testBit_eq
  intro i
  rw [hm8 i]
  simp only [testBit_mod256, Nat.testBit_or, Nat.testBit_and, testBit_compl8,
    Nat.testBit_two_pow]
  by_cases hik : k = i
  · subst hik
    simp [hbit, hk]
  · simp only [hik, decide_False, Bool.not_false, Bool.and_true, Bool.or_false]
    cases decide (i < 8) <;> cases m.testBit i <;> rfl

theorem and_compl8_testBit_byte (f m i : Nat) (hf : f < 256) (hm : m.testBit i = false) :
    (f &&& compl8 m).testBit i = f.testBit i := by
  have hf8 : f.testBit i = (decide (i < 8) && f.testBit i) := by
    rw [← testBit_mod256, Nat.mod_eq_of_lt hf]
  rw [Nat.testBit_and, testBit_compl8, hm, hf8]
  cases decide (i < 8) <;> simp

/-- C16: for every state whose `T2IRQM` and `T2IRQF` hold bytes, every `v < 2^24` and a
compare-interrupt enable mask that is one bit of the byte, `macMcuOverflowSetCompare v`
returns and leaves `T2IRQM` as it was (the enable bit and every other bit), the pending
compare flag of `T2IRQF` clear, and every `T2IRQF` bit outside the compare flag as it
was. -/
theorem C16_setCompare_frame (d : Defs) (v : Nat) (r : Run) (hv : v < 2 ^ 24)
    (hM : ∃ k, k < 8 ∧ d.TIMER2_OVF_COMPARE1M = 2 ^ k)
    (hm : r.hw.T2IRQM < 256) (hf : r.hw.T2IRQF < 256) :
    ∃ r1, macMcuOverflowSetCompare d v r = Outcome.done r1 ∧
      r1.hw.T2IRQM = r.hw.T2IRQM ∧
      r1.hw.T2IRQF &&& d.TIMER2_OVF_COMPARE1F = 0 ∧
      (∀ i, d.TIMER2_OVF_COMPARE1F.testBit i = false →
        r1.hw.T2IRQF.testBit i = r.hw.T2IRQF.testBit i) := by
  obtain ⟨k, hk, hMk⟩ := hM
  by_cases hen : r.hw.T2IRQM &&& d.TIMER2_OVF_COMPARE1M = 0
  · obtain ⟨r1, h1, _, h3⟩ := setCompare_disabled d v r hv hen
    refine ⟨r1, h1, ?_, ?_, ?_⟩
    · rw [h3]
    · rw [h3]
      simp only [and_and_compl8]
      exact and_compl8_and _ _
    · intro i hi
      rw [h3]
      simp only [and_and_compl8]
      exact and_compl8_testBit_byte _ _ i hf hi
  · obtain ⟨r1, h1, _, h3⟩ := setCompare_enabled d v r hv hen
    refine ⟨r1, h1, ?_, ?_, ?_⟩
    · rw [h3]
      simp only
      rw [hMk] at hen ⊢
      exact clear_then_set_bit _ k hk hm hen
    · rw [h3]
      simp only [and_and_compl8]
      exact and_compl8_and _ _
    · intro i hi
      rw [h3]
      simp only [and_and_compl8]
      exact and_compl8_testBit_byte _ _ i hf hi

/-- Evaluation of C16 with the compare interrupt enabled and pending: the mask byte reads
`0x10` again and the flag byte is zero. -/
theorem C16_setCompare_frame_witness :
    ∃ r1, macMcuOverflowSetCompare cc2530 0x123456 (Run.start compareArmed quiet)
        = Outcome.done r1 ∧
      r1.hw.T2IRQM = 0x10 ∧
      r1.hw.T2IRQF &&& cc2530.TIMER2_OVF_COMPARE1F = 0 ∧
      (∀ i, cc2530.TIMER2_OVF_COMPARE1F.testBit i = false →
        r1.hw.T2IRQF.testBit i = (Run.start compareArmed quiet).hw.T2IRQF.testBit i) :=
  C16_setCompare_frame cc2530 0x123456 (Run.start compareArmed quiet) (by norm_num)
    ⟨4, by decide, rfl⟩ (by decide) (by decide)

/-- C17: on a little-endian host, for every state whose `T2MOVF0` holds a byte and every
content of the accumulated offset, `macMcuPrecisionCount` returns
`((T2MOVF0 + 256 * T2MOVF1) + acc mod 2^16) mod 2^16` read in the overflow-count view; two
states that agree on `T2MOVF0`, `T2MOVF1` and the low 16 bits of the offset give the same
result, whatever `T2MOVF2` and the upper 16 bits of the offset are. -/
theorem C17_precision_formula (d : Defs) (r : Run) (hle : d.HAL_MCU_LITTLE_ENDIAN = true)
    (h0 : r.hw.ovfCount.b0 < 256) :
    (macMcuPrecisionCount d r).1 = some ((r.hw.ovfCount.b0 + 256 * r.hw.ovfCount.b1
        + r.hw.accumulatedOverflowCount % 2 ^ 16) % 2 ^ 16) ∧
    (∀ r2 : Run, r2.hw.ovfCount.b0 = r.hw.ovfCount.b0 → r2.hw.ovfCount.b1 = r.hw.ovfCount.b1 →
      r2.hw.accumulatedOverflowCount % 2 ^ 16 = r.hw.accumulatedOverflowCount % 2 ^ 16 →
      (macMcuPrecisionCount d r2).1 = (macMcuPrecisionCount d r).1) := by
  refine ⟨?_, ?_⟩
  · rw [precisionCount_val d r hle]
    simp only [Option.some.injEq]
    omega
  · intro r2 e0 e1 e2
    rw [precisionCount_val d r hle, precisionCount_val d r2 hle, e0, e1]
    simp only [Option.some.injEq]
    omega

/-- Evaluation of C17 with the overflow counter at `0xFFFFFF` and a zero offset: the result
is `0xFFFF`. -/
theorem C17_precision_formula_witness :
    (macMcuPrecisionCount cc2530 (Run.start nearWrap quiet)).1 = some 65535 :=
  (C17_precision_formula cc2530 (Run.start nearWrap quiet) rfl (by decide)).1

theorem setCount_endian (d : Defs) (b : Bool) (v : Nat) (r : Run) :
    macMcuOverflowSetCount d v r
      = macMcuOverflowSetCount { d with HAL_MCU_LITTLE_ENDIAN := b } v r := by
  unfold macMcuOverflowSetCount
  simp only [overflowCount_eq, peek32_ndx0, peek32_ndx1, peek32_ndx2]

theorem setCompare_endian (d : Defs) (b : Bool) (v : Nat) (r : Run) :
    macMcuOverflowSetCompare d v r
      = macMcuOverflowSetCompare { d with HAL_MCU_LITTLE_ENDIAN := b } v r := by
  unfold macMcuOverflowSetCompare
  simp only [peek32_ndx0, peek32_ndx1, peek32_ndx2]

/-- C18: each of the five 24-bit transfers (`macMcuOverflowCount`,
`macMcuOverflowCapture`, `macMcuOverflowGetCompare`, `macMcuOverflowSetCount`,
`macMcuOverflowSetCompare`) gives the same result and the same final state under either
byte-order configuration. The three readers return
`T2MOVF0 + 256 * T2MOVF1 + 65536 * T2MOVF2` of the selected view, the index macros select
byte `N` of the argument for `N = 0, 1, 2`, and for `v < 2^24` the two writers leave byte
`N` of `v` in sub-register `N` of the count, respectively compare, view. -/
theorem C18_byte_order_independent (d : Defs) (b : Bool) (v : Nat) (r : Run) :
    macMcuOverflowCount d r = macMcuOverflowCount { d with HAL_MCU_LITTLE_ENDIAN := b } r ∧
    macMcuOverflowCapture d r
      = macMcuOverflowCapture { d with HAL_MCU_LITTLE_ENDIAN := b } r ∧
    macMcuOverflowGetCompare d r
      = macMcuOverflowGetCompare { d with HAL_MCU_LITTLE_ENDIAN := b } r ∧
    macMcuOverflowSetCount d v r
      = macMcuOverflowSetCount { d with HAL_MCU_LITTLE_ENDIAN := b } v r ∧
    macMcuOverflowSetCompare d v r
      = macMcuOverflowSetCompare { d with HAL_MCU_LITTLE_ENDIAN := b } v r ∧
    (macMcuOverflowCount d r).1 = some (r.hw.ovfCount.b0 % 256
      + 256 * (r.hw.ovfCount.b1 % 256) + 65536 * (r.hw.ovfCount.b2 % 256)) ∧
    (macMcuOverflowCapture d r).1 = some (r.hw.ovfCapture.b0 % 256
      + 256 * (r.hw.ovfCapture.b1 % 256) + 65536 * (r.hw.ovfCapture.b2 % 256)) ∧
    (macMcuOverflowGetCompare d r).1 = some (r.hw.ovfCmp1.b0 % 256
      + 256 * (r.hw.ovfCmp1.b1 % 256) + 65536 * (r.hw.ovfCmp1.b2 % 256)) ∧
    peek32 d v (UINT32_NDX0 d) = v % 256 ∧
    peek32 d v (UINT32_NDX1 d) = v / 256 % 256 ∧
    peek32 d v (UINT32_NDX2 d) = v / 65536 % 256 ∧
    (v < 2 ^ 24 →
      (∃ r1, macMcuOverflowSetCount d v r = Outcome.done r1 ∧
        r1.hw.ovfCount = ⟨v % 256, v / 256 % 256, v / 65536 % 256⟩) ∧
      (∃ r1, macMcuOverflowSetCompare d v r = Outcome.done r1 ∧
        r1.hw.ovfCmp1 = ⟨v % 256, v / 256 % 256, v / 65536 % 256⟩)) := by
  refine ⟨?_, ?_, ?_, setCount_endian d b v r, setCompare_endian d b v r, ?_, ?_, ?_,
    peek32_ndx0 d v, peek32_ndx1 d v, peek32_ndx2 d v, ?_⟩
  · rw [overflowCount_eq, overflowCount_eq]
  · rw [overflowCapture_eq, overflowCapture_eq]
  · rw [getCompare_eq, getCompare_eq]
  · rw [overflowCount_eq]
  · rw [overflowCapture_eq]
  · rw [getCompare_eq]
  · intro hv
    refine ⟨?_, ?_⟩
    · obtain ⟨r1, h1, h2⟩ := setCount_done d v r hv
      exact ⟨r1, h1, by rw [h2]; rfl⟩
    · by_cases hen : r.hw.T2IRQM &&& d.TIMER2_OVF_COMPARE1M = 0
      · obtain ⟨r1, h1, _, h3⟩ := setCompare_disabled d v r hv hen
        exact ⟨r1, h1, by rw [h3]; rfl⟩
      · obtain ⟨r1, h1, _, h3⟩ := setCompare_enabled d v r hv hen
        exact ⟨r1, h1, by rw [h3]; rfl⟩

/-- Evaluation of C18 for the two writers on the big-endian configuration: bytes `0x56`,
`0x34`, `0x12` of `0x123456` land in sub-registers 0, 1, 2. -/
theorem C18_byte_order_independent_witness :
    (∃ r1, macMcuOverflowSetCount cc2530BigEndian 0x123456 (Run.start nearWrap quiet)
        = Outcome.done r1 ∧ r1.hw.ovfCount = ⟨0x56, 0x34, 0x12⟩) ∧
    (∃ r1, macMcuOverflowSetCompare cc2530BigEndian 0x123456 (Run.start nearWrap quiet)
        = Outcome.done r1 ∧ r1.hw.ovfCmp1 = ⟨0x56, 0x34, 0x12⟩) :=
  (C18_byte_order_independent cc2530BigEndian true 0x123456
    (Run.start nearWrap quiet)).2.2.2.2.2.2.2.2.2.2.2 (by norm_num)

/-- C19 fails on the big-endian configuration: there `UINT32_NDX0 = 3` and
`UINT32_NDX1 = 2`, both stores of `macMcuPrecisionCount` address bytes outside its 2-byte
result variable, and the returned value is undefined. On the little-endian configuration
the same state gives the defined value `0xFFFF`. -/
theorem C19_big_endian_stores_out_of_bounds :
    cc2530BigEndian.HAL_MCU_LITTLE_ENDIAN = false ∧
    (UINT32_NDX0 cc2530BigEndian).val = 3 ∧ (UINT32_NDX1 cc2530BigEndian).val = 2 ∧
    Obj.poke (Obj.fresh 2) (UINT32_NDX0 cc2530BigEndian) 255 = none ∧
    Obj.poke (Obj.fresh 2) (UINT32_NDX1 cc2530BigEndian) 255 = none ∧
    (macMcuPrecisionCount cc2530BigEndian (Run.start nearWrap quiet)).1 = none ∧
    (macMcuPrecisionCount cc2530 (Run.start nearWrap quiet)).1 = some 65535 := by
  decide

/-- C20: with a write to `RNDL` moving the old `RNDL` into `RNDH`, for every stream of
sampled noise values the seed chosen by `macMcuInit` is a 16-bit value and after the two
seed writes `RNDH` holds its low byte and `RNDL` its high byte; the generator state
`RNDH:RNDL` is the byte-swapped seed and is neither `0x0000` nor `0x8003`. -/
theorem C20_generator_state (r : Run) :
    (macMcuInitSeed r).1 < 65536 ∧
    (macMcuInitSeed r).2.hw.RNDH = (macMcuInitSeed r).1 % 256 ∧
    (macMcuInitSeed r).2.hw.RNDL = (macMcuInitSeed r).1 / 256 ∧
    256 * (macMcuInitSeed r).2.hw.RNDH + (macMcuInitSeed r).2.hw.RNDL ≠ 0x0000 ∧
    256 * (macMcuInitSeed r).2.hw.RNDH + (macMcuInitSeed r).2.hw.RNDL ≠ 0x8003 := by
  have hlt := seedLoop16_lt r
  unfold macMcuInitSeed
  simp only [wr, Mcu.set]
  generalize (seedLoop 16 0 r).1 = s at hlt ⊢
  have h255 : ∀ x : Nat, x &&& 255 = x % 256 := fun x => Nat.and_pow_two_sub_one_eq_mod x 8
  simp only [h255, Nat.shiftRight_eq_div_pow]
  split_ifs with h <;> (norm_num; try omega)

theorem set_offset (m : Mcu) (x : Reg) (v : Nat) :
    (m.set x v).accumulatedOverflowCount = m.accumulatedOverflowCount := by
  cases x <;> simp only [Mcu.set, Mcu.setOvfView] <;> split <;> rfl

theorem wr_offset (x : Reg) (v : Nat) (r : Run) :
    (wr x v r).hw.accumulatedOverflowCount = r.hw.accumulatedOverflowCount := by
  simp [wr, set_offset]

theorem rd_offset (x : Reg) (r : Run) :
    (rd x r).2.hw.accumulatedOverflowCount = r.hw.accumulatedOverflowCount := rfl

theorem invoke_offset (c : Callback) (f : Mcu → Mcu) (r : Run)
    (hf : ∀ m, (f m).accumulatedOverflowCount = m.accumulatedOverflowCount) :
    (invoke c f r).hw.accumulatedOverflowCount = r.hw.accumulatedOverflowCount := by
  simp [invoke, hf]

theorem timerForceDelay_offset (x : Nat) (r : Run) :
    (macMcuTimerForceDelay x r).hw.accumulatedOverflowCount
      = r.hw.accumulatedOverflowCount := by
  simp [macMcuTimerForceDelay, HAL_ENTER_CRITICAL_SECTION, HAL_EXIT_CRITICAL_SECTION,
    MAC_MCU_T2_ACCESS_COUNT_VALUE, selectView, wr_offset]

theorem timerCapture_offset (r : Run) :
    (macMcuTimerCapture r).2.hw.accumulatedOverflowCount
      = r.hw.accumulatedOverflowCount := by
  simp [macMcuTimerCapture, HAL_ENTER_CRITICAL_SECTION, HAL_EXIT_CRITICAL_SECTION,
    MAC_MCU_T2_ACCESS_CAPTURE_VALUE, selectView, rd, Run.emit]

theorem randomByte_offset (d : Defs) (r : Run) :
    (macMcuRandomByte d r).2.hw.accumulatedOverflowCount
      = r.hw.accumulatedOverflowCount := by
  simp [macMcuRandomByte, rd, Run.emit, wr, set_offset]

theorem recordMaxRssiIsr_offset (r : Run) :
    (mcuRecordMaxRssiIsr r).hw.accumulatedOverflowCount = r.hw.accumulatedOverflowCount := by
  unfold mcuRecordMaxRssiIsr
  simp only [rd, Run.emit, setMaxRssi]
  split_ifs <;> rfl

theorem recordMaxRssiStart_offset (d : Defs) (r : Run) :
    (macMcuRecordMaxRssiStart d r).hw.accumulatedOverflowCount
      = r.hw.accumulatedOverflowCount := by
  simp [macMcuRecordMaxRssiStart, setMaxRssi, rd, Run.emit, wr, set_offset]

theorem recordMaxRssiStop_offset (d : Defs) (r : Run) :
    (macMcuRecordMaxRssiStop d r).2.hw.accumulatedOverflowCount
      = r.hw.accumulatedOverflowCount := by
  simp [macMcuRecordMaxRssiStop, rd, Run.emit, wr, set_offset]

theorem timer2Isr_offset (d : Defs) (cb : Callbacks) (r : Run) (hcb : cb.keepOffset) :
    (macMcuTimer2Isr d cb r).hw.accumulatedOverflowCount
      = r.hw.accumulatedOverflowCount := by
  unfold macMcuTimer2Isr
  simp only [rd, Run.emit]
  split_ifs
  · simp [wr, set_offset, invoke, (hcb _).1]
  · rw [wr_offset]
    simp only
    rw [recordMaxRssiIsr_offset]
  · rfl

theorem rfErrIsr_offset (d : Defs) (cb : Callbacks) (r : Run) (hcb : cb.keepOffset) :
    (macMcuRfErrIsr d cb r).hw.accumulatedOverflowCount
      = r.hw.accumulatedOverflowCount := by
  unfold macMcuRfErrIsr
  simp only [rd, Run.emit]
  split_ifs
  · simp [wr, set_offset, invoke, (hcb _).2.2.2.2.2.1]
  · rfl

theorem rfIsrCsp_offset (d : Defs) (cb : Callbacks) (r : Run) (hcb : cb.keepOffset) :
    (macMcuRfIsrCsp d cb r).hw.accumulatedOverflowCount
      = r.hw.accumulatedOverflowCount := by
  unfold macMcuRfIsrCsp
  simp only [rd, Run.emit]
  split_ifs
  · simp [wr, set_offset, invoke, (hcb _).2.1]
  · simp [wr, set_offset, invoke, (hcb _).2.2.1]
  · simp [wr, set_offset, invoke, (hcb _).2.2.2.1]
  · simp [wr, set_offset]

theorem rxThresholdLoop_offset (d : Defs) (cb : Callbacks) (hcb : cb.keepOffset) :
    ∀ (fuel : Nat) (r r1 : Run), rxThresholdLoop d cb fuel r = some r1 →
      r1.hw.accumulatedOverflowCount = r.hw.accumulatedOverflowCount := by
  intro fuel
  induction fuel with
  | zero =>
    intro r r1 h
    simp [rxThresholdLoop] at h
  | succ n ih =>
    intro r r1 h
    unfold rxThresholdLoop at h
    simp only [rdFSMSTAT1] at h
    split_ifs at h
    · rw [ih _ _ h]
      simp [wr, set_offset, invoke, (hcb _).2.2.2.2.1]
    · simp only [Option.some.injEq] at h
      rw [← h]
      simp [wr, set_offset, invoke, (hcb _).2.2.2.2.1]

theorem rfIsr_offset (d : Defs) (cb : Callbacks) (fuel : Nat) (r r1 : Run)
    (hcb : cb.keepOffset) (h : macMcuRfIsr d cb fuel r = some r1) :
    r1.hw.accumulatedOverflowCount = r.hw.accumulatedOverflowCount := by
  unfold macMcuRfIsr macMcuRfIsrFifop at h
  simp only [rd, Run.emit] at h
  split_ifs at h
  · rw [rxThresholdLoop_offset d cb hcb _ _ _ h]
    exact rfIsrCsp_offset d cb r hcb
  · simp only [Option.some.injEq] at h
    rw [← h]
    exact rfIsrCsp_offset d cb r hcb

theorem workaround_offset (d : Defs) (cb : Callbacks) (r : Run) (hcb : cb.keepOffset) :
    ∃ r1, macMcuTimer2OverflowWorkaround d cb r = some r1 ∧
      r1.hw.accumulatedOverflowCount = r.hw.accumulatedOverflowCount := by
  unfold macMcuTimer2OverflowWorkaround MAC_RADIO_BACKOFF_COUNT
  simp only [rd, Run.emit, overflowCount_eq, getCompare_eq]
  split_ifs
  · exact ⟨_, rfl, by simp [wr, set_offset, invoke, (hcb _).1]⟩
  · exact ⟨_, rfl, rfl⟩
  · exact ⟨_, rfl, rfl⟩
  · exact ⟨_, rfl, rfl⟩

theorem waitRssiValid_offset :
    ∀ (fuel : Nat) (r r1 : Run), waitRssiValid fuel r = some r1 →
      r1.hw.accumulatedOverflowCount = r.hw.accumulatedOverflowCount := by
  intro fuel
  induction fuel with
  | zero =>
    intro r r1 h
    simp [waitRssiValid] at h
  | succ n ih =>
    intro r r1 h
    unfold waitRssiValid at h
    simp only [rdRSSISTAT] at h
    split_ifs at h
    · simp only [Option.some.injEq] at h
      rw [← h]
    · rw [ih _ _ h]

theorem seedLoop_offset :
    ∀ (n s : Nat) (r : Run),
      (seedLoop n s r).2.hw.accumulatedOverflowCount = r.hw.accumulatedOverflowCount := by
  intro n
  induction n with
  | zero =>
    intro s r
    rfl
  | succ n ih =>
    intro s r
    unfold seedLoop
    simp only [rdRFRND]
    rw [ih]

theorem initSeed_offset (r : Run) :
    (macMcuInitSeed r).2.hw.accumulatedOverflowCount = r.hw.accumulatedOverflowCount := by
  unfold macMcuInitSeed
  simp only [wr_offset]
  exact seedLoop_offset 16 0 r

theorem initRadio_offset (d : Defs) (r : Run) :
    (macMcuInitRadio d r).hw.accumulatedOverflowCount = r.hw.accumulatedOverflowCount := by
  simp [macMcuInitRadio, setMacChipVersion, rd, Run.emit, wr, set_offset]

theorem initTimer_offset (d : Defs) (cb : Callbacks) (r : Run) (hcb : cb.keepOffset) :
    (macMcuInitTimer d cb r).hw.accumulatedOverflowCount = r.hw.accumulatedOverflowCount := by
  simp [macMcuInitTimer, HAL_ENTER_CRITICAL_SECTION, HAL_EXIT_CRITICAL_SECTION,
    MAC_MCU_T2_ACCESS_PERIOD_VALUE, selectView, rd, Run.emit, wr, set_offset, invoke,
    (hcb _).2.2.2.2.2.2.2.2.1]

theorem initRxOn_offset (d : Defs) (cb : Callbacks) (r : Run) (hcb : cb.keepOffset) :
    (macMcuInitRxOn d cb r).hw.accumulatedOverflowCount = r.hw.accumulatedOverflowCount := by
  simp [macMcuInitRxOn, wr, set_offset, invoke, (hcb _).2.2.2.2.2.2.1]

theorem initFinish_offset (d : Defs) (cb : Callbacks) (r : Run) (hcb : cb.keepOffset) :
    (macMcuInitFinish d cb r).hw.accumulatedOverflowCount
      = r.hw.accumulatedOverflowCount := by
  simp [macMcuInitFinish, wr, set_offset, invoke, (hcb _).2.2.2.2.2.2.2.1,
    (hcb _).2.2.2.2.2.2.2.2.2.1, (hcb _).2.2.2.2.2.2.2.2.2.2.1,
    (hcb _).2.2.2.2.2.2.2.2.2.2.2]

theorem init_offset (d : Defs) (cb : Callbacks) (fuel : Nat) (r r1 : Run)
    (hcb : cb.keepOffset) (h : macMcuInit d cb fuel r = some r1) :
    r1.hw.accumulatedOverflowCount = r.hw.accumulatedOverflowCount := by
  unfold macMcuInit at h
  simp only at h
  split at h
  · simp at h
  · rename_i r2 hw
    simp only [Option.some.injEq] at h
    rw [← h, initFinish_offset d cb _ hcb, initSeed_offset, waitRssiValid_offset _ _ _ hw,
      initRxOn_offset d cb _ hcb, initTimer_offset d cb _ hcb, initRadio_offset]

theorem setCompare_offset (d : Defs) (v : Nat) (r : Run) (hv : v < 2 ^ 24) :
    ∃ r1, macMcuOverflowSetCompare d v r = Outcome.done r1 ∧
      r1.hw.accumulatedOverflowCount = r.hw.accumulatedOverflowCount := by
  by_cases hen : r.hw.T2IRQM &&& d.TIMER2_OVF_COMPARE1M = 0
  · obtain ⟨r1, h1, _, h3⟩ := setCompare_disabled d v r hv hen
    exact ⟨r1, h1, by rw [h3]⟩
  · obtain ⟨r1, h1, _, h3⟩ := setCompare_enabled d v r hv hen
    exact ⟨r1, h1, by rw [h3]⟩

theorem setCount_offset (d : Defs) (v : Nat) (r : Run) (hv : v < 2 ^ 24) :
    ∃ r1 c, macMcuOverflowSetCount d v r = Outcome.done r1 ∧
      (macMcuOverflowCount d r).1 = some c ∧
      (r1.hw.accumulatedOverflowCount : Int)
        = ((r.hw.accumulatedOverflowCount : Int) + (c : Int) - (v : Int)) % 2 ^ 32 := by
  obtain ⟨r1, h1, h2⟩ := setCount_done d v r hv
  refine ⟨r1, _, h1, overflowCount_val d r, ?_⟩
  rw [h2]
  simp only
  have hv2 : v < 2 ^ 32 := by omega
  push_cast
  omega

theorem offsetAssigns_snoc (l : List Event) (e : Event) :
    offsetAssigns (l ++ [e]) = offsetAssigns l + (if e.isOffsetAssign then 1 else 0) := by
  simp [offsetAssigns, List.countP_append, List.countP_cons]

theorem offsetAssigns_append (l k : List Event) :
    offsetAssigns (l ++ k) = offsetAssigns l + offsetAssigns k := by
  simp [offsetAssigns, List.countP_append]

theorem wr_assigns (x : Reg) (v : Nat) (r : Run) :
    offsetAssigns (wr x v r).log = offsetAssigns r.log := by
  simp [wr, offsetAssigns_snoc, Event.isOffsetAssign]

theorem rd_assigns (x : Reg) (r : Run) :
    offsetAssigns (rd x r).2.log = offsetAssigns r.log := by
  simp [rd, Run.emit, offsetAssigns_snoc, Event.isOffsetAssign]

theorem invoke_assigns (c : Callback) (f : Mcu → Mcu) (r : Run) :
    offsetAssigns (invoke c f r).log = offsetAssigns r.log := by
  simp [invoke, offsetAssigns_snoc, Event.isOffsetAssign]

theorem enter_assigns (r : Run) :
    offsetAssigns (HAL_ENTER_CRITICAL_SECTION r).2.log = offsetAssigns r.log := by
  simp [HAL_ENTER_CRITICAL_SECTION, offsetAssigns_snoc, Event.isOffsetAssign]

theorem exit_assigns (s : Bool) (r : Run) :
    offsetAssigns (HAL_EXIT_CRITICAL_SECTION s r).log = offsetAssigns r.log := by
  simp [HAL_EXIT_CRITICAL_SECTION, offsetAssigns_snoc, Event.isOffsetAssign]

theorem select_assigns (o : OvfSel) (t : TimSel) (r : Run) :
    offsetAssigns (selectView o t r).log = offsetAssigns r.log := by
  simp [selectView, offsetAssigns_snoc, Event.isOffsetAssign]

theorem setMaxRssi_assigns (v : Int) (r : Run) :
    offsetAssigns (setMaxRssi v r).log = offsetAssigns r.log := by
  simp [setMaxRssi, offsetAssigns_snoc, Event.isOffsetAssign]

theorem recordMaxRssiIsr_assigns (r : Run) :
    offsetAssigns (mcuRecordMaxRssiIsr r).log = offsetAssigns r.log := by
  unfold mcuRecordMaxRssiIsr
  simp only
  split_ifs
  · rw [setMaxRssi_assigns, rd_assigns]
  · rw [rd_assigns]

theorem timer2Isr_assigns (d : Defs) (cb : Callbacks) (r : Run) :
    offsetAssigns (macMcuTimer2Isr d cb r).log = offsetAssigns r.log := by
  unfold macMcuTimer2Isr
  simp only
  split_ifs
  · simp only [wr_assigns, rd_assigns, invoke_assigns]
  · simp only [wr_assigns, rd_assigns, recordMaxRssiIsr_assigns]
    simp [Run.emit, rd, offsetAssigns, List.countP_append, List.countP_cons,
      Event.isOffsetAssign]
  · simp only [rd_assigns]

theorem rfErrIsr_assigns (d : Defs) (cb : Callbacks) (r : Run) :
    offsetAssigns (macMcuRfErrIsr d cb r).log = offsetAssigns r.log := by
  unfold macMcuRfErrIsr
  simp only
  split_ifs <;> simp only [wr_assigns, rd_assigns, invoke_assigns]

theorem rfIsrCsp_assigns (d : Defs) (cb : Callbacks) (r : Run) :
    offsetAssigns (macMcuRfIsrCsp d cb r).log = offsetAssigns r.log := by
  unfold macMcuRfIsrCsp
  simp only
  split_ifs <;> simp only [wr_assigns, rd_assigns, invoke_assigns]

theorem rxThresholdLoop_assigns (d : Defs) (cb : Callbacks) :
    ∀ (fuel : Nat) (r r1 : Run), rxThresholdLoop d cb fuel r = some r1 →
      offsetAssigns r1.log = offsetAssigns r.log := by
  intro fuel
  induction fuel with
  | zero =>
    intro r r1 h
    simp [rxThresholdLoop] at h
  | succ n ih =>
    intro r r1 h
    unfold rxThresholdLoop at h
    simp only [rdFSMSTAT1] at h
    split_ifs at h
    · rw [ih _ _ h]
      simp [offsetAssigns_snoc, Event.isOffsetAssign, wr_assigns, invoke_assigns]
    · simp only [Option.some.injEq] at h
      rw [← h]
      simp [offsetAssigns_snoc, Event.isOffsetAssign, wr_assigns, invoke_assigns]

theorem rfIsr_assigns (d : Defs) (cb : Callbacks) (fuel : Nat) (r r1 : Run)
    (h : macMcuRfIsr d cb fuel r = some r1) :
    offsetAssigns r1.log = offsetAssigns r.log := by
  unfold macMcuRfIsr macMcuRfIsrFifop at h
  simp only at h
  split_ifs at h
  · rw [rxThresholdLoop_assigns d cb _ _ _ h]
    simp only [rd_assigns, rfIsrCsp_assigns]
  · simp only [Option.some.injEq] at h
    rw [← h]
    simp only [rd_assigns, rfIsrCsp_assigns]

theorem workaround_assigns (d : Defs) (cb : Callbacks) (r r1 : Run)
    (h : macMcuTimer2OverflowWorkaround d cb r = some r1) :
    offsetAssigns r1.log = offsetAssigns r.log := by
  unfold macMcuTimer2OverflowWorkaround MAC_RADIO_BACKOFF_COUNT at h
  simp only [overflowCount_eq, getCompare_eq] at h
  split_ifs at h <;> simp only [Option.some.injEq] at h <;> rw [← h] <;>
    simp only [wr_assigns, rd_assigns, invoke_assigns] <;>
    simp [rd, Run.emit, offsetAssigns, List.countP_append, List.countP_cons,
      Event.isOffsetAssign]

theorem setCount_assigns (d : Defs) (v : Nat) (r r1 : Run)
    (h : macMcuOverflowSetCount d v r = Outcome.done r1) :
    offsetAssigns r1.log = offsetAssigns r.log + 2 := by
  unfold macMcuOverflowSetCount MAC_ASSERT at h
  split_ifs at h
  simp only [overflowCount_eq, setAccumulatedOverflowCount, Outcome.done.injEq] at h
  rw [← h]
  simp only [exit_assigns, wr_assigns, MAC_MCU_T2_ACCESS_OVF_COUNT_VALUE, select_assigns,
    enter_assigns]
  simp [offsetAssigns, List.countP_append, List.countP_cons, Event.isOffsetAssign]

theorem waitRssiValid_assigns :
    ∀ (fuel : Nat) (r r1 : Run), waitRssiValid fuel r = some r1 →
      offsetAssigns r1.log = offsetAssigns r.log := by
  intro fuel
  induction fuel with
  | zero =>
    intro r r1 h
    simp [waitRssiValid] at h
  | succ n ih =>
    intro r r1 h
    unfold waitRssiValid at h
    simp only [rdRSSISTAT] at h
    split_ifs at h
    · simp only [Option.some.injEq] at h
      rw [← h]
      simp [offsetAssigns_snoc, Event.isOffsetAssign]
    · rw [ih _ _ h]
      simp [offsetAssigns_snoc, Event.isOffsetAssign]

theorem seedLoop_assigns :
    ∀ (n s : Nat) (r : Run),
      offsetAssigns (seedLoop n s r).2.log = offsetAssigns r.log := by
  intro n
  induction n with
  | zero =>
    intro s r
    rfl
  | succ n ih =>
    intro s r
    unfold seedLoop
    simp only [rdRFRND]
    rw [ih]
    simp [offsetAssigns_snoc, Event.isOffsetAssign]

theorem initSeed_assigns (r : Run) :
    offsetAssigns (macMcuInitSeed r).2.log = offsetAssigns r.log := by
  unfold macMcuInitSeed
  simp only [wr_assigns]
  exact seedLoop_assigns 16 0 r

theorem setMacChipVersion_assigns (v : Nat) (r : Run) :
    offsetAssigns (setMacChipVersion v r).log = offsetAssigns r.log := by
  simp [setMacChipVersion, offsetAssigns_snoc, Event.isOffsetAssign]

theorem initRadio_assigns (d : Defs) (r : Run) :
    offsetAssigns (macMcuInitRadio d r).log = offsetAssigns r.log := by
  simp only [macMcuInitRadio, setMacChipVersion_assigns, rd_assigns, wr_assigns]

theorem initTimer_assigns (d : Defs) (cb : Callbacks) (r : Run) :
    offsetAssigns (macMcuInitTimer d cb r).log = offsetAssigns r.log := by
  simp only [macMcuInitTimer, MAC_MCU_T2_ACCESS_PERIOD_VALUE, rd_assigns, wr_assigns,
    invoke_assigns, exit_assigns, select_assigns, enter_assigns]

theorem initRxOn_assigns (d : Defs) (cb : Callbacks) (r : Run) :
    offsetAssigns (macMcuInitRxOn d cb r).log = offsetAssigns r.log := by
  simp only [macMcuInitRxOn, wr_assigns, invoke_assigns]

theorem initFinish_assigns (d : Defs) (cb : Callbacks) (r : Run) :
    offsetAssigns (macMcuInitFinish d cb r).log = offsetAssigns r.log := by
  simp only [macMcuInitFinish, wr_assigns, invoke_assigns]

theorem init_assigns (d : Defs) (cb : Callbacks) (fuel : Nat) (r r1 : Run)
    (h : macMcuInit d cb fuel r = some r1) :
    offsetAssigns r1.log = offsetAssigns r.log := by
  unfold macMcuInit at h
  simp only at h
  split at h
  · simp at h
  · rename_i r2 hw
    simp only [Option.some.injEq] at h
    rw [← h, initFinish_assigns, initSeed_assigns, waitRssiValid_assigns _ _ _ hw,
      initRxOn_assigns, initTimer_assigns, initRadio_assigns]

theorem idle_keepOffset : Callbacks.idle.keepOffset :=
  fun _ => ⟨rfl, rfl, rfl, rfl, rfl, rfl, rfl, rfl, rfl, rfl, rfl, rfl⟩

/-- C21: for every state and either byte order, `macMcuOverflowCount`,
`macMcuOverflowCapture` and `macMcuOverflowGetCompare` select the count, capture and
compare view respectively and return a defined value that is at most `2^24 - 1`; when
the three sub-registers of that view hold bytes the value is
`T2MOVF0 + 256 * T2MOVF1 + 65536 * T2MOVF2` of the view. -/
theorem C21_getters_24bit (d : Defs) (r : Run) :
    ((macMcuOverflowCount d r).2.hw.ovfSel = OvfSel.count ∧
      ∃ c, (macMcuOverflowCount d r).1 = some c ∧ c ≤ 2 ^ 24 - 1 ∧
        (r.hw.ovfCount.b0 < 256 ∧ r.hw.ovfCount.b1 < 256 ∧ r.hw.ovfCount.b2 < 256 →
          c = r.hw.ovfCount.b0 + 256 * r.hw.ovfCount.b1 + 65536 * r.hw.ovfCount.b2)) ∧
    ((macMcuOverflowCapture d r).2.hw.ovfSel = OvfSel.capture ∧
      ∃ c, (macMcuOverflowCapture d r).1 = some c ∧ c ≤ 2 ^ 24 - 1 ∧
        (r.hw.ovfCapture.b0 < 256 ∧ r.hw.ovfCapture.b1 < 256 ∧ r.hw.ovfCapture.b2 < 256 →
          c = r.hw.ovfCapture.b0 + 256 * r.hw.ovfCapture.b1
            + 65536 * r.hw.ovfCapture.b2)) ∧
    ((macMcuOverflowGetCompare d r).2.hw.ovfSel = OvfSel.cmp1 ∧
      ∃ c, (macMcuOverflowGetCompare d r).1 = some c ∧ c ≤ 2 ^ 24 - 1 ∧
        (r.hw.ovfCmp1.b0 < 256 ∧ r.hw.ovfCmp1.b1 < 256 ∧ r.hw.ovfCmp1.b2 < 256 →
          c = r.hw.ovfCmp1.b0 + 256 * r.hw.ovfCmp1.b1 + 65536 * r.hw.ovfCmp1.b2)) := by
  rw [overflowCount_eq, overflowCapture_eq, getCompare_eq]
  refine ⟨⟨rfl, _, rfl, ?_, ?_⟩, ⟨rfl, _, rfl, ?_, ?_⟩, ⟨rfl, _, rfl, ?_, ?_⟩⟩ <;> omega

/-- Evaluation of C21 with the overflow counter at `0xFFFFFF`: `macMcuOverflowCount`
returns `2^24 - 1`, the bound is reached. -/
theorem C21_getters_24bit_witness :
    (macMcuOverflowCount cc2530 (Run.start nearWrap quiet)).1 = some (2 ^ 24 - 1) :=
  match (C21_getters_24bit cc2530 (Run.start nearWrap quiet)).1.2 with
  | ⟨_, hc, _, hv⟩ => by rw [hc, hv (by decide)]; rfl

/-- C22: for `v < 2^24`, `macMcuOverflowSetCount v` returns and leaves the accumulated
offset at `(old offset + overflow count read at entry - v) mod 2^32`, with two assignments
to it in the log. The getters, `macMcuPrecisionCount`, `macMcuTimerCapture`,
`macMcuRandomByte`, `macMcuTimerForceDelay`, the RSSI start, stop and sample update, and
`macMcuOverflowSetCompare v` leave the offset as it was. The three handlers, the
workaround and `macMcuInit` log no assignment to the offset, and leave it as it was when
the functions they call outside the file do. -/
theorem C22_offset_changed_by_setCount_only (d : Defs) (cb : Callbacks) (fuel x v : Nat)
    (r : Run) :
    (v < 2 ^ 24 →
      ∃ r1 c, macMcuOverflowSetCount d v r = Outcome.done r1 ∧
        (macMcuOverflowCount d r).1 = some c ∧
        (r1.hw.accumulatedOverflowCount : Int)
          = ((r.hw.accumulatedOverflowCount : Int) + (c : Int) - (v : Int)) % 2 ^ 32 ∧
        offsetAssigns r1.log = offsetAssigns r.log + 2) ∧
    ((macMcuOverflowCount d r).2.hw.accumulatedOverflowCount
        = r.hw.accumulatedOverflowCount ∧
      (macMcuOverflowCapture d r).2.hw.accumulatedOverflowCount
        = r.hw.accumulatedOverflowCount ∧
      (macMcuOverflowGetCompare d r).2.hw.accumulatedOverflowCount
        = r.hw.accumulatedOverflowCount ∧
      (macMcuPrecisionCount d r).2.hw.accumulatedOverflowCount
        = r.hw.accumulatedOverflowCount ∧
      (macMcuTimerCapture r).2.hw.accumulatedOverflowCount
        = r.hw.accumulatedOverflowCount ∧
      (macMcuRandomByte d r).2.hw.accumulatedOverflowCount
        = r.hw.accumulatedOverflowCount ∧
      (macMcuTimerForceDelay x r).hw.accumulatedOverflowCount
        = r.hw.accumulatedOverflowCount ∧
      (macMcuRecordMaxRssiStart d r).hw.accumulatedOverflowCount
        = r.hw.accumulatedOverflowCount ∧
      (macMcuRecordMaxRssiStop d r).2.hw.accumulatedOverflowCount
        = r.hw.accumulatedOverflowCount ∧
      (mcuRecordMaxRssiIsr r).hw.accumulatedOverflowCount
        = r.hw.accumulatedOverflowCount) ∧
    (v < 2 ^ 24 →
      ∃ r1, macMcuOverflowSetCompare d v r = Outcome.done r1 ∧
        r1.hw.accumulatedOverflowCount = r.hw.accumulatedOverflowCount) ∧
    (offsetAssigns (macMcuTimer2Isr d cb r).log = offsetAssigns r.log ∧
      offsetAssigns (macMcuRfErrIsr d cb r).log = offsetAssigns r.log ∧
      (∀ r1, macMcuRfIsr d cb fuel r = some r1 →
        offsetAssigns r1.log = offsetAssigns r.log) ∧
      (∀ r1, macMcuTimer2OverflowWorkaround d cb r = some r1 →
        offsetAssigns r1.log = offsetAssigns r.log) ∧
      (∀ r1, macMcuInit d cb fuel r = some r1 →
        offsetAssigns r1.log = offsetAssigns r.log)) ∧
    (cb.keepOffset →
      (macMcuTimer2Isr d cb r).hw.accumulatedOverflowCount
        = r.hw.accumulatedOverflowCount ∧
      (macMcuRfErrIsr d cb r).hw.accumulatedOverflowCount
        = r.hw.accumulatedOverflowCount ∧
      (∀ r1, macMcuRfIsr d cb fuel r = some r1 →
        r1.hw.accumulatedOverflowCount = r.hw.accumulatedOverflowCount) ∧
      (∃ r1, macMcuTimer2OverflowWorkaround d cb r = some r1 ∧
        r1.hw.accumulatedOverflowCount = r.hw.accumulatedOverflowCount) ∧
      (∀ r1, macMcuInit d cb fuel r = some r1 →
        r1.hw.accumulatedOverflowCount = r.hw.accumulatedOverflowCount)) := by
  refine ⟨?_, ⟨?_, ?_, ?_, ?_, timerCapture_offset r, randomByte_offset d r,
    timerForceDelay_offset x r, recordMaxRssiStart_offset d r, recordMaxRssiStop_offset d r,
    recordMaxRssiIsr_offset r⟩, fun hv => setCompare_offset d v r hv,
    ⟨timer2Isr_assigns d cb r, rfErrIsr_assigns d cb r,
      fun r1 h => rfIsr_assigns d cb fuel r r1 h,
      fun r1 h => workaround_assigns d cb r r1 h,
      fun r1 h => init_assigns d cb fuel r r1 h⟩, ?_⟩
  · intro hv
    obtain ⟨r1, c, h1, h2, h3⟩ := setCount_offset d v r hv
    exact ⟨r1, c, h1, h2, h3, setCount_assigns d v r r1 h1⟩
  · rw [overflowCount_eq]
  · rw [overflowCapture_eq]
  · rw [getCompare_eq]
  · rw [precisionCount_hw]
  · intro hcb
    exact ⟨timer2Isr_offset d cb r hcb, rfErrIsr_offset d cb r hcb,
      fun r1 h => rfIsr_offset d cb fuel r r1 hcb h, workaround_offset d cb r hcb,
      fun r1 h => init_offset d cb fuel r r1 hcb h⟩

/-- Evaluation of C22: from an offset of `0xFFFFFFFF` and an overflow count of zero,
`macMcuOverflowSetCount 0x30` leaves the offset `(0xFFFFFFFF + 0 - 0x30) mod 2^32` and logs
two assignments; the timer handler with both of its conditions pending and callbacks that
change nothing leaves the offset as it was. -/
theorem C22_offset_changed_by_setCount_only_witness :
    (∃ r1 c, macMcuOverflowSetCount cc2530 0x30 (Run.start accTop quiet) = Outcome.done r1 ∧
      (macMcuOverflowCount cc2530 (Run.start accTop quiet)).1 = some c ∧
      (r1.hw.accumulatedOverflowCount : Int)
        = (((Run.start accTop quiet).hw.accumulatedOverflowCount : Int) + (c : Int)
            - ((0x30 : Nat) : Int)) % 2 ^ 32 ∧
      offsetAssigns r1.log = offsetAssigns (Run.start accTop quiet).log + 2) ∧
    (macMcuTimer2Isr cc2530 Callbacks.idle
        (Run.start bothPending quiet)).hw.accumulatedOverflowCount
      = (Run.start bothPending quiet).hw.accumulatedOverflowCount :=
  ⟨(C22_offset_changed_by_setCount_only cc2530 Callbacks.idle 2 0 0x30
      (Run.start accTop quiet)).1 (by norm_num),
   ((C22_offset_changed_by_setCount_only cc2530 Callbacks.idle 2 0 0x30
      (Run.start bothPending quiet)).2.2.2.2 idle_keepOffset).1⟩

/-- C23: for every `v < 2^24`, every state and either byte order,
`macMcuOverflowSetCompare v` returns, and `macMcuOverflowGetCompare` called in the state
it leaves returns `v`, whether the compare interrupt was enabled at entry or not. -/
theorem C23_setCompare_then_getCompare (d : Defs) (v : Nat) (r : Run) (hv : v < 2 ^ 24) :
    ∃ r1, macMcuOverflowSetCompare d v r = Outcome.done r1 ∧
      (macMcuOverflowGetCompare d r1).1 = some v := by
  have key : ∀ r1 : Run, r1.hw.ovfCmp1 = Triple.ofNat v →
      (macMcuOverflowGetCompare d r1).1 = some v := by
    intro r1 h
    rw [getCompare_eq, h]
    simp only [Triple.ofNat, Option.some.injEq]
    omega
  by_cases hen : r.hw.T2IRQM &&& d.TIMER2_OVF_COMPARE1M = 0
  · obtain ⟨r1, h1, _, h3⟩ := setCompare_disabled d v r hv hen
    exact ⟨r1, h1, key r1 (by rw [h3])⟩
  · obtain ⟨r1, h1, _, h3⟩ := setCompare_enabled d v r hv hen
    exact ⟨r1, h1, key r1 (by rw [h3])⟩

/-- Evaluation of C23 for `0xABCDEF`, once with the compare interrupt enabled and pending
at entry, once with it disabled. -/
theorem C23_setCompare_then_getCompare_witness :
    (∃ r1, macMcuOverflowSetCompare cc2530 0xABCDEF (Run.start compareArmed quiet)
        = Outcome.done r1 ∧ (macMcuOverflowGetCompare cc2530 r1).1 = some 0xABCDEF) ∧
    (∃ r1, macMcuOverflowSetCompare cc2530 0xABCDEF (Run.start nearWrap quiet)
        = Outcome.done r1 ∧ (macMcuOverflowGetCompare cc2530 r1).1 = some 0xABCDEF) :=
  ⟨C23_setCompare_then_getCompare cc2530 0xABCDEF (Run.start compareArmed quiet)
      (by norm_num),
   C23_setCompare_then_getCompare cc2530 0xABCDEF (Run.start nearWrap quiet) (by norm_num)⟩

end MacMcu
